import Mathlib

/-! rpiws281x: the PWM protocol encoder and its callers.

A shallow embedding of the Go package `rpiws281x` (files `const.go`, `config.go`,
`leds.go`, `singleLED.go`, `pwm.go`, `dma.go`) and theorems about it.

Conventions of the embedding.

* `uint8`, `uint32` values are natural numbers; every operation that can leave the
  range of its Go type is followed by an explicit `% 2 ^ 32`.
* `int` values that only count upwards (`TotalCount()`, loop indices) are natural
  numbers, and `int` arithmetic on them is exact; the bit cursor `bitPos`, which is
  decremented below zero before it is reset, is an integer.
* A mapped memory window is a function from byte offsets to 32-bit words;
  `*rpimemmap.Reg32(m, off)` is `m off`.
* The three `float32` operations of `renderPWM` are modelled on numerators: see
  `roundSig24`.
* `RenderState.writes` is a ghost log: it records, in program order, which bit of
  which buffer word every execution of the innermost loop body of `renderPWM`
  stores to. It is never read by the embedded code.
-/

namespace Rpiws281x

/-! ## const.go -/

/-- The package's error values, plus errors handed up from the GPIO collaborator. -/
inductive Error where
  | ErrNoClockMap
  | ErrNoHardware
  | ErrDriverAlreadyUsed
  | ErrConfigInitialized
  | ErrConfigWrongIndex
  | ErrDriverNotSupported
  | ErrPinNotAllowed
  | ErrNoActiveChannel
  | ErrWrongFrequency
  | external (code : Nat)
deriving DecidableEq, Repr

def DriverPWM : Nat := 1
def DriverPCM : Nat := 2
def DriverSPI : Nat := 4

def sk6812ShiftMask : Nat := 0xf0000000

def SK6812StripRGBW : Nat := 0x18100800
def SK6812StripRBGW : Nat := 0x18100008
def SK6812StripGRBW : Nat := 0x18081000
def SK6812StripGBRW : Nat := 0x18080010
def SK6812StripBRGW : Nat := 0x18001008
def SK6812StripBGRW : Nat := 0x18000810

def WS2811StripRGB : Nat := 0x00100800
def WS2811StripRBG : Nat := 0x00100008
def WS2811StripGRB : Nat := 0x00081000
def WS2811StripGBR : Nat := 0x00080010
def WS2811StripBRG : Nat := 0x00001008
def WS2811StripBGR : Nat := 0x00000810

def symbolHigh : Nat := 0b110
def symbolLow : Nat := 0b100

/-- The table `gammaTable` after the package's `init`: entry `x` holds `uint8(x)`. -/
def gammaTable : List Nat := (List.range 256).map (fun x => x % 256)

/-! ## leds.go, config.go: data -/

/-- The part of the interface `LEDs` the encoder consumes. `UInt32 i` is reduced
modulo `2 ^ 32` where it is read, so that any function is a well-formed colour
source. -/
structure LEDs where
  UInt32 : Nat → Nat
  TotalCount : Nat

/-- The struct `ledChannel`. A pin is represented by its number. -/
structure ledChannel where
  stripType : Nat
  strip : LEDs
  pin : Option Nat
  invert : Bool
  active : Bool
  brightness : Nat
  wshift : Nat
  rshift : Nat
  gshift : Nat
  bshift : Nat

/-- The zero value of `ledChannel`, as produced by `make([]ledChannel, 2, 2)`. -/
def ledChannel.zero : ledChannel :=
  { stripType := 0, strip := { UInt32 := fun _ => 0, TotalCount := 0 }, pin := none,
    invert := false, active := false, brightness := 0,
    wshift := 0, rshift := 0, gshift := 0, bshift := 0 }

/-- The struct `Config`. Times are in nanoseconds on the clock of `World.now`;
`previousRenderTime = none` is the zero `time.Time`. -/
structure Config where
  driverType : Nat
  dmaChannel : Nat
  frequency : Nat
  channels : List ledChannel
  initialized : Bool
  renderWaitTime : Int
  previousRenderTime : Option Int

/-! ## pwm.go: the encoder -/

/-- One store of the innermost loop of `renderPWM`: the index of the channel in the
rendered slice, the byte offset of the word in `pwmDataMem`, and the bit. -/
structure WriteRec where
  chan : Nat
  offset : Nat
  bit : Nat
deriving DecidableEq, Repr

/-- What the loops over pixels, colours, bits and symbol bits read and write. -/
structure Cursor where
  mem : Nat → Nat
  writes : List WriteRec
  bitPos : Int
  wordPos : Nat

/-- What survives from one channel of `renderPWM` to the next (`wordPos` is declared
inside the channel loop). -/
structure RenderState where
  mem : Nat → Nat
  writes : List WriteRec
  bitPos : Int
  protocolTime : Nat

/-- Store `v` to the word at byte offset `off`. -/
def setWord (m : Nat → Nat) (off v : Nat) : Nat → Nat :=
  fun a => if a = off then v else m a

/-- The body of the loop `for l := 2; l >= 0; l--`, with the test
`(symbol & (1 << l)) != 0` already evaluated to `b`. -/
def putBit (activePWMChannels curChanID : Nat) (s : Cursor) (b : Bool) : Cursor :=
  let off := (s.wordPos * 4) % 2 ^ 32
  let mask := (1 <<< s.bitPos.toNat) % 2 ^ 32
  let m1 := setWord s.mem off (s.mem off &&& (0xffffffff ^^^ mask))
  let m2 := if b then setWord m1 off (m1 off ||| mask) else m1
  let ws := s.writes ++ [{ chan := curChanID, offset := off, bit := s.bitPos.toNat }]
  let bitPos := s.bitPos - 1
  if bitPos < 0 then
    { mem := m2, writes := ws, bitPos := 31,
      wordPos := if activePWMChannels = 2 then (s.wordPos + 2) % 2 ^ 32
                 else (s.wordPos + 1) % 2 ^ 32 }
  else
    { mem := m2, writes := ws, bitPos := bitPos, wordPos := s.wordPos }

/-- The loop `for l := 2; l >= 0; l--` for one symbol. -/
def putSymbol (activePWMChannels curChanID : Nat) (s : Cursor) (symbol : Nat) : Cursor :=
  [2, 1, 0].foldl
    (fun s l => putBit activePWMChannels curChanID s (decide (symbol &&& (1 <<< l) ≠ 0))) s

/-- The loop `for k := 7; k >= 0; k--` for one colour byte. -/
def putColor (activePWMChannels curChanID : Nat) (s : Cursor) (curColor : Nat) : Cursor :=
  [7, 6, 5, 4, 3, 2, 1, 0].foldl
    (fun s k => putSymbol activePWMChannels curChanID s
      (if curColor &&& (1 <<< k) ≠ 0 then symbolHigh else symbolLow)) s

/-- The entry `gammaTable[(((curLED>>shift)&0xff)*scale)>>8]`. -/
def scaledColor (scale curLED shift : Nat) : Nat :=
  gammaTable.getD ((((curLED >>> shift) &&& 0xff) * scale) >>> 8) 0

/-- The value `scale := uint32((curChannel.brightness & 0xff)) + 1`. -/
def ledChannel.scale (ch : ledChannel) : Nat := (ch.brightness &&& 0xff) + 1

/-- The slice `color` built for the pixel value `curLED`. -/
def ledChannel.color (ch : ledChannel) (curLED : Nat) : List Nat :=
  [ scaledColor ch.scale curLED ch.rshift,
    scaledColor ch.scale curLED ch.gshift,
    scaledColor ch.scale curLED ch.bshift,
    scaledColor ch.scale curLED ch.wshift ]

/-- The value of `ledColors`: 4 if the strip type has a non-zero highest nibble. -/
def ledChannel.ledColors (ch : ledChannel) : Nat :=
  if ch.stripType &&& sk6812ShiftMask ≠ 0 then 4 else 3

/-- The body of the loop over the pixels: pixel `i` of the channel. -/
def putLED (activePWMChannels curChanID : Nat) (ch : ledChannel) (s : Cursor) (i : Nat) :
    Cursor :=
  let curLED := ch.strip.UInt32 i % 2 ^ 32
  (List.range ch.ledColors).foldl
    (fun s j => putColor activePWMChannels curChanID s ((ch.color curLED).getD j 0)) s

/-- Rounding to `float32`: the nearest number with a 24-bit significand, ties to
even. Applied to the numerator of a non-negative number `m / 2 ^ e` it gives the
numerator of the rounded number (the exponent range of `float32` is not reached by
any value of `renderPWM`). -/
def roundSig24 (m : Nat) : Nat :=
  if m < 2 ^ 24 then m
  else
    let sh := Nat.log2 m - 23
    let q := m / 2 ^ sh
    let r := m % 2 ^ sh
    (if 2 ^ sh < 2 * r ∨ (2 * r = 2 ^ sh ∧ q % 2 = 1) then q + 1 else q) * 2 ^ sh

/-- The constant `bitTime` in quarters of a microsecond: 1.25 at 800000, else 2.5. -/
def bitTimeQ (frequency : Nat) : Nat := if frequency = 800000 then 5 else 10

/-- The value `uint32(float32(count*ledColors*8) * bitTime)`: conversion of the
product to `float32`, `float32` multiplication by `bitTime` (numerator over 4),
truncation to `uint32`. -/
def channelProtocolTime (frequency : Nat) (ch : ledChannel) : Nat :=
  (roundSig24 (roundSig24 (ch.strip.TotalCount * ch.ledColors * 8) * bitTimeQ frequency) / 4)
    % 2 ^ 32

/-- The body of the loop `for curChanID, curChannel := range channels`. -/
def renderChannel (frequency activePWMChannels : Nat) (st : RenderState)
    (curChanID : Nat) (curChannel : ledChannel) : RenderState :=
  if !curChannel.active then st
  else
    let wordPos := curChanID % 2 ^ 32
    let cpt := channelProtocolTime frequency curChannel
    let protocolTime := if cpt > st.protocolTime then cpt else st.protocolTime
    let c := (List.range curChannel.strip.TotalCount).foldl
      (fun s i => putLED activePWMChannels curChanID curChannel s i)
      { mem := st.mem, writes := st.writes, bitPos := st.bitPos, wordPos := wordPos }
    { mem := c.mem, writes := c.writes, bitPos := c.bitPos, protocolTime := protocolTime }

/-- The loops of `renderPWM`, from `bitPos = 31` and `protocolTime = 0`, over the
data buffer `mem` with write log `writes`. -/
def renderPWMLoop (channels : List ledChannel) (frequency activePWMChannels : Nat)
    (mem : Nat → Nat) (writes : List WriteRec) : RenderState :=
  channels.enum.foldl
    (fun st p => renderChannel frequency activePWMChannels st p.1 p.2)
    { mem := mem, writes := writes, bitPos := 31, protocolTime := 0 }

/-- The value `int64(protocolTime + 300)` returned by `renderPWM`. -/
def renderPWMResult (st : RenderState) : Int := Int.ofNat ((st.protocolTime + 300) % 2 ^ 32)

/-! ## Package-level state -/

/-- The package-level variables and devices that rendering touches, for an
initialised pipeline (all windows mapped): the active-channel count, the data
buffer with its write log, the DMA register window, the bus address of the DMA
control block, and the clock read by `time.Now()` (nanoseconds). -/
structure World where
  activePWMChannels : Nat
  pwmDataMem : Nat → Nat
  pwmDataWrites : List WriteRec
  dmaRegisterMem : Nat → Nat
  dmaCBRegisterMemPWMBusAddr : Nat
  now : Int

/-- The function `renderPWM`: the returned `int64` and the state it leaves. The
returned `error` is always `nil`. -/
def renderPWM (channels : List ledChannel) (frequency : Nat) (w : World) : Int × World :=
  let st := renderPWMLoop channels frequency w.activePWMChannels w.pwmDataMem w.pwmDataWrites
  (renderPWMResult st, { w with pwmDataMem := st.mem, pwmDataWrites := st.writes })

/-! ## dma.go -/

def registerOffsetDmaCs : Nat := 0x00
def registerOffsetDmaConblkAd : Nat := 0x04
def registerOffsetDmaDebug : Nat := 0x20

def registerValueDmaCsReset : Nat := 1 <<< 31
def registerValueDmaCsWaitOutstandingWrites : Nat := 1 <<< 28
def registerValueDmaCsInt : Nat := 1 <<< 2
def registerValueDmaCsEnd : Nat := 1 <<< 1
def registerValueDmaCsActive : Nat := 1 <<< 0

def registerValueDmaCsPanicPriority (val : Nat) : Nat := ((val &&& 0xf) <<< 20) % 2 ^ 32
def registerValueDmaCsPriority (val : Nat) : Nat := ((val &&& 0xf) <<< 16) % 2 ^ 32

def registerOffsetDmaChannel (ch r : Nat) : Nat := ((ch * 0x100) % 2 ^ 32 + r) % 2 ^ 32

/-- The call `time.Sleep(d)`, `d` in nanoseconds: the clock advances by `d`. -/
def sleep (d : Int) (w : World) : World := { w with now := w.now + max d 0 }

/-- The function `stopDMA` on a mapped DMA window. -/
def stopDMA (channel : Nat) (w : World) : World :=
  let cs := registerOffsetDmaChannel channel registerOffsetDmaCs
  { w with dmaRegisterMem := setWord w.dmaRegisterMem cs registerValueDmaCsReset }

/-- The function `startDMA` on a mapped DMA window. -/
def startDMA (channel dmaCBAddress : Nat) (w : World) : World :=
  let w := stopDMA channel w
  let w := sleep 10000 w
  let cs := registerOffsetDmaChannel channel registerOffsetDmaCs
  let conblkAd := registerOffsetDmaChannel channel registerOffsetDmaConblkAd
  let debug := registerOffsetDmaChannel channel registerOffsetDmaDebug
  let intEnd := registerValueDmaCsInt ||| registerValueDmaCsEnd
  let prio := registerValueDmaCsWaitOutstandingWrites ||| registerValueDmaCsPanicPriority 15 |||
    registerValueDmaCsPriority 15
  let w := { w with dmaRegisterMem := setWord w.dmaRegisterMem cs intEnd }
  let w := sleep 10000 w
  let w := { w with dmaRegisterMem := setWord w.dmaRegisterMem conblkAd dmaCBAddress }
  let w := { w with dmaRegisterMem := setWord w.dmaRegisterMem debug 7 }
  let w := { w with dmaRegisterMem := setWord w.dmaRegisterMem cs prio }
  let active := w.dmaRegisterMem cs ||| registerValueDmaCsActive
  let w := { w with dmaRegisterMem := setWord w.dmaRegisterMem cs active }
  sleep 20000 w

/-! ## config.go -/

/-- The table `pwmChannels`: per PWM channel, the pins with their alternate
function number. -/
def pwmChannels : List (List (Nat × Nat)) :=
  [ [(12, 0), (18, 5), (40, 0)],
    [(13, 0), (19, 5), (41, 0), (45, 0)] ]

/-- The method `pwmPinTable.getAltMode`. -/
def pwmPinTable.getAltMode (ptl : List (Nat × Nat)) (pinNum : Nat) : Except Error Nat :=
  match ptl.find? (fun curEntry => curEntry.1 = pinNum) with
  | some curEntry => .ok curEntry.2
  | none => .error .ErrPinNotAllowed

/-- The method `pwmChannelType.getAltMode`. -/
def pwmChannelType.getAltMode (pc : List (List (Nat × Nat))) (chanNum pinNum : Nat) :
    Except Error Nat :=
  pwmPinTable.getAltMode (pc.getD chanNum []) pinNum

/-- The function `New`. -/
def New (driverType : Nat) : Except Error Config :=
  if driverType = DriverPWM then
    .ok { driverType := driverType, dmaChannel := 10, frequency := 800000,
          channels := [ledChannel.zero, ledChannel.zero], initialized := false,
          renderWaitTime := 0, previousRenderTime := none }
  else .error .ErrDriverNotSupported

/-- The method `Config.SetStrip`: the receiver after the call and the returned
error. `NewPin` is the collaborator `rpigpio.NewPin`, which yields a pin (or nil) and
an error (or nil). -/
def Config.SetStrip (NewPin : Nat → Option Nat × Option Error) (c : Config) (ledStrip : LEDs)
    (pin stripType : Nat) (stripIndex : Int) (invertSignal : Bool) : Config × Option Error :=
  if c.initialized then (c, some .ErrConfigInitialized)
  else if stripIndex < 0 then (c, some .ErrConfigWrongIndex)
  else if c.driverType = DriverPWM then
    if stripIndex ≥ 2 then (c, some .ErrConfigWrongIndex)
    else
      let idx := stripIndex.toNat
      let curChannel := c.channels.getD idx ledChannel.zero
      match pwmChannelType.getAltMode pwmChannels idx pin with
      | .error err => (c, some err)
      | .ok _ =>
        let curChannel := { curChannel with pin := (NewPin pin).1 }
        match (NewPin pin).2 with
        | some err => ({ c with channels := c.channels.set idx curChannel }, some err)
        | none =>
          let curChannel := { curChannel with
            strip := ledStrip
            stripType := stripType
            invert := invertSignal
            active := true
            wshift := ((stripType >>> 24) &&& 0xff) % 256
            rshift := ((stripType >>> 16) &&& 0xff) % 256
            gshift := ((stripType >>> 8) &&& 0xff) % 256
            bshift := ((stripType >>> 0) &&& 0xff) % 256 }
          ({ c with channels := c.channels.set idx curChannel }, none)
  else (c, none)

/-- The throttle at the head of `Config.Render`: sleep until `renderWaitTime`
microseconds have passed since `previousRenderTime`. -/
def Config.throttle (c : Config) (w : World) : World :=
  match c.previousRenderTime with
  | none => w
  | some prev =>
    if c.renderWaitTime ≠ 0 then
      let timeDiff := w.now - prev
      if Int.tdiv timeDiff 1000 < c.renderWaitTime then
        sleep ((c.renderWaitTime - Int.tdiv timeDiff 1000) * 1000) w
      else w
    else w

/-- The method `Config.Render` on an initialised pipeline. The slice expression
`c.channels[stripIndex:stripIndex+1]` is `drop` then `take 1`. -/
def Config.Render (c : Config) (stripIndex : Int) (w : World) : Except Error (Config × World) :=
  if stripIndex < -1 then .error .ErrConfigWrongIndex
  else if c.driverType = DriverPWM then
    if stripIndex ≥ 2 then .error .ErrConfigWrongIndex
    else
      let w := c.throttle w
      let r := if stripIndex = -1 then renderPWM c.channels c.frequency w
               else renderPWM ((c.channels.drop stripIndex.toNat).take 1) c.frequency w
      let c := { c with renderWaitTime := r.1 }
      let w := startDMA c.dmaChannel r.2.dmaCBRegisterMemPWMBusAddr r.2
      .ok ({ c with previousRenderTime := some w.now }, w)
  else .ok (c, w)

/-! ## singleLED.go: the components of a pixel value -/

/-- The method `SingleLED.Red`: `uint8(*l>>16) & 255`. -/
def SingleLED.Red (l : Nat) : Nat := ((l >>> 16) % 256) &&& 255
/-- The method `SingleLED.Green`: `uint8(*l>>8) & 255`. -/
def SingleLED.Green (l : Nat) : Nat := ((l >>> 8) % 256) &&& 255
/-- The method `SingleLED.Blue`: `uint8(*l) & 255`. -/
def SingleLED.Blue (l : Nat) : Nat := (l % 256) &&& 255
/-- The method `SingleLED.White`: `uint8(*l>>24) & 255`. -/
def SingleLED.White (l : Nat) : Nat := ((l >>> 24) % 256) &&& 255

/-! ## Observations on the encoder -/

/-- The colour bytes the loop `for j := 0; j < ledColors; j++` passes to the bit
loop for one pixel, in order. -/
def ledChannel.emitted (ch : ledChannel) (curLED : Nat) : List Nat :=
  (List.range ch.ledColors).map (fun j => (ch.color curLED).getD j 0)

/-- The letters of a strip type name. -/
inductive Component where
  | R | G | B | W
deriving DecidableEq, Repr

/-- The byte of the pixel value `0xWWRRGGBB` that a letter names. -/
def Component.of (l : Nat) : Component → Nat
  | .R => SingleLED.Red l
  | .G => SingleLED.Green l
  | .B => SingleLED.Blue l
  | .W => SingleLED.White l

/-- The twelve named strip types, each with the ordering spelled by its name. -/
def namedStripTypes : List (Nat × List Component) :=
  [ (WS2811StripRGB, [.R, .G, .B]), (WS2811StripRBG, [.R, .B, .G]),
    (WS2811StripGRB, [.G, .R, .B]), (WS2811StripGBR, [.G, .B, .R]),
    (WS2811StripBRG, [.B, .R, .G]), (WS2811StripBGR, [.B, .G, .R]),
    (SK6812StripRGBW, [.R, .G, .B, .W]), (SK6812StripRBGW, [.R, .B, .G, .W]),
    (SK6812StripGRBW, [.G, .R, .B, .W]), (SK6812StripGBRW, [.G, .B, .R, .W]),
    (SK6812StripBRGW, [.B, .R, .G, .W]), (SK6812StripBGRW, [.B, .G, .R, .W]) ]

/-- A four-colour channel as `SetStrip` configures it for `SK6812StripRGBW`, at full
brightness. -/
def rgbwChannel : ledChannel :=
  { ledChannel.zero with
    stripType := SK6812StripRGBW, active := true, brightness := 255,
    wshift := 24, rshift := 16, gshift := 8, bshift := 0 }

/-- The shift that selects a component of the pixel value `0xWWRRGGBB`. -/
def Component.shift : Component → Nat
  | .R => 16
  | .G => 8
  | .B => 0
  | .W => 24

/-- The shifts, in emission order, of the bytes a channel emits per pixel. -/
def ledChannel.emittedShifts (ch : ledChannel) : List Nat :=
  (List.range ch.ledColors).map (fun j => [ch.rshift, ch.gshift, ch.bshift, ch.wshift].getD j 0)

/-! ## Closed forms used in the proofs -/

/-- By how many words the cursor advances when it leaves a word. -/
def wordStep (activePWMChannels : Nat) : Nat := if activePWMChannels = 2 then 2 else 1

/-- How many bits of the current word the cursor has already passed. -/
def Cursor.phase (s : Cursor) : Nat := (31 - s.bitPos).toNat

/-- The store number `k` (from 0) of a run of the innermost loop that starts at word
`w0` with `ph` bits of that word already passed. -/
def writePos (activePWMChannels chan w0 ph k : Nat) : WriteRec :=
  { chan := chan,
    offset := (((w0 + wordStep activePWMChannels * ((k + ph) / 32)) % 2 ^ 32) * 4) % 2 ^ 32,
    bit := 31 - (k + ph) % 32 }

/-- The cursor is inside a word and `wordPos` is a `uint32`. -/
def Cursor.WF (s : Cursor) : Prop := 0 ≤ s.bitPos ∧ s.bitPos ≤ 31 ∧ s.wordPos < 2 ^ 32

/-- The test `(symbol & (1 << l)) != 0` of the innermost loop. -/
def symbolBit (symbol l : Nat) : Bool := decide (symbol &&& (1 <<< l) ≠ 0)

/-- The symbol chosen for bit `k` of the colour byte `curColor`. -/
def colorSymbol (curColor k : Nat) : Nat :=
  if curColor &&& (1 <<< k) ≠ 0 then symbolHigh else symbolLow

/-- The 24 bits stored for one colour byte, in program order. -/
def colorBit (curColor q : Nat) : Bool := symbolBit (colorSymbol curColor (7 - q / 3)) (2 - q % 3)

/-- The bit that store number `k` of a channel's pixel loop stores: pixel
`k / (ledColors*24)`, colour byte `(k % (ledColors*24)) / 24`, and bit `k % 24` of the
24 bits of that byte. -/
def ledChannel.streamBit (ch : ledChannel) (k : Nat) : Bool :=
  let p := k % (ch.ledColors * 24)
  let curLED := ch.strip.UInt32 (k / (ch.ledColors * 24)) % 2 ^ 32
  colorBit ((ch.color curLED).getD (p / 24) 0) (p % 24)

/-- All bits a channel's pixel loop stores, in program order. -/
def ledChannel.stream (ch : ledChannel) : List Bool :=
  (List.range (ch.strip.TotalCount * (ch.ledColors * 24))).map ch.streamBit

/-- The cursor with which the pixel loop of channel `chan` starts. -/
def RenderState.cursor (st : RenderState) (chan : Nat) : Cursor :=
  { mem := st.mem, writes := st.writes, bitPos := st.bitPos, wordPos := chan % 2 ^ 32 }

/-- The slice of channels `Config.Render` hands to `renderPWM`. -/
def Config.rendered (c : Config) (stripIndex : Int) : List ledChannel :=
  if stripIndex = -1 then c.channels else (c.channels.drop stripIndex.toNat).take 1

/-! ## Statements of the claims about the buffer, and the inputs of the examples -/

/-- The statement of C3 for a render of the single channel `ch` (index 0) from the
state `w`: the render stores to exactly `n*d*8*3` distinct bit positions, these lie
in exactly the words `0 .. ceil(n*d*24/32)-1`, and every other bit of the buffer
keeps its value. -/
def EncodesExactly (ch : ledChannel) (frequency : Nat) (w : World) : Prop :=
  (renderPWM [ch] frequency w).2.pwmDataWrites.length
      = ch.strip.TotalCount * ch.ledColors * 8 * 3
  ∧ (renderPWM [ch] frequency w).2.pwmDataWrites.Nodup
  ∧ (∀ r ∈ (renderPWM [ch] frequency w).2.pwmDataWrites, r.offset % 4 = 0 ∧ r.bit < 32)
  ∧ (∀ k, (∃ r ∈ (renderPWM [ch] frequency w).2.pwmDataWrites, r.offset = 4 * k)
        ↔ k < (ch.strip.TotalCount * ch.ledColors * 8 * 3 + 31) / 32)
  ∧ (∀ a j, j < 32 →
      (∀ r ∈ (renderPWM [ch] frequency w).2.pwmDataWrites, ¬ (r.offset = a ∧ r.bit = j)) →
      ((renderPWM [ch] frequency w).2.pwmDataMem a).testBit j = (w.pwmDataMem a).testBit j)

/-- A state with one active PWM channel, a zeroed data buffer and an empty log. -/
def oneChannelWorld : World :=
  { activePWMChannels := 1, pwmDataMem := fun _ => 0, pwmDataWrites := [],
    dmaRegisterMem := fun _ => 0, dmaCBRegisterMemPWMBusAddr := 0, now := 0 }

/-- A state with two active PWM channels, a zeroed data buffer and an empty log. -/
def twoChannelWorld : World :=
  { activePWMChannels := 2, pwmDataMem := fun _ => 0, pwmDataWrites := [],
    dmaRegisterMem := fun _ => 0, dmaCBRegisterMemPWMBusAddr := 0, now := 0 }

/-- A three-colour channel (`WS2811StripRGB`) over the strip `strip`, at full
brightness. -/
def rgbChannel (strip : LEDs) : ledChannel :=
  { ledChannel.zero with
    stripType := WS2811StripRGB, strip := strip, active := true, brightness := 255,
    wshift := 0, rshift := 16, gshift := 8, bshift := 0 }

/-- A strip of `n` pixels that all hold `v`. -/
def constStrip (n v : Nat) : LEDs := { UInt32 := fun _ => v, TotalCount := n }

/-! ## The decoder of the round-trip claim -/

/-- Bit `k` of the data buffer read as a bit stream, word 0 first, bit 31 first. -/
def readBit (mem : Nat → Nat) (k : Nat) : Bool := (mem (4 * (k / 32))).testBit (31 - k % 32)

/-- The 3-bit group number `g` of that bit stream, as a number. -/
def readGroup (mem : Nat → Nat) (g : Nat) : Nat :=
  (readBit mem (3 * g)).toNat * 4 + (readBit mem (3 * g + 1)).toNat * 2
    + (readBit mem (3 * g + 2)).toNat

/-- Decoding of a symbol: `0b110` is 1, `0b100` is 0, nothing else is legal. -/
def decodeSymbol (symbol : Nat) : Option Nat :=
  if symbol = symbolHigh then some 1 else if symbol = symbolLow then some 0 else none

/-- Append a decoded bit to the bits decoded so far. -/
def pushBit (acc : Option Nat) (x : Option Nat) : Option Nat :=
  match acc with
  | none => none
  | some v =>
    match x with
    | none => none
    | some b => some (2 * v + b)

/-- Decoding of the colour byte number `b` of the stream: its 8 groups, most
significant bit first. -/
def decodeByte (mem : Nat → Nat) (b : Nat) : Option Nat :=
  (List.range 8).foldl (fun acc t => pushBit acc (decodeSymbol (readGroup mem (8 * b + t))))
    (some 0)

/-- The round-trip statement for a render of the slice `[ch]` from the state `w`, with
the buffer read from word 0 on, word after word:
every 3-bit group of the encoded range is a legal symbol, and for every pixel `i` and
emitted colour byte `j` the decoded byte is the scaled, gamma-mapped byte. -/
def RoundTrips (ch : ledChannel) (frequency : Nat) (w : World) : Prop :=
  (∀ g, g < ch.strip.TotalCount * ch.ledColors * 8 →
    readGroup (renderPWM [ch] frequency w).2.pwmDataMem g = symbolHigh ∨
    readGroup (renderPWM [ch] frequency w).2.pwmDataMem g = symbolLow)
  ∧ (∀ i j, i < ch.strip.TotalCount → j < ch.ledColors →
    decodeByte (renderPWM [ch] frequency w).2.pwmDataMem (i * ch.ledColors + j)
      = some ((ch.color (ch.strip.UInt32 i % 2 ^ 32)).getD j 0))

/-- Bit `k` of the bit stream made of the buffer words `first`, `first + step`,
`first + 2*step`, ..., bit 31 of each word first. With `first = 0` and `step = 1` this
is `readBit`. -/
def readBitAt (mem : Nat → Nat) (first step k : Nat) : Bool :=
  (mem (4 * (first + step * (k / 32)))).testBit (31 - k % 32)

/-- The 3-bit group number `g` of that bit stream, as a number. -/
def readGroupAt (mem : Nat → Nat) (first step g : Nat) : Nat :=
  (readBitAt mem first step (3 * g)).toNat * 4 + (readBitAt mem first step (3 * g + 1)).toNat * 2
    + (readBitAt mem first step (3 * g + 2)).toNat

/-- Decoding of the colour byte number `b` of that bit stream: its 8 groups, most
significant bit first. -/
def decodeByteAt (mem : Nat → Nat) (first step b : Nat) : Option Nat :=
  (List.range 8).foldl
    (fun acc t => pushBit acc (decodeSymbol (readGroupAt mem first step (8 * b + t)))) (some 0)

/-- The channel `ch` is the only active channel of the slice `channels`, at index
`idx`. -/
def SoleActiveAt (channels : List ledChannel) (idx : Nat) (ch : ledChannel) : Prop :=
  channels = channels.take idx ++ ch :: channels.drop (idx + 1)
  ∧ idx < channels.length
  ∧ ch.active = true
  ∧ (∀ c ∈ channels.take idx, c.active = false)
  ∧ (∀ c ∈ channels.drop (idx + 1), c.active = false)

/-- The statement of C2 for a render of the slice `channels` from the state `w`, for
its channel `ch`, with the buffer read as the bit stream of the words `first`,
`first + step`, ...: every 3-bit group of the encoded range is a legal symbol, and for
every pixel `i` and emitted colour byte `j` the decoded byte is the scaled,
gamma-mapped byte. -/
def RoundTripsAt (channels : List ledChannel) (ch : ledChannel) (frequency : Nat) (w : World)
    (first step : Nat) : Prop :=
  (∀ g, g < ch.strip.TotalCount * ch.ledColors * 8 →
    readGroupAt (renderPWM channels frequency w).2.pwmDataMem first step g = symbolHigh ∨
    readGroupAt (renderPWM channels frequency w).2.pwmDataMem first step g = symbolLow)
  ∧ (∀ i j, i < ch.strip.TotalCount → j < ch.ledColors →
    decodeByteAt (renderPWM channels frequency w).2.pwmDataMem first step (i * ch.ledColors + j)
      = some ((ch.color (ch.strip.UInt32 i % 2 ^ 32)).getD j 0))

/-- An initialised PWM configuration with two active three-colour channels of one
pixel each. -/
def twoStripConfig : Config :=
  { driverType := DriverPWM, dmaChannel := 10, frequency := 800000,
    channels := [rgbChannel (constStrip 1 0x00FF0000), rgbChannel (constStrip 1 0x000000FF)],
    initialized := true, renderWaitTime := 0, previousRenderTime := none }

/-- The stores `renderPWM` logs for the channel with index `chan` of the rendered
slice. -/
def writesOf (chan : Nat) (w : World) : List WriteRec :=
  w.pwmDataWrites.filter (fun r => r.chan = chan)

/-- The maximum of `g` over the active channels of a slice (0 if there is none). -/
def maxActive (g : ledChannel → Nat) (channels : List ledChannel) : Nat :=
  ((channels.filter (fun ch => ch.active)).map g).foldl max 0

/-- A `rpigpio.NewPin` that accepts every pin number. -/
def newPinOk : Nat → Option Nat × Option Error := fun pin => (some pin, none)

/-- A fresh PWM configuration (as `New` returns it) after `SetBrightness(255, 0)` and
`SetBrightness(255, 1)`. -/
def brightConfig : Config :=
  { driverType := DriverPWM, dmaChannel := 10, frequency := 800000,
    channels := [{ ledChannel.zero with brightness := 255 },
                 { ledChannel.zero with brightness := 255 }],
    initialized := false, renderWaitTime := 0, previousRenderTime := none }

/-! ## Package-level variables, windows and devices (initialisation and tear-down)

The functions below are the ones that create and destroy the windows. A window
variable is `none` (nil) or a `MemMap` that is mapped or not; the registers behind a
peripheral window belong to the device and keep their contents while the window is
unmapped. `time.Sleep`, logging and the pin mode switching of the GPIO collaborator
have no effect on this state and are left out. -/

/-- The fields of `rpihardware.Hardware` the package reads. -/
structure Hardware where
  OscFreq : Nat
  RPiType : Nat
deriving DecidableEq, Repr

/-- A `rpimemmap.MemMap` value: the size it was created with, whether it is currently
mapped, and its bus address. -/
structure MemMap where
  size : Nat
  mapped : Bool
  busAddr : Nat
deriving DecidableEq, Repr

/-- The windows the package stores words to through `rpimemmap.Reg32`. -/
inductive Window where
  | clock
  | dma
  | pwm
  | dmaCB
deriving DecidableEq, Repr

/-- One store through `rpimemmap.Reg32`: window, byte offset, value. -/
structure RegWrite where
  window : Window
  offset : Nat
  value : Nat
deriving DecidableEq, Repr

/-- The package-level variables (`pwmActive`, `curHardware`, the five windows,
`activePWMChannels`, `PWMAlwaysUseTwoChannel`), the words behind the windows, the log
of all stores in program order, and `panicked`: a word was accessed through a nil or
unmapped window, or a nil pointer was dereferenced, or an integer was divided by
zero. Once `panicked` is set the run has ended and the rest of the state means
nothing. -/
structure Pkg where
  pwmActive : Bool
  pcmActive : Bool
  spiActive : Bool
  curHardware : Option Hardware
  PWMAlwaysUseTwoChannel : Bool
  clockRegisterMem : Option MemMap
  dmaRegisterMem : Option MemMap
  pwmRegisterMem : Option MemMap
  pwmDataMem : Option MemMap
  dmaCBRegisterMemPWM : Option MemMap
  activePWMChannels : Nat
  clockRegs : Nat → Nat
  dmaRegs : Nat → Nat
  pwmRegs : Nat → Nat
  dmaCB : Nat → Nat
  pwmData : Nat → Nat
  regLog : List RegWrite
  panicked : Bool

/-- What the collaborators answer during one call: the page size, the results of
`rpigpio.Initialize` and `rpihardware.Check`, the error (or nil) of each `Map` and
`Unmap`, and the bus address each successful `Map` assigns. -/
structure Env where
  pageSize : Nat
  gpioInitialize : Option Error
  hardwareCheck : Option Hardware × Option Error
  mapClock : Option Error
  mapDMA : Option Error
  mapPWM : Option Error
  mapData : Option Error
  mapCB : Option Error
  unmapPWM : Option Error
  unmapData : Option Error
  unmapCB : Option Error
  unmapClock : Option Error
  unmapDMA : Option Error
  busClock : Nat
  busDMA : Nat
  busPWM : Nat
  busData : Nat
  busCB : Nat

/-- A window variable through which words can be accessed: not nil, and mapped. -/
def usable (m : Option MemMap) : Bool :=
  match m with
  | some m => m.mapped
  | none => false

/-- The statement `*rpimemmap.Reg32(clockRegisterMem, off) = val`. -/
def Pkg.writeClock (p : Pkg) (off val : Nat) : Pkg :=
  if usable p.clockRegisterMem then
    { p with clockRegs := setWord p.clockRegs off val
             regLog := p.regLog ++ [{ window := .clock, offset := off, value := val }] }
  else { p with panicked := true }

/-- The statement `*rpimemmap.Reg32(dmaRegisterMem, off) = val`. -/
def Pkg.writeDMA (p : Pkg) (off val : Nat) : Pkg :=
  if usable p.dmaRegisterMem then
    { p with dmaRegs := setWord p.dmaRegs off val
             regLog := p.regLog ++ [{ window := .dma, offset := off, value := val }] }
  else { p with panicked := true }

/-- The statement `*rpimemmap.Reg32(pwmRegisterMem, off) = val`. -/
def Pkg.writePWM (p : Pkg) (off val : Nat) : Pkg :=
  if usable p.pwmRegisterMem then
    { p with pwmRegs := setWord p.pwmRegs off val
             regLog := p.regLog ++ [{ window := .pwm, offset := off, value := val }] }
  else { p with panicked := true }

/-- The statement `*rpimemmap.Reg32(dmaCBRegisterMemPWM, off) = val`. -/
def Pkg.writeCB (p : Pkg) (off val : Nat) : Pkg :=
  if usable p.dmaCBRegisterMemPWM then
    { p with dmaCB := setWord p.dmaCB off val
             regLog := p.regLog ++ [{ window := .dmaCB, offset := off, value := val }] }
  else { p with panicked := true }

/-- A run-time panic under the condition `b` (a nil dereference or an index out of
range): the crash flag is set. -/
def Pkg.crashIf (b : Bool) (p : Pkg) : Pkg := if b then { p with panicked := true } else p

/-- Sequencing of a step that can return an error with the rest of a function: the
rest runs only if the step returned nil. -/
def andThen (r : Pkg × Option Error) (k : Pkg → Pkg × Option Error) : Pkg × Option Error :=
  match r.2 with
  | some err => (r.1, some err)
  | none => k r.1

/-! ## clock.go -/

def registerOffsetClkPwmCtl : Nat := 0xa0
def registerOffsetClkPwmDiv : Nat := 0xa4
def registerValueClkPasswd : Nat := 0x5a000000
def registerValueClkCtlSrcOsc : Nat := 1 <<< 0
def registerValueClkCtlEnab : Nat := 1 <<< 4
def registerValueClkCtlKill : Nat := 1 <<< 5
def registerValueClkCtlBusy : Nat := 1 <<< 7
def pwmBitsPerOutputBit : Nat := 3

def registerValueClkDivDivi (val : Nat) : Nat := ((val &&& 0xfff) <<< 12) % 2 ^ 32

/-- The loops `for (ctl & busy) == 0 { sleep }` (`want = true`) and
`for (ctl & busy) != 0 { sleep }` (`want = false`) over the PWM clock control
register, for a clock device that answers: when the loop ends the busy bit of the
register has the awaited value, and no other bit has changed. -/
def waitClockBusy (want : Bool) (p : Pkg) : Pkg :=
  if usable p.clockRegisterMem then
    let ctl := p.clockRegs registerOffsetClkPwmCtl
    let busy := registerValueClkCtlBusy
    let settled := if want then ctl ||| busy else ctl &&& (0xffffffff ^^^ busy)
    { p with clockRegs := setWord p.clockRegs registerOffsetClkPwmCtl settled }
  else { p with panicked := true }

/-- The function `stopClockPWM`. -/
def stopClockPWM (p : Pkg) : Pkg × Option Error :=
  match p.clockRegisterMem with
  | none => (p, none)
  | some _ =>
    let p := p.writeClock registerOffsetClkPwmCtl (registerValueClkPasswd ||| registerValueClkCtlKill)
    (waitClockBusy false p, none)

/-- The function `clockSetupPwm`; `frequency` and `OscFreq` are `uint32`. -/
def clockSetupPwm (frequency : Nat) (p : Pkg) : Pkg × Option Error :=
  let p := (stopClockPWM p).1
  match p.curHardware with
  | none => ({ p with panicked := true }, none)
  | some hw =>
    let divisor := (pwmBitsPerOutputBit * frequency) % 2 ^ 32
    if divisor = 0 then ({ p with panicked := true }, none)
    else
      let divi := registerValueClkDivDivi ((hw.OscFreq % 2 ^ 32) / divisor)
      let p := p.writeClock registerOffsetClkPwmDiv (registerValueClkPasswd ||| divi)
      let p := p.writeClock registerOffsetClkPwmCtl (registerValueClkPasswd ||| registerValueClkCtlSrcOsc)
      let enab := registerValueClkPasswd ||| registerValueClkCtlSrcOsc ||| registerValueClkCtlEnab
      let p := p.writeClock registerOffsetClkPwmCtl enab
      (waitClockBusy true p, none)

/-- The function `initializeClock`: the window variable is assigned before `Map` is
called and keeps its value when `Map` fails. -/
def initializeClock (env : Env) (p : Pkg) : Pkg × Option Error :=
  match p.clockRegisterMem with
  | some _ => (p, none)
  | none =>
    match env.mapClock with
    | some err =>
      ({ p with clockRegisterMem := some { size := env.pageSize, mapped := false, busAddr := 0 } },
        some err)
    | none =>
      ({ p with
          clockRegisterMem := some { size := env.pageSize, mapped := true, busAddr := env.busClock } },
        none)

/-! ## dma.go: window and channel enable -/

def registerOffsetDmaEnable : Nat := 0xff0

/-- The function `initializeDMA`. -/
def initializeDMA (env : Env) (p : Pkg) : Pkg × Option Error :=
  match p.dmaRegisterMem with
  | some _ => (p, none)
  | none =>
    match env.mapDMA with
    | some err =>
      ({ p with dmaRegisterMem := some { size := env.pageSize, mapped := false, busAddr := 0 } },
        some err)
    | none =>
      ({ p with
          dmaRegisterMem := some { size := env.pageSize, mapped := true, busAddr := env.busDMA } },
        none)

/-- The function `enableDMA`; `channel` is a `uint32`. -/
def enableDMA (channel : Nat) (p : Pkg) : Pkg × Option Error :=
  match p.dmaRegisterMem with
  | none => (p, none)
  | some _ =>
    let enable := p.dmaRegs registerOffsetDmaEnable ||| ((1 <<< channel) % 2 ^ 32)
    (p.writeDMA registerOffsetDmaEnable enable, none)

/-- The function `disableDMA`. -/
def disableDMA (channel : Nat) (p : Pkg) : Pkg × Option Error :=
  match p.dmaRegisterMem with
  | none => (p, none)
  | some _ =>
    let enable := p.dmaRegs registerOffsetDmaEnable &&& (0xffffffff ^^^ ((1 <<< channel) % 2 ^ 32))
    (p.writeDMA registerOffsetDmaEnable enable, none)

/-! ## dmaCB.go -/

def registerOffsetDmaCBTi : Nat := 0 * 4
def registerOffsetDmaCBSrcAddress : Nat := 1 * 4
def registerOffsetDmaCBDestAddress : Nat := 2 * 4
def registerOffsetDmaCBTransferLength : Nat := 3 * 4
def registerOffsetDmaCB2DModeStride : Nat := 4 * 4
def registerOffsetDmaCBNextCBAddress : Nat := 5 * 4

def registerValueDmaCBTiWaitResp : Nat := 1 <<< 3
def registerValueDmaCBTiDestDreq : Nat := 1 <<< 6
def registerValueDmaCBTiSrcInc : Nat := 1 <<< 8
def registerValueDmaCBTiNoWideBursts : Nat := 1 <<< 26

def registerValueDmaCBTiPermap (val : Nat) : Nat := ((val &&& 0x1f) <<< 16) % 2 ^ 32

def registerOffsetPWMFif1 : Nat := 0x18

/-- The bus address `m.BusAddr()` of a window variable. -/
def busAddrOf (m : Option MemMap) : Nat :=
  match m with
  | some m => m.busAddr
  | none => 0

/-- The six stores of `initializeDmaCBPWM` into the control block; `BusAddr()` of a
nil data buffer or PWM window is a nil dereference. -/
def writeDmaCBPWM (transferBytes : Nat) (p : Pkg) : Pkg :=
  let ti := registerValueDmaCBTiNoWideBursts ||| registerValueDmaCBTiWaitResp |||
    registerValueDmaCBTiDestDreq ||| registerValueDmaCBTiSrcInc ||| registerValueDmaCBTiPermap 5
  let p := p.writeCB registerOffsetDmaCBTi ti
  let p := p.crashIf p.pwmDataMem.isNone
  let p := p.writeCB registerOffsetDmaCBSrcAddress (busAddrOf p.pwmDataMem)
  let p := p.crashIf p.pwmRegisterMem.isNone
  let dest := (busAddrOf p.pwmRegisterMem + registerOffsetPWMFif1) % 2 ^ 32
  let p := p.writeCB registerOffsetDmaCBDestAddress dest
  let p := p.writeCB registerOffsetDmaCBTransferLength transferBytes
  let p := p.writeCB registerOffsetDmaCB2DModeStride 0
  p.writeCB registerOffsetDmaCBNextCBAddress 0

/-- The function `initializeDmaCBPWM`: nothing is done when a control block already
exists; `curHardware.RPiType` is read to choose the allocation flags. -/
def initializeDmaCBPWM (env : Env) (transferBytes : Nat) (p : Pkg) : Pkg × Option Error :=
  match p.dmaCBRegisterMemPWM with
  | some _ => (p, none)
  | none =>
    let p := p.crashIf p.curHardware.isNone
    match env.mapCB with
    | some err =>
      ({ p with
          dmaCBRegisterMemPWM := some { size := env.pageSize, mapped := false, busAddr := 0 } },
        some err)
    | none =>
      let cb : MemMap := { size := env.pageSize, mapped := true, busAddr := env.busCB }
      (writeDmaCBPWM transferBytes { p with dmaCBRegisterMemPWM := some cb }, none)

/-- The function `cleanupDmaCBPWM`. -/
def cleanupDmaCBPWM (env : Env) (p : Pkg) : Pkg × Option Error :=
  match p.dmaCBRegisterMemPWM with
  | none => (p, none)
  | some _ =>
    match env.unmapCB with
    | some err => (p, some err)
    | none => ({ p with dmaCBRegisterMemPWM := none }, none)

/-! ## pwm.go: initialisation and tear-down -/

def registerOffsetPWMCtl : Nat := 0x00
def registerOffsetPWMDmac : Nat := 0x08
def registerOffsetPWMRng1 : Nat := 0x10
def registerOffsetPWMRng2 : Nat := 0x20

def registerValuePWMDmacEnab : Nat := 1 <<< 31
def registerValuePWMCtlPwen1 : Nat := 1 <<< 0
def registerValuePWMCtlMode1 : Nat := 1 <<< 1
def registerValuePWMCtlPola1 : Nat := 1 <<< 4
def registerValuePWMCtlUsef1 : Nat := 1 <<< 5
def registerValuePWMCtlClrf1 : Nat := 1 <<< 6
def registerValuePWMCtlPwen2 : Nat := 1 <<< 8
def registerValuePWMCtlMode2 : Nat := 1 <<< 9
def registerValuePWMCtlPola2 : Nat := 1 <<< 12
def registerValuePWMCtlUsef2 : Nat := 1 <<< 13

def registerValuePWMDmacPanic (val : Nat) : Nat := ((val &&& 0xff) <<< 8) % 2 ^ 32
def registerValuePWMDmacDreq (val : Nat) : Nat := ((val &&& 0xff) <<< 0) % 2 ^ 32

/-- The block of `initializePWM` that maps the PWM window if the variable is nil. -/
def mapPWMWindow (env : Env) (p : Pkg) : Pkg × Option Error :=
  match p.pwmRegisterMem with
  | some _ => (p, none)
  | none =>
    match env.mapPWM with
    | some err =>
      ({ p with pwmRegisterMem := some { size := env.pageSize, mapped := false, busAddr := 0 } },
        some err)
    | none =>
      ({ p with
          pwmRegisterMem := some { size := env.pageSize, mapped := true, busAddr := env.busPWM } },
        none)

/-- The value `ctlSettings` that `initializePWM` builds from `channels[0]`,
`channels[1]` and `PWMAlwaysUseTwoChannel`. -/
def ctlSettings (always2 : Bool) (ch0 ch1 : ledChannel) : Nat :=
  let s0 := 0
  let s1 :=
    if ch0.active || always2 then
      let s := s0 ||| (registerValuePWMCtlUsef1 ||| registerValuePWMCtlMode1)
      if ch0.invert then s ||| registerValuePWMCtlPola1 else s
    else s0
  if ch1.active || always2 then
    let s := s1 ||| (registerValuePWMCtlUsef2 ||| registerValuePWMCtlMode2)
    if ch1.invert then s ||| registerValuePWMCtlPola1 else s
  else s1

/-- The block of `initializePWM` that programs the PWM registers. Indexing
`channels[0]` and `channels[1]` panics on a shorter slice. -/
def configurePWM (channels : List ledChannel) (p : Pkg) : Pkg :=
  let p := p.writePWM registerOffsetPWMRng1 32
  let p := p.writePWM registerOffsetPWMRng2 32
  let p := p.writePWM registerOffsetPWMCtl registerValuePWMCtlClrf1
  let dmac := registerValuePWMDmacEnab ||| registerValuePWMDmacPanic 7 ||| registerValuePWMDmacDreq 3
  let p := p.writePWM registerOffsetPWMDmac dmac
  let p := p.crashIf (decide (channels.length < 2))
  let ch0 := channels.getD 0 ledChannel.zero
  let ch1 := channels.getD 1 ledChannel.zero
  let p := p.writePWM registerOffsetPWMCtl (ctlSettings p.PWMAlwaysUseTwoChannel ch0 ch1)
  let p :=
    if ch0.active || p.PWMAlwaysUseTwoChannel then
      p.writePWM registerOffsetPWMCtl (p.pwmRegs registerOffsetPWMCtl ||| registerValuePWMCtlPwen1)
    else p
  if ch1.active || p.PWMAlwaysUseTwoChannel then
    p.writePWM registerOffsetPWMCtl (p.pwmRegs registerOffsetPWMCtl ||| registerValuePWMCtlPwen2)
  else p

/-- The block of `initializePWM` that unmaps a data buffer left from before. -/
def unmapOldData (env : Env) (p : Pkg) : Pkg × Option Error :=
  match p.pwmDataMem with
  | none => (p, none)
  | some m =>
    match env.unmapData with
    | some err => (p, some err)
    | none => ({ p with pwmDataMem := some { m with mapped := false } }, none)

/-- The value `thisByteCount` of an active channel, after `thisByteCount += 32`:
`ledBitCount` is an `int`, the byte counts are `uint32`. -/
def ledChannel.byteCount (ch : ledChannel) : Nat :=
  let ledBitCount := ch.strip.TotalCount * ch.ledColors * 8 * pwmBitsPerOutputBit
  let thisByteCount := ((((ledBitCount >>> 3) % 2 ^ 32) &&& 0xfffffff8) + 8) % 2 ^ 32
  (thisByteCount + 32) % 2 ^ 32

/-- The loop of `initializePWM` over the channels, on the pair
(`dataSize`, `activePWMChannels`). -/
def dataSizeLoop (channels : List ledChannel) (init : Nat × Nat) : Nat × Nat :=
  channels.foldl
    (fun s ch =>
      if ch.active then
        (if ch.byteCount > s.1 then ch.byteCount else s.1, (s.2 + 1) % 2 ^ 32)
      else s)
    init

/-- The values of `dataSize` and `activePWMChannels` after
`dataSize *= activePWMChannels`. -/
def pwmDataSize (always2 : Bool) (activePWMChannels : Nat) (channels : List ledChannel) :
    Nat × Nat :=
  let s := dataSizeLoop channels (0, activePWMChannels)
  let apc := if always2 then 2 else s.2
  ((s.1 * apc) % 2 ^ 32, apc)

/-- The block of `initializePWM` that creates and maps the data buffer;
`curHardware.RPiType` is read to choose the allocation flags. -/
def allocData (env : Env) (dataSize : Nat) (p : Pkg) : Pkg × Option Error :=
  let p := p.crashIf p.curHardware.isNone
  match env.mapData with
  | some err =>
    ({ p with pwmDataMem := some { size := dataSize, mapped := false, busAddr := 0 } }, some err)
  | none =>
    ({ p with pwmDataMem := some { size := dataSize, mapped := true, busAddr := env.busData } },
      none)

/-- The function `initializePWM`. -/
def initializePWM (env : Env) (channels : List ledChannel) (frequency : Nat) (p : Pkg) :
    Pkg × Option Error :=
  andThen (initializeClock env p) fun p =>
  andThen (clockSetupPwm frequency p) fun p =>
  andThen (mapPWMWindow env p) fun p =>
  andThen (unmapOldData env (configurePWM channels p)) fun p =>
  andThen
    (allocData env (pwmDataSize p.PWMAlwaysUseTwoChannel p.activePWMChannels channels).1
      { p with
        activePWMChannels :=
          (pwmDataSize p.PWMAlwaysUseTwoChannel p.activePWMChannels channels).2 })
    fun q =>
      initializeDmaCBPWM env
        (pwmDataSize p.PWMAlwaysUseTwoChannel p.activePWMChannels channels).1 q

/-- The function `stopPWM`. -/
def stopPWM (p : Pkg) : Pkg × Option Error :=
  match p.pwmRegisterMem with
  | none => (p, none)
  | some _ => stopClockPWM (p.writePWM registerOffsetPWMCtl 0)

/-- The block of `cleanupPWM` that unmaps the PWM window. -/
def unmapPWMWindow (env : Env) (p : Pkg) : Pkg × Option Error :=
  match p.pwmRegisterMem with
  | none => (p, none)
  | some _ =>
    match env.unmapPWM with
    | some err => (p, some err)
    | none => ({ p with pwmRegisterMem := none }, none)

/-- The block of `cleanupPWM` that unmaps the data buffer. -/
def unmapData (env : Env) (p : Pkg) : Pkg × Option Error :=
  match p.pwmDataMem with
  | none => (p, none)
  | some _ =>
    match env.unmapData with
    | some err => (p, some err)
    | none => ({ p with pwmDataMem := none }, none)

/-- The function `cleanupPWM`. -/
def cleanupPWM (env : Env) (p : Pkg) : Pkg × Option Error :=
  andThen (stopPWM p) fun p =>
  andThen (unmapPWMWindow env p) fun p =>
  andThen (unmapData env p) fun p =>
  andThen (cleanupDmaCBPWM env p) fun p =>
  ({ p with activePWMChannels := 0 }, none)

/-! ## config.go: the remaining methods -/

/-- The method `Config.SetDMAChannel`: the receiver after the call and the returned
error. -/
def Config.SetDMAChannel (c : Config) (channel : Nat) : Config × Option Error :=
  if c.initialized then (c, some .ErrConfigInitialized)
  else ({ c with dmaChannel := channel }, none)

/-- The method `Config.SetFrequency`. -/
def Config.SetFrequency (c : Config) (frequency : Nat) : Config × Option Error :=
  if c.initialized then (c, some .ErrConfigInitialized)
  else if frequency ≠ 400000 ∧ frequency ≠ 800000 then (c, some .ErrWrongFrequency)
  else ({ c with frequency := frequency }, none)

/-- The method `Config.SetBrightness`; `brightness` is a `uint32`. -/
def Config.SetBrightness (c : Config) (brightness : Nat) (stripIndex : Int) :
    Config × Option Error :=
  if stripIndex < 0 then (c, some .ErrConfigWrongIndex)
  else if c.driverType = DriverPWM then
    if stripIndex ≥ 2 then (c, some .ErrConfigWrongIndex)
    else
      let idx := stripIndex.toNat
      let curChannel := c.channels.getD idx ledChannel.zero
      ({ c with channels := c.channels.set idx { curChannel with brightness := brightness } },
        none)
  else (c, none)

/-- The method `Config.Initialize`: the receiver and the package state after the
call, and the returned error. -/
def Config.Initialize (env : Env) (c : Config) (p : Pkg) : Config × Pkg × Option Error :=
  if c.initialized then (c, p, none)
  else if !(c.channels.any (fun curChannel => curChannel.active)) then
    (c, p, some .ErrNoActiveChannel)
  else
    match env.gpioInitialize with
    | some err => (c, p, some err)
    | none =>
      let p := { p with curHardware := env.hardwareCheck.1 }
      match env.hardwareCheck.2 with
      | some err => (c, p, some err)
      | none =>
        let r := andThen (initializeDMA env p) (enableDMA c.dmaChannel)
        match r.2 with
        | some err => (c, r.1, some err)
        | none =>
          if c.driverType = DriverPWM then
            if r.1.pwmActive then (c, r.1, some .ErrDriverAlreadyUsed)
            else
              let q := initializePWM env c.channels c.frequency { r.1 with pwmActive := true }
              match q.2 with
              | some err => (c, q.1, some err)
              | none => ({ c with initialized := true }, q.1, none)
          else (c, r.1, some .ErrDriverNotSupported)

/-- The method `Config.Stop`. -/
def Config.Stop (env : Env) (c : Config) (p : Pkg) : Config × Pkg × Option Error :=
  if !c.initialized then (c, p, none)
  else
    let r : Pkg × Option Error :=
      if c.driverType = DriverPWM then cleanupPWM env { p with pwmActive := false }
      else if c.driverType = DriverPCM then ({ p with pcmActive := false }, none)
      else if c.driverType = DriverSPI then ({ p with spiActive := false }, none)
      else (p, none)
    match r.2 with
    | some err => (c, r.1, some err)
    | none => ({ c with initialized := false }, r.1, none)

/-- The state in which `Config.Render` finds the package after initialisation: the
active-channel count, the data buffer, the DMA registers and the control block's bus
address, at clock reading `now`, with an empty log of data buffer stores. -/
def Pkg.world (p : Pkg) (now : Int) : World :=
  { activePWMChannels := p.activePWMChannels, pwmDataMem := p.pwmData, pwmDataWrites := [],
    dmaRegisterMem := p.dmaRegs, dmaCBRegisterMemPWMBusAddr := busAddrOf p.dmaCBRegisterMemPWM,
    now := now }

/-- The package state at program start: no driver active, no window, every word 0. -/
def Pkg.start : Pkg :=
  { pwmActive := false, pcmActive := false, spiActive := false, curHardware := none,
    PWMAlwaysUseTwoChannel := false, clockRegisterMem := none, dmaRegisterMem := none,
    pwmRegisterMem := none, pwmDataMem := none, dmaCBRegisterMemPWM := none,
    activePWMChannels := 0, clockRegs := fun _ => 0, dmaRegs := fun _ => 0,
    pwmRegs := fun _ => 0, dmaCB := fun _ => 0, pwmData := fun _ => 0, regLog := [],
    panicked := false }

/-- Collaborators that succeed everywhere, on a board with a 19.2 MHz oscillator. -/
def Env.ok : Env :=
  { pageSize := 4096, gpioInitialize := none,
    hardwareCheck := (some { OscFreq := 19200000, RPiType := 3 }, none),
    mapClock := none, mapDMA := none, mapPWM := none, mapData := none, mapCB := none,
    unmapPWM := none, unmapData := none, unmapCB := none, unmapClock := none, unmapDMA := none,
    busClock := 0x7e101000, busDMA := 0x7e007000, busPWM := 0x7e20c000,
    busData := 0xc0001000, busCB := 0xc0002000 }

/-- A channel with another brightness and everything else as it was. -/
def ledChannel.withBrightness (ch : ledChannel) (brightness : Nat) : ledChannel :=
  { ch with brightness := brightness }

/-- A Config with other channels and everything else as it was. -/
def Config.withChannels (c : Config) (channels : List ledChannel) : Config :=
  { c with channels := channels }

/-- The four stores `clockSetupPwm` is claimed to make for oscillator frequency `osc`
and target frequency `f`: kill, divisor `osc / (3*f)`, source, source with enable. -/
def clockSetupStores (osc f : Nat) : List RegWrite :=
  [ { window := .clock, offset := 0xa0, value := 0x5a000020 },
    { window := .clock, offset := 0xa4, value := 0x5a000000 ||| (((osc / (3 * f)) % 4096) <<< 12) },
    { window := .clock, offset := 0xa0, value := 0x5a000001 },
    { window := .clock, offset := 0xa0, value := 0x5a000011 } ]

/-- A package state with a mapped clock window on a board with oscillator frequency
`osc`. -/
def clockReady (osc : Nat) : Pkg :=
  { Pkg.start with
    curHardware := some { OscFreq := osc, RPiType := 3 }
    clockRegisterMem := some { size := 4096, mapped := true, busAddr := 0x7e101000 } }

/-- The package-level variables: the package state without the contents of the
device windows, the log of register stores and the crash flag. -/
def Pkg.vars (p : Pkg) :=
  (p.pwmActive, p.pcmActive, p.spiActive, p.curHardware, p.PWMAlwaysUseTwoChannel,
    p.clockRegisterMem, p.dmaRegisterMem, p.pwmRegisterMem, p.pwmDataMem,
    p.dmaCBRegisterMemPWM, p.activePWMChannels)

/-- The driver flags of the package. -/
def Pkg.flags (p : Pkg) := (p.pwmActive, p.pcmActive, p.spiActive, p.PWMAlwaysUseTwoChannel)

/-- The variables that `initializePWM` does not touch before it sizes the data
buffer: the driver flags, the active-channel count and the control block variable. -/
def Pkg.core (p : Pkg) := (p.flags, p.activePWMChannels, p.dmaCBRegisterMemPWM)

/-- The byte count C11 states for one channel: `n*d*3` rounded down to a multiple of
8, plus 8, plus 32. -/
def statedByteCount (ch : ledChannel) : Nat :=
  ch.strip.TotalCount * ch.ledColors * 3 / 8 * 8 + 8 + 32

/-- The factor `k` of C11: the number of active channels, 2 when
`PWMAlwaysUseTwoChannel` is set. -/
def statedChannelCount (always2 : Bool) (channels : List ledChannel) : Nat :=
  if always2 then 2 else (channels.filter (fun ch => ch.active)).length

/-- The buffer size C11 states. -/
def statedDataSize (always2 : Bool) (channels : List ledChannel) : Nat :=
  statedChannelCount always2 channels * maxActive statedByteCount channels

/-- The statement of C11 for a call of `initializePWM` from the state `p`: the data
buffer created by the call has the stated size, and, when the call builds the control
block, the control block's transfer length is the same number. -/
def RequestsStatedSize (env : Env) (channels : List ledChannel) (frequency : Nat) (p : Pkg) :
    Prop :=
  (∃ m, (initializePWM env channels frequency p).1.pwmDataMem = some m
      ∧ m.size = statedDataSize p.PWMAlwaysUseTwoChannel channels)
  ∧ (p.dmaCBRegisterMemPWM = none →
      (initializePWM env channels frequency p).1.dmaCB registerOffsetDmaCBTransferLength
        = statedDataSize p.PWMAlwaysUseTwoChannel channels)

/-- Two channels as `initializePWM` receives them: an active RGB strip of `n` dark
pixels on channel 0, channel 1 unused. -/
def oneStripChannels (n : Nat) : List ledChannel := [rgbChannel (constStrip n 0), ledChannel.zero]

/-- A PWM configuration as `New` and `SetStrip` leave it: DMA channel `dma`, an active
RGB strip of `n` dark pixels on channel 0, channel 1 unused. -/
def stripConfig (n dma : Nat) : Config :=
  { driverType := DriverPWM, dmaChannel := dma, frequency := 800000,
    channels := oneStripChannels n, initialized := false, renderWaitTime := 0,
    previousRenderTime := none }

/-- Two channels as `initializePWM` receives them: channel 0 unused, an active RGB
strip of `n` dark pixels on channel 1. -/
def secondStripChannels (n : Nat) : List ledChannel := [ledChannel.zero, rgbChannel (constStrip n 0)]

/-- A PWM configuration as `New` and `SetStrip` on index 1 leave it: DMA channel `dma`,
channel 0 unused, an active RGB strip of `n` dark pixels on channel 1. -/
def secondStripConfig (n dma : Nat) : Config :=
  { driverType := DriverPWM, dmaChannel := dma, frequency := 800000,
    channels := secondStripChannels n, initialized := false, renderWaitTime := 0,
    previousRenderTime := none }

/-- Collaborators that succeed, except that unmapping the PWM window fails. -/
def Env.unmapFails : Env := { Env.ok with unmapPWM := some (.external 1) }

/-- Collaborators that succeed and place the data buffer at another bus address. -/
def Env.moved : Env := { Env.ok with busData := 0xc0003000 }

/-- The package state after `Initialize` on a 10-pixel configuration at program
start. -/
def runningPkg : Pkg := (Config.Initialize Env.ok (stripConfig 10 10) Pkg.start).2.1

/-- The package state after `Initialize` at program start on a configuration whose only
strip (one dark pixel) is on channel 1. -/
def secondOnlyPkg : Pkg := (Config.Initialize Env.ok (secondStripConfig 1 10) Pkg.start).2.1

/-- The package state at program start with `PWMAlwaysUseTwoChannel` set by the program. -/
def Pkg.startAlwaysTwo : Pkg := { Pkg.start with PWMAlwaysUseTwoChannel := true }

/-- The package state after `Initialize` with `PWMAlwaysUseTwoChannel` set, on a
configuration whose only strip (one dark pixel) is on channel 0. -/
def alwaysTwoPkg : Pkg := (Config.Initialize Env.ok (stripConfig 1 10) Pkg.startAlwaysTwo).2.1

/-- The package state after `Stop` on that configuration when unmapping the PWM window
fails: `cleanupPWM` has returned early. -/
def halfStoppedPkg : Pkg :=
  (Config.Stop Env.unmapFails (Config.Initialize Env.ok (stripConfig 10 10) Pkg.start).1
    runningPkg).2.1

/-- The active-channel count that `initializePWM` reaches from the count `apc0`, in
unbounded arithmetic. -/
def sizedChannelCount (always2 : Bool) (apc0 : Nat) (channels : List ledChannel) : Nat :=
  if always2 then 2 else apc0 + (channels.filter (fun ch => ch.active)).length

/-- The buffer size that `initializePWM` computes from the active-channel count
`apc0`, in unbounded arithmetic. -/
def exactDataSize (always2 : Bool) (apc0 : Nat) (channels : List ledChannel) : Nat :=
  sizedChannelCount always2 apc0 channels * maxActive statedByteCount channels

/-! ## Sequences of API calls on several Configs -/

/-- A program's Configs, by creation number, together with the package state. -/
structure Sys where
  pkg : Pkg
  configs : Nat → Option Config
  created : Nat

/-- One call of `New`, `Config.SetStrip`, `Config.Initialize` or `Config.Stop`; `i` is
the creation number of the receiver, `env` the behaviour of the collaborators during
the call. -/
inductive Call where
  | New (driverType : Nat)
  | SetStrip (i : Nat) (NewPin : Nat → Option Nat × Option Error) (ledStrip : LEDs)
      (pin stripType : Nat) (stripIndex : Int) (invertSignal : Bool)
  | Initialize (i : Nat) (env : Env)
  | Stop (i : Nat) (env : Env)

/-- The state with Config number `i` replaced by `c` and the package state by `pkg`. -/
def Sys.put (s : Sys) (i : Nat) (c : Config) (pkg : Pkg) : Sys :=
  { pkg := pkg, configs := fun k => if k = i then some c else s.configs k,
    created := s.created }

/-- The effect of one call and the error it returns; a call on a Config that was never
created does nothing. -/
def Sys.step (s : Sys) (call : Call) : Sys × Option Error :=
  match call with
  | .New driverType =>
    match New driverType with
    | .ok c =>
      ({ pkg := s.pkg, configs := fun k => if k = s.created then some c else s.configs k,
         created := s.created + 1 }, none)
    | .error err => (s, some err)
  | .SetStrip i NewPin ledStrip pin stripType stripIndex invertSignal =>
    match s.configs i with
    | none => (s, none)
    | some c =>
      (s.put i (c.SetStrip NewPin ledStrip pin stripType stripIndex invertSignal).1 s.pkg,
        (c.SetStrip NewPin ledStrip pin stripType stripIndex invertSignal).2)
  | .Initialize i env =>
    match s.configs i with
    | none => (s, none)
    | some c =>
      (s.put i (Config.Initialize env c s.pkg).1 (Config.Initialize env c s.pkg).2.1,
        (Config.Initialize env c s.pkg).2.2)
  | .Stop i env =>
    match s.configs i with
    | none => (s, none)
    | some c =>
      (s.put i (Config.Stop env c s.pkg).1 (Config.Stop env c s.pkg).2.1,
        (Config.Stop env c s.pkg).2.2)

/-- The state after a sequence of calls. -/
def Sys.run (s : Sys) (calls : List Call) : Sys :=
  calls.foldl (fun s call => (s.step call).1) s

/-- Whether every `Stop` of the sequence returns nil. -/
def stopsSucceed (s : Sys) : List Call → Bool
  | [] => true
  | call :: rest =>
    (match call with
      | .Stop _ _ => (s.step call).2.isNone
      | _ => true) && stopsSucceed (s.step call).1 rest

/-- The state at program start: no Config, nothing mapped. -/
def Sys.start : Sys := { pkg := Pkg.start, configs := fun _ => none, created := 0 }

/-- Whether Config number `i` exists and is initialized. -/
def Sys.initializedAt (s : Sys) (i : Nat) : Bool :=
  match s.configs i with
  | some c => c.initialized
  | none => false

/-- At most one Config is initialized. -/
def AtMostOneInitialized (s : Sys) : Prop :=
  ∀ i j, s.initializedAt i = true → s.initializedAt j = true → i = j

/-- The collaborators let `Config.Initialize` reach the driver switch: GPIO
initialisation, the hardware check and the mapping of the DMA window succeed. -/
def Env.reaches (env : Env) : Prop :=
  env.gpioInitialize = none ∧ env.hardwareCheck.2 = none ∧ env.mapDMA = none

/-- The errors of the collaborators are their own: none of them is the package's
`ErrDriverAlreadyUsed`. -/
def Env.foreign (env : Env) : Prop :=
  ∀ e ∈ [env.gpioInitialize, env.hardwareCheck.2, env.mapClock, env.mapDMA, env.mapPWM,
      env.mapData, env.mapCB, env.unmapPWM, env.unmapData, env.unmapCB],
    e ≠ some .ErrDriverAlreadyUsed

/-- The calls `New`, `SetStrip` (10 pixels, pin 18, channel 0) and `Initialize` on a
first Config, then `New` on a second. -/
def firstRunning : List Call :=
  [.New DriverPWM, .SetStrip 0 newPinOk (constStrip 10 0) 18 WS2811StripRGB 0 false,
    .Initialize 0 Env.ok, .New DriverPWM]

/-- The same calls followed by `SetStrip` (10 pixels, pin 18, channel 0) on the second
Config. -/
def bothConfigured : List Call :=
  firstRunning ++ [.SetStrip 1 newPinOk (constStrip 10 0) 18 WS2811StripRGB 0 false]

/-- The invariant behind C16: every Config is a PWM Config, at most one Config is
initialized, and `pwmActive` is set while one is. -/
def Sys.Inv (s : Sys) : Prop :=
  (∀ i c, s.configs i = some c → c.driverType = DriverPWM)
  ∧ AtMostOneInitialized s
  ∧ (∀ i, s.initializedAt i = true → s.pkg.pwmActive = true)

/-! ## clock.go and dma.go: tear-down of the windows -/

/-- The function `cleanupClock`. -/
def cleanupClock (env : Env) (p : Pkg) : Pkg × Option Error :=
  match p.clockRegisterMem with
  | none => (p, none)
  | some _ =>
    match env.unmapClock with
    | some err => (p, some err)
    | none => ({ p with clockRegisterMem := none }, none)

/-- The function `cleanupDMA`. -/
def cleanupDMA (env : Env) (p : Pkg) : Pkg × Option Error :=
  match p.dmaRegisterMem with
  | none => (p, none)
  | some _ =>
    match env.unmapDMA with
    | some err => (p, some err)
    | none => ({ p with dmaRegisterMem := none }, none)

/-! ## dma.go on the package state: the window variable can be nil -/

/-- The function `stopDMA`, with its test for a nil window variable. -/
def Pkg.stopDMA (channel : Nat) (p : Pkg) : Pkg × Option Error :=
  match p.dmaRegisterMem with
  | none => (p, none)
  | some _ =>
    (p.writeDMA (registerOffsetDmaChannel channel registerOffsetDmaCs) registerValueDmaCsReset,
      none)

/-- The function `startDMA`: after `stopDMA` has returned, every store goes through the
window variable without a test. -/
def Pkg.startDMA (channel dmaCBAddress : Nat) (p : Pkg) : Pkg × Option Error :=
  andThen (Pkg.stopDMA channel p) fun p =>
    let cs := registerOffsetDmaChannel channel registerOffsetDmaCs
    let conblkAd := registerOffsetDmaChannel channel registerOffsetDmaConblkAd
    let debug := registerOffsetDmaChannel channel registerOffsetDmaDebug
    let intEnd := registerValueDmaCsInt ||| registerValueDmaCsEnd
    let prio := registerValueDmaCsWaitOutstandingWrites ||| registerValueDmaCsPanicPriority 15 |||
      registerValueDmaCsPriority 15
    let p := p.writeDMA cs intEnd
    let p := p.writeDMA conblkAd dmaCBAddress
    let p := p.writeDMA debug 7
    let p := p.writeDMA cs prio
    (p.writeDMA cs (p.dmaRegs cs ||| registerValueDmaCsActive), none)

/-- The function `renderPWM` on the package state: the innermost loop body goes through
`pwmDataMem` without a test, so a run that stores at least one bit needs a mapped data
buffer. The encoding itself is `renderPWMLoop`. -/
def Pkg.renderPWM (channels : List ledChannel) (frequency : Nat) (p : Pkg) : Int × Pkg :=
  let st := renderPWMLoop channels frequency p.activePWMChannels p.pwmData []
  let p := p.crashIf (!st.writes.isEmpty && !usable p.pwmDataMem)
  (renderPWMResult st, { p with pwmData := st.mem })

/-- The accesses of the method `Config.Render` to the package state (the throttle and
the time stamps are in `Config.Render`): `renderPWM` on the selected channels, the call
`dmaCBRegisterMemPWM.BusAddr()` on the control block variable, then `startDMA`. The
receiver is not asked whether it is initialized. -/
def Config.RenderPkg (c : Config) (stripIndex : Int) (p : Pkg) : Except Error Pkg :=
  if stripIndex < -1 then .error .ErrConfigWrongIndex
  else if c.driverType = DriverPWM then
    if stripIndex ≥ 2 then .error .ErrConfigWrongIndex
    else
      let r := Pkg.renderPWM (c.rendered stripIndex) c.frequency p
      let p := r.2.crashIf r.2.dmaCBRegisterMemPWM.isNone
      let q := Pkg.startDMA c.dmaChannel (busAddrOf p.dmaCBRegisterMemPWM) p
      match q.2 with
      | some err => .error err
      | none => .ok q.1
  else .ok p

/-! ## ledStrip.go -/

/-- The struct `LEDStrip`: the values of the `SingleLED`s that the slice `leds` points
to, in slice order, and the field `count`. -/
structure LEDStrip where
  leds : List Nat
  count : Int

/-- The function `NewLEDStrip`; `make` with a negative length is a run-time panic
(`none`). -/
def NewLEDStrip (count : Int) : Option LEDStrip :=
  if count < 0 then none else some { leds := List.replicate count.toNat 0, count := count }

/-- The index expression `l.leds[position]`; `none` is the run-time panic "index out of
range". -/
def LEDStrip.elem (l : LEDStrip) (position : Int) : Option Nat :=
  if position < 0 then none else l.leds[position.toNat]?

/-- The method `LEDStrip.UInt32`. -/
def LEDStrip.UInt32 (l : LEDStrip) (position : Int) : Option Nat :=
  if position < 0 ∨ position ≥ l.count then some 0 else l.elem position

/-- The method `LEDStrip.Red`: 0 outside `[0, count)`, else `l.leds[position].Red(0)`. -/
def LEDStrip.Red (l : LEDStrip) (position : Int) : Option Nat :=
  if position < 0 ∨ position ≥ l.count then some 0 else (l.elem position).map SingleLED.Red

/-- The method `LEDStrip.Green`. -/
def LEDStrip.Green (l : LEDStrip) (position : Int) : Option Nat :=
  if position < 0 ∨ position ≥ l.count then some 0 else (l.elem position).map SingleLED.Green

/-- The method `LEDStrip.Blue`. -/
def LEDStrip.Blue (l : LEDStrip) (position : Int) : Option Nat :=
  if position < 0 ∨ position ≥ l.count then some 0 else (l.elem position).map SingleLED.Blue

/-- The method `LEDStrip.White`. -/
def LEDStrip.White (l : LEDStrip) (position : Int) : Option Nat :=
  if position < 0 ∨ position ≥ l.count then some 0 else (l.elem position).map SingleLED.White

/-- The method `LEDStrip.TotalCount`. -/
def LEDStrip.TotalCount (l : LEDStrip) : Int := l.count

/-- The method `LEDStrip.SetDirect`; `val` is a `uint32`. -/
def LEDStrip.SetDirect (l : LEDStrip) (position : Int) (val : Nat) : Option LEDStrip :=
  if position < 0 ∨ position ≥ l.count then some l
  else if position.toNat < l.leds.length then
    some { l with leds := l.leds.set position.toNat val }
  else none

/-- The slice expression `xs[low:high]` with the bounds checked against the length;
`none` is the run-time panic "slice bounds out of range". Go checks `high` against the
capacity, which is the length for a strip made by `NewLEDStrip`. -/
def sliceOf (xs : List Nat) (low high : Int) : Option (List Nat) :=
  if 0 ≤ low ∧ low ≤ high ∧ high ≤ xs.length then
    some ((xs.drop low.toNat).take (high - low).toNat)
  else none

/-- The method `LEDStrip.ShiftRight`. In `shift <= 0 || (shift%l.count) == 0` the
remainder is evaluated only for `shift > 0`; with `l.count = 0` it is a division by
zero (`none`). -/
def LEDStrip.ShiftRight (l : LEDStrip) (shift : Int) : Option LEDStrip :=
  if shift ≤ 0 then some l
  else if l.count = 0 then none
  else if Int.tmod shift l.count = 0 then some l
  else
    let actualShift := Int.tmod shift l.count
    match sliceOf l.leds (l.count - actualShift) l.leds.length,
        sliceOf l.leds 0 (l.count - actualShift) with
    | some tail, some head => some { l with leds := tail ++ head }
    | _, _ => none

/-- The method `LEDStrip.ShiftLeft`. -/
def LEDStrip.ShiftLeft (l : LEDStrip) (shift : Int) : Option LEDStrip :=
  if shift ≤ 0 then some l
  else if l.count = 0 then none
  else if Int.tmod shift l.count = 0 then some l
  else
    let actualShift := Int.tmod shift l.count
    match sliceOf l.leds (actualShift + 1) l.leds.length, sliceOf l.leds 0 actualShift with
    | some tail, some head => some { l with leds := tail ++ head }
    | _, _ => none

/-- A strip of three LEDs with the values 1, 2, 3. -/
def strip123 : LEDStrip := { leds := [1, 2, 3], count := 3 }

/-- The five getters of a strip at one position all return (none of them faults). -/
def LEDStrip.gettersReturn (l : LEDStrip) (position : Int) : Bool :=
  (l.UInt32 position).isSome && (l.Red position).isSome && (l.Green position).isSome
    && (l.Blue position).isSome && (l.White position).isSome

/-- The stores C21 states for `startDMA(ch, a)`, in order: reset, interrupt and end
flags, control block address, debug, priorities, priorities with the active bit. -/
def dmaTriggerStores (ch a : Nat) : List RegWrite :=
  [ { window := .dma, offset := ch * 0x100 + 0x00, value := 0x80000000 },
    { window := .dma, offset := ch * 0x100 + 0x00, value := 0x00000006 },
    { window := .dma, offset := ch * 0x100 + 0x04, value := a },
    { window := .dma, offset := ch * 0x100 + 0x20, value := 7 },
    { window := .dma, offset := ch * 0x100 + 0x00, value := 0x10FF0000 },
    { window := .dma, offset := ch * 0x100 + 0x00, value := 0x10FF0001 } ]

/-- The statement of C21 for `startDMA(ch, a)` from the state `p`: the stores are the
stated ones, and every word of the DMA window at another offset keeps its value. -/
def TriggersChannel (ch a : Nat) (p : Pkg) : Prop :=
  (Pkg.startDMA ch a p).1.regLog = p.regLog ++ dmaTriggerStores ch a
  ∧ ∀ off, off ≠ ch * 0x100 + 0x00 → off ≠ ch * 0x100 + 0x04 → off ≠ ch * 0x100 + 0x20 →
      (Pkg.startDMA ch a p).1.dmaRegs off = p.dmaRegs off

/-- The value the PWM control register holds when `initializePWM` has stored
`ctlSettings` and ORed in the enable bits. -/
def ctlFinal (always2 : Bool) (ch0 ch1 : ledChannel) : Nat :=
  let s := ctlSettings always2 ch0 ch1
  let s := if ch0.active || always2 then s ||| registerValuePWMCtlPwen1 else s
  if ch1.active || always2 then s ||| registerValuePWMCtlPwen2 else s

/-- Two active one-pixel RGB channels, the second with the invert flag. -/
def invertedSecond : List ledChannel :=
  [rgbChannel (constStrip 1 0), { rgbChannel (constStrip 1 0) with invert := true }]

/-- Collaborators that succeed, except that mapping the PWM window fails. -/
def Env.mapPWMFails : Env := { Env.ok with mapPWM := some (.external 2) }

/-- Collaborators that succeed, except that mapping the clock window and mapping the
DMA window fail. -/
def Env.mapWindowsFail : Env :=
  { Env.ok with mapClock := some (.external 3), mapDMA := some (.external 4) }

/-- The package state after `Initialize` on a 10-pixel configuration at program start,
followed by a successful `Stop`. -/
def stoppedPkg : Pkg :=
  (Config.Stop Env.ok (Config.Initialize Env.ok (stripConfig 10 10) Pkg.start).1 runningPkg).2.1

/-! ## Lemmas: brightness scaling and gamma -/

theorem gammaTable_getD (i : Nat) (h : i < 256) : gammaTable.getD i 0 = i := by
  unfold gammaTable
  rw [List.getD_eq_getElem _ _ (by simpa using h)]
  simp [Nat.mod_eq_of_lt h]

theorem and_ff (x : Nat) : x &&& 0xff = x % 256 :=
  Nat.and_pow_two_sub_one_eq_mod x 8

theorem scale_of_le (ch : ledChannel) (h : ch.brightness ≤ 255) :
    ch.scale = ch.brightness + 1 := by
  unfold ledChannel.scale
  rw [and_ff, Nat.mod_eq_of_lt (by omega)]

theorem scaledColor_eq (scale curLED shift : Nat) (h : scale ≤ 256) :
    scaledColor scale curLED shift = (((curLED >>> shift) &&& 0xff) * scale) >>> 8 := by
  unfold scaledColor
  apply gammaTable_getD
  rw [and_ff, Nat.shiftRight_eq_div_pow _ 8]
  have h1 : (curLED >>> shift) % 256 ≤ 255 := by omega
  have h2 : (curLED >>> shift) % 256 * scale ≤ 255 * 256 := Nat.mul_le_mul h1 h
  omega

theorem scaledColor_lt (scale curLED shift : Nat) : scaledColor scale curLED shift < 256 := by
  unfold scaledColor gammaTable
  by_cases h : ((((curLED >>> shift) &&& 0xff) * scale) >>> 8) < 256
  · rw [List.getD_eq_getElem _ _ (by simpa using h)]
    simp only [List.getElem_map, List.getElem_range]
    omega
  · rw [List.getD_eq_default _ _ (by simpa using h)]
    omega
/-- C1: for brightness `b ≤ 255`, each of the four entries of the slice `color` that
`renderPWM` encodes for a pixel is `gammaTable[(c*(b+1)) >> 8]`, where `c` is the
colour byte selected by the entry's shift; with the identity table of `init` this is
`(c*(b+1)) >> 8`, it does not decrease when the brightness grows, and at
brightness 255 it is `c` itself. -/
theorem C1_brightness_scaling (ch : ledChannel) (curLED j : Nat)
    (hb : ch.brightness ≤ 255) (hj : j < 4) :
    let shift := [ch.rshift, ch.gshift, ch.bshift, ch.wshift].getD j 0
    let c := (curLED >>> shift) &&& 0xff
    (ch.color curLED).getD j 0 = gammaTable.getD ((c * (ch.brightness + 1)) >>> 8) 0
    ∧ (ch.color curLED).getD j 0 = (c * (ch.brightness + 1)) >>> 8
    ∧ (∀ ch' : ledChannel, ch'.rshift = ch.rshift → ch'.gshift = ch.gshift →
        ch'.bshift = ch.bshift → ch'.wshift = ch.wshift →
        ch.brightness ≤ ch'.brightness → ch'.brightness ≤ 255 →
        (ch.color curLED).getD j 0 ≤ (ch'.color curLED).getD j 0)
    ∧ (ch.brightness = 255 → (ch.color curLED).getD j 0 = c) := by
  intro shift c
  have hcol : ∀ ch' : ledChannel, ch'.brightness ≤ 255 →
      (ch'.color curLED).getD j 0 =
        (((curLED >>> ([ch'.rshift, ch'.gshift, ch'.bshift, ch'.wshift].getD j 0)) &&& 0xff)
          * (ch'.brightness + 1)) >>> 8 := by
    intro ch' hb'
    have hs := scale_of_le ch' hb'
    have hle : ch'.scale ≤ 256 := by omega
    unfold ledChannel.color
    interval_cases j <;> simp only [List.getD_cons_zero, List.getD_cons_succ] <;>
      rw [scaledColor_eq _ _ _ hle, hs]
  have h1 := hcol ch hb
  refine ⟨?_, h1, ?_, ?_⟩
  · rw [h1]
    symm
    apply gammaTable_getD
    show (c * (ch.brightness + 1)) >>> 8 < 256
    have hc : c ≤ 255 := by
      show (curLED >>> shift) &&& 0xff ≤ 255
      rw [and_ff]; omega
    have h2 : c * (ch.brightness + 1) ≤ 255 * 256 := Nat.mul_le_mul hc (by omega)
    rw [Nat.shiftRight_eq_div_pow]
    omega
  · intro ch' hr hg hbl hw hle hb'
    rw [h1, hcol ch' hb', hr, hg, hbl, hw]
    simp only [Nat.shiftRight_eq_div_pow]
    exact Nat.div_le_div_right (Nat.mul_le_mul_left _ (Nat.add_le_add_right hle 1))
  · intro h255
    rw [h1, h255, Nat.shiftRight_eq_div_pow _ 8]
    exact Nat.mul_div_cancel c (by norm_num)

/-- Witness for C1: a red-first channel at brightness 200, pixel `0x00804020`,
entry 0. -/
theorem C1_brightness_scaling_witness :
    ((({ ledChannel.zero with brightness := 200, rshift := 16, gshift := 8 } : ledChannel).color
        0x00804020).getD 0 0 = (0x80 * 201) >>> 8) :=
  (C1_brightness_scaling { ledChannel.zero with brightness := 200, rshift := 16, gshift := 8 }
    0x00804020 0 (by decide) (by decide)).2.1
theorem putLED_eq_emitted (apc chan : Nat) (ch : ledChannel) (s : Cursor) (i : Nat) :
    putLED apc chan ch s i =
      (ch.emitted (ch.strip.UInt32 i % 2 ^ 32)).foldl (putColor apc chan) s := by
  unfold putLED ledChannel.emitted
  rw [List.foldl_map]

/-- C4, as stated, fails: for a four-colour channel and the pixel `0x11223344` the
bytes are not emitted in the order White, Red, Green, Blue; the first byte is the red
one, `0x22`. -/
theorem C4_counterexample :
    rgbwChannel.ledColors = 4 ∧
    rgbwChannel.emitted 0x11223344 ≠
      [ scaledColor rgbwChannel.scale 0x11223344 rgbwChannel.wshift,
        scaledColor rgbwChannel.scale 0x11223344 rgbwChannel.rshift,
        scaledColor rgbwChannel.scale 0x11223344 rgbwChannel.gshift,
        scaledColor rgbwChannel.scale 0x11223344 rgbwChannel.bshift ] ∧
    rgbwChannel.emitted 0x11223344 = [0x22, 0x33, 0x44, 0x11] := by
  decide

/-- C4, amended: for every pixel of a channel the bit loop receives the colour bytes
in the order Red, Green, Blue, White (the bytes selected by rshift, gshift, bshift,
wshift) when the channel has 4 colours, and Red, Green, Blue when it has 3. -/
theorem C4_emission_order (apc chan : Nat) (ch : ledChannel) (s : Cursor) (i : Nat) :
    putLED apc chan ch s i =
      (ch.emitted (ch.strip.UInt32 i % 2 ^ 32)).foldl (putColor apc chan) s
    ∧ ch.emitted (ch.strip.UInt32 i % 2 ^ 32) =
      (if ch.ledColors = 4 then
        [ scaledColor ch.scale (ch.strip.UInt32 i % 2 ^ 32) ch.rshift,
          scaledColor ch.scale (ch.strip.UInt32 i % 2 ^ 32) ch.gshift,
          scaledColor ch.scale (ch.strip.UInt32 i % 2 ^ 32) ch.bshift,
          scaledColor ch.scale (ch.strip.UInt32 i % 2 ^ 32) ch.wshift ]
      else
        [ scaledColor ch.scale (ch.strip.UInt32 i % 2 ^ 32) ch.rshift,
          scaledColor ch.scale (ch.strip.UInt32 i % 2 ^ 32) ch.gshift,
          scaledColor ch.scale (ch.strip.UInt32 i % 2 ^ 32) ch.bshift ])
    ∧ (ch.ledColors = 4 ∨ ch.ledColors = 3) := by
  refine ⟨putLED_eq_emitted apc chan ch s i, ?_, ?_⟩
  · unfold ledChannel.emitted ledChannel.ledColors ledChannel.color
    split <;> simp [List.range_succ]
  · unfold ledChannel.ledColors
    split <;> simp
theorem ledColors_le (ch : ledChannel) : ch.ledColors ≤ 4 := by
  unfold ledChannel.ledColors
  split <;> omega

theorem emitted_full_brightness (ch : ledChannel) (curLED : Nat) (hb : ch.brightness = 255) :
    ch.emitted curLED = ch.emittedShifts.map (fun s => (curLED >>> s) % 256) := by
  have hs : ch.scale = 256 := by rw [scale_of_le ch (by omega), hb]
  have key : ∀ shift, scaledColor 256 curLED shift = (curLED >>> shift) % 256 := by
    intro shift
    rw [scaledColor_eq _ _ _ (le_refl _), and_ff, Nat.shiftRight_eq_div_pow _ 8]
    omega
  unfold ledChannel.emitted ledChannel.emittedShifts ledChannel.color
  rw [hs, key, key, key, key, List.map_map]
  apply List.map_congr_left
  intro j hj
  have h4 := ledColors_le ch
  have hj4 : j < 4 := by
    have := List.mem_range.mp hj
    omega
  interval_cases j <;> rfl

theorem component_of_eq (l : Nat) (x : Component) :
    Component.of l x = (l >>> x.shift) % 256 := by
  have h : ∀ y : Nat, y % 256 &&& 255 = y % 256 := by
    intro y
    have := and_ff (y % 256)
    simp only [Nat.reduceMod] at this ⊢
    omega
  cases x <;>
    simp [Component.of, Component.shift, SingleLED.Red, SingleLED.Green, SingleLED.Blue,
      SingleLED.White, h]

/-- The shifts `SetStrip` derives from each named strip type spell the type's name. -/
theorem namedStripTypes_shifts :
    ∀ p ∈ namedStripTypes,
      (if p.1 &&& sk6812ShiftMask ≠ 0 then 4 else 3) = p.2.length ∧
      (List.range p.2.length).map (fun j =>
        [ ((p.1 >>> 16) &&& 0xff) % 256, ((p.1 >>> 8) &&& 0xff) % 256,
          ((p.1 >>> 0) &&& 0xff) % 256, ((p.1 >>> 24) &&& 0xff) % 256 ].getD j 0)
        = p.2.map Component.shift := by
  decide

/-- C5: after `SetStrip` (on a pin the channel accepts) with one of the twelve named
strip types, the channel emits
as many colour bytes per pixel as the type's name has letters, and at brightness 255
the k-th emitted byte of a pixel `0xWWRRGGBB` is the component named by the k-th
letter. -/
theorem C5_named_strip_types (NewPin : Nat → Option Nat × Option Error) (c : Config)
    (ledStrip : LEDs) (pin idx : Nat) (invertSignal : Bool) (T : Nat)
    (letters : List Component) (curLED altMode : Nat)
    (hT : (T, letters) ∈ namedStripTypes)
    (hinit : c.initialized = false) (hdrv : c.driverType = DriverPWM)
    (hlen : c.channels.length = 2) (hidx : idx < 2)
    (hm : pwmChannelType.getAltMode pwmChannels idx pin = .ok altMode)
    (hnew : (NewPin pin).2 = none)
    (hb : (c.channels.getD idx ledChannel.zero).brightness = 255) :
    (c.SetStrip NewPin ledStrip pin T idx invertSignal).2 = none
    ∧ ((c.SetStrip NewPin ledStrip pin T idx invertSignal).1.channels.getD idx
        ledChannel.zero).ledColors = letters.length
    ∧ ((c.SetStrip NewPin ledStrip pin T idx invertSignal).1.channels.getD idx
        ledChannel.zero).emitted curLED = letters.map (Component.of curLED) := by
  have hset : ∀ (x : ledChannel), (c.channels.set idx x).getD idx ledChannel.zero = x := by
    intro x
    rw [List.getD_eq_getElem _ _ (by simp [hlen, hidx])]
    simp
  have hI1 : ¬ ((idx : Int) < 0) := by omega
  have hI2 : ¬ ((idx : Int) ≥ 2) := by omega
  obtain ⟨hcol, hsh⟩ := namedStripTypes_shifts (T, letters) hT
  simp only [Config.SetStrip, hinit, hdrv, hm, hnew, hI1, hI2, Int.toNat_ofNat, if_true,
    if_false, Bool.false_eq_true, hset]
  have hlc : ∀ ch : ledChannel, ch.stripType = T → ch.ledColors = letters.length := by
    intro ch h
    unfold ledChannel.ledColors
    rw [h]
    exact hcol
  refine ⟨trivial, hlc _ rfl, ?_⟩
  rw [emitted_full_brightness _ _ (by simpa using hb)]
  unfold ledChannel.emittedShifts
  rw [hlc _ rfl]
  simp only
  rw [hsh, List.map_map]
  apply List.map_congr_left
  intro x _
  exact (component_of_eq curLED x).symm

/-! ## Lemmas: one store -/

theorem putBit_mem (apc chan : Nat) (s : Cursor) (b : Bool) :
    (putBit apc chan s b).mem =
      if b then
        setWord (setWord s.mem ((s.wordPos * 4) % 2 ^ 32)
            (s.mem ((s.wordPos * 4) % 2 ^ 32) &&&
              (0xffffffff ^^^ ((1 <<< s.bitPos.toNat) % 2 ^ 32))))
          ((s.wordPos * 4) % 2 ^ 32)
          ((s.mem ((s.wordPos * 4) % 2 ^ 32) &&&
              (0xffffffff ^^^ ((1 <<< s.bitPos.toNat) % 2 ^ 32))) |||
            ((1 <<< s.bitPos.toNat) % 2 ^ 32))
      else
        setWord s.mem ((s.wordPos * 4) % 2 ^ 32)
          (s.mem ((s.wordPos * 4) % 2 ^ 32) &&&
            (0xffffffff ^^^ ((1 <<< s.bitPos.toNat) % 2 ^ 32))) := by
  by_cases h : s.bitPos - 1 < 0 <;> cases b <;>
    simp only [putBit, h, if_true, if_false, setWord, Bool.false_eq_true]

theorem putBit_writes_raw (apc chan : Nat) (s : Cursor) (b : Bool) :
    (putBit apc chan s b).writes =
      s.writes ++ [{ chan := chan, offset := (s.wordPos * 4) % 2 ^ 32, bit := s.bitPos.toNat }] := by
  by_cases h : s.bitPos - 1 < 0 <;> simp only [putBit, h, if_true, if_false]

theorem putBit_bitPos (apc chan : Nat) (s : Cursor) (b : Bool) :
    (putBit apc chan s b).bitPos = if s.bitPos - 1 < 0 then 31 else s.bitPos - 1 := by
  by_cases h : s.bitPos - 1 < 0 <;> simp only [putBit, h, if_true, if_false]

theorem putBit_wordPos_raw (apc chan : Nat) (s : Cursor) (b : Bool) :
    (putBit apc chan s b).wordPos =
      if s.bitPos - 1 < 0 then (s.wordPos + wordStep apc) % 2 ^ 32 else s.wordPos := by
  by_cases h : s.bitPos - 1 < 0 <;> by_cases h2 : apc = 2 <;>
    simp only [putBit, wordStep, h, h2, if_true, if_false]

theorem putBit_writes (apc chan : Nat) (s : Cursor) (b : Bool) (h : s.WF) :
    (putBit apc chan s b).writes = s.writes ++ [writePos apc chan s.wordPos s.phase 0] := by
  obtain ⟨h0, h31, hw⟩ := h
  have e1 : (s.wordPos * 4) % 2 ^ 32
      = (((s.wordPos + wordStep apc * ((0 + s.phase) / 32)) % 2 ^ 32) * 4) % 2 ^ 32 := by
    have : (0 + s.phase) / 32 = 0 := by unfold Cursor.phase; omega
    rw [this]; omega
  have e2 : s.bitPos.toNat = 31 - (0 + s.phase) % 32 := by unfold Cursor.phase; omega
  rw [putBit_writes_raw]
  unfold writePos
  rw [← e1, ← e2]

theorem putBit_WF (apc chan : Nat) (s : Cursor) (b : Bool) (h : s.WF) :
    (putBit apc chan s b).WF := by
  obtain ⟨h0, h31, hw⟩ := h
  unfold Cursor.WF
  rw [putBit_bitPos, putBit_wordPos_raw]
  split
  · exact ⟨by norm_num, by norm_num, Nat.mod_lt _ (by norm_num)⟩
  · exact ⟨by omega, by omega, hw⟩

theorem putBit_phase (apc chan : Nat) (s : Cursor) (b : Bool) (h : s.WF) :
    (putBit apc chan s b).phase = (s.phase + 1) % 32 := by
  obtain ⟨h0, h31, hw⟩ := h
  unfold Cursor.phase
  rw [putBit_bitPos]
  split <;> omega

theorem putBit_wordPos (apc chan : Nat) (s : Cursor) (b : Bool) (h : s.WF) :
    (putBit apc chan s b).wordPos
      = (s.wordPos + wordStep apc * ((s.phase + 1) / 32)) % 2 ^ 32 := by
  obtain ⟨h0, h31, hw⟩ := h
  rw [putBit_wordPos_raw]
  unfold Cursor.phase
  split
  · have : ((31 - s.bitPos).toNat + 1) / 32 = 1 := by omega
    rw [this, Nat.mul_one]
  · have : ((31 - s.bitPos).toNat + 1) / 32 = 0 := by omega
    rw [this, Nat.mul_zero, Nat.add_zero, Nat.mod_eq_of_lt hw]

theorem writePos_shift (apc chan w0 ph k : Nat) :
    writePos apc chan ((w0 + wordStep apc * ((ph + 1) / 32)) % 2 ^ 32) ((ph + 1) % 32) k
      = writePos apc chan w0 ph (k + 1) := by
  unfold writePos wordStep
  have hb : (k + (ph + 1) % 32) % 32 = (k + 1 + ph) % 32 := by omega
  have hq : (k + 1 + ph) / 32 = (ph + 1) / 32 + (k + (ph + 1) % 32) / 32 := by omega
  rw [hb, hq]
  congr 1
  split <;> omega

theorem putBit_mem_other (apc chan : Nat) (s : Cursor) (b : Bool) (a : Nat)
    (ha : a ≠ (s.wordPos * 4) % 2 ^ 32) : (putBit apc chan s b).mem a = s.mem a := by
  rw [putBit_mem]
  cases b <;> simp only [setWord, ha, if_false, Bool.false_eq_true, if_true]

theorem testBit_ffffffff (j : Nat) (hj : j < 32) : (0xffffffff : Nat).testBit j = true := by
  have h := Nat.testBit_two_pow_sub_one 32 j
  simpa [hj] using h

theorem clearBit_testBit (x p j : Nat) (hj : j < 32) :
    (x &&& (0xffffffff ^^^ 2 ^ p)).testBit j = (x.testBit j && !decide (p = j)) := by
  rw [Nat.testBit_land, Nat.testBit_xor, testBit_ffffffff j hj, Nat.testBit_two_pow]
  by_cases h : p = j <;> simp [h]

theorem storeBit_testBit (x p j : Nat) (hj : j < 32) :
    ((x &&& (0xffffffff ^^^ 2 ^ p)) ||| 2 ^ p).testBit j = (decide (p = j) || x.testBit j) := by
  rw [Nat.testBit_lor, clearBit_testBit x p j hj, Nat.testBit_two_pow]
  by_cases h : p = j <;> simp [h]

theorem putBit_testBit (apc chan : Nat) (s : Cursor) (b : Bool) (h : s.WF) (a j : Nat)
    (hj : j < 32) :
    ((putBit apc chan s b).mem a).testBit j
      = if a = (s.wordPos * 4) % 2 ^ 32 ∧ j = s.bitPos.toNat then b
        else (s.mem a).testBit j := by
  obtain ⟨h0, h31, hw⟩ := h
  by_cases ha : a = (s.wordPos * 4) % 2 ^ 32
  · have hp : s.bitPos.toNat < 32 := by omega
    have hmask : (1 <<< s.bitPos.toNat) % 2 ^ 32 = 2 ^ s.bitPos.toNat := by
      rw [Nat.one_shiftLeft]
      exact Nat.mod_eq_of_lt (Nat.pow_lt_pow_right (by norm_num) hp)
    rw [putBit_mem, hmask, ← ha]
    simp only [true_and]
    cases b
    · simp only [Bool.false_eq_true, if_false, setWord, if_true]
      rw [clearBit_testBit _ _ _ hj]
      by_cases hjp : j = s.bitPos.toNat
      · simp [hjp]
      · have hjp2 : ¬ s.bitPos.toNat = j := fun e => hjp e.symm
        simp [hjp, hjp2]
    · simp only [if_true, setWord]
      rw [storeBit_testBit _ _ _ hj]
      by_cases hjp : j = s.bitPos.toNat
      · simp [hjp]
      · have hjp2 : ¬ s.bitPos.toNat = j := fun e => hjp e.symm
        simp [hjp, hjp2]
  · rw [putBit_mem_other apc chan s b a ha]
    simp only [ha, false_and, if_false]

/-! ## Lemmas: a run of stores -/

theorem putBits_spec (apc chan : Nat) : ∀ (bits : List Bool) (s : Cursor), s.WF →
    (bits.foldl (putBit apc chan) s).WF ∧
    (bits.foldl (putBit apc chan) s).writes
      = s.writes ++ (List.range bits.length).map (writePos apc chan s.wordPos s.phase) ∧
    (bits.foldl (putBit apc chan) s).phase = (s.phase + bits.length) % 32 ∧
    (bits.foldl (putBit apc chan) s).wordPos
      = (s.wordPos + wordStep apc * ((s.phase + bits.length) / 32)) % 2 ^ 32 := by
  intro bits
  induction bits with
  | nil =>
    intro s h
    obtain ⟨h0, h31, hw⟩ := h
    refine ⟨⟨h0, h31, hw⟩, by simp, ?_, ?_⟩
    · simp only [List.foldl_nil, List.length_nil, Nat.add_zero]
      unfold Cursor.phase; omega
    · simp only [List.foldl_nil, List.length_nil, Nat.add_zero]
      have : s.phase / 32 = 0 := by unfold Cursor.phase; omega
      rw [this, Nat.mul_zero, Nat.add_zero, Nat.mod_eq_of_lt hw]
  | cons b bs ih =>
    intro s h
    have h' := putBit_WF apc chan s b h
    obtain ⟨i1, i2, i3, i4⟩ := ih (putBit apc chan s b) h'
    rw [List.foldl_cons]
    refine ⟨i1, ?_, ?_, ?_⟩
    · rw [i2, putBit_writes apc chan s b h, putBit_phase apc chan s b h,
        putBit_wordPos apc chan s b h, List.length_cons, List.range_succ_eq_map,
        List.map_cons, List.map_map, List.append_assoc, List.singleton_append]
      congr 2
      apply List.map_congr_left
      intro k _
      exact writePos_shift apc chan s.wordPos s.phase k
    · rw [i3, putBit_phase apc chan s b h, List.length_cons]
      omega
    · rw [i4, putBit_phase apc chan s b h, putBit_wordPos apc chan s b h, List.length_cons]
      have hq : (s.phase + (bs.length + 1)) / 32
          = (s.phase + 1) / 32 + ((s.phase + 1) % 32 + bs.length) / 32 := by omega
      rw [hq]
      unfold wordStep
      split <;> omega

/-- A word no store of the run addresses keeps its value. -/
theorem putBits_frame_word (apc chan : Nat) (a : Nat) : ∀ (bits : List Bool) (s : Cursor),
    s.WF → (∀ k, k < bits.length → (writePos apc chan s.wordPos s.phase k).offset ≠ a) →
    (bits.foldl (putBit apc chan) s).mem a = s.mem a := by
  intro bits
  induction bits with
  | nil => intro s _ _; rfl
  | cons b bs ih =>
    intro s h hne
    rw [List.foldl_cons, ih (putBit apc chan s b) (putBit_WF apc chan s b h)]
    · apply putBit_mem_other
      have h0 := hne 0 (by simp)
      intro e
      apply h0
      have hw := putBit_writes apc chan s b h
      rw [putBit_writes_raw] at hw
      have := List.append_cancel_left hw
      simp only [List.cons.injEq, and_true] at this
      rw [← this, e]
    · intro k hk
      rw [putBit_phase apc chan s b h, putBit_wordPos apc chan s b h, writePos_shift]
      exact hne (k + 1) (by simpa using hk)

/-- A bit no store of the run addresses keeps its value. -/
theorem putBits_frame_bit (apc chan : Nat) (a j : Nat) (hj : j < 32) :
    ∀ (bits : List Bool) (s : Cursor), s.WF →
    (∀ k, k < bits.length →
      ¬ ((writePos apc chan s.wordPos s.phase k).offset = a ∧
         (writePos apc chan s.wordPos s.phase k).bit = j)) →
    ((bits.foldl (putBit apc chan) s).mem a).testBit j = (s.mem a).testBit j := by
  intro bits
  induction bits with
  | nil => intro s _ _; rfl
  | cons b bs ih =>
    intro s h hne
    rw [List.foldl_cons, ih (putBit apc chan s b) (putBit_WF apc chan s b h)]
    · rw [putBit_testBit apc chan s b h a j hj]
      have h0 := hne 0 (by simp)
      have hw := putBit_writes apc chan s b h
      rw [putBit_writes_raw] at hw
      have := List.append_cancel_left hw
      simp only [List.cons.injEq, and_true] at this
      rw [← this] at h0
      simp only at h0
      have : ¬ (a = s.wordPos * 4 % 2 ^ 32 ∧ j = s.bitPos.toNat) := by
        rintro ⟨e1, e2⟩
        exact h0 ⟨e1.symm, e2.symm⟩
      simp only [this, if_false]
    · intro k hk
      rw [putBit_phase apc chan s b h, putBit_wordPos apc chan s b h, writePos_shift]
      exact hne (k + 1) (by simpa using hk)

/-- If no two stores of a run address the same bit, every stored bit is still in the
buffer at the end of the run. -/
theorem putBits_content (apc chan : Nat) : ∀ (bits : List Bool) (s : Cursor), s.WF →
    (∀ k1 k2, k1 < bits.length → k2 < bits.length →
      (writePos apc chan s.wordPos s.phase k1).offset
        = (writePos apc chan s.wordPos s.phase k2).offset →
      (writePos apc chan s.wordPos s.phase k1).bit
        = (writePos apc chan s.wordPos s.phase k2).bit → k1 = k2) →
    ∀ k, k < bits.length →
      ((bits.foldl (putBit apc chan) s).mem (writePos apc chan s.wordPos s.phase k).offset).testBit
        (writePos apc chan s.wordPos s.phase k).bit = bits.getD k false := by
  intro bits
  induction bits with
  | nil => intro s _ _ k hk; simp at hk
  | cons b bs ih =>
    intro s h hinj k hk
    have h' := putBit_WF apc chan s b h
    have hbit : ∀ k, (writePos apc chan s.wordPos s.phase k).bit < 32 := by
      intro k; unfold writePos; simp only; omega
    have hsh : ∀ k, writePos apc chan (putBit apc chan s b).wordPos
        (putBit apc chan s b).phase k = writePos apc chan s.wordPos s.phase (k + 1) := by
      intro k
      rw [putBit_phase apc chan s b h, putBit_wordPos apc chan s b h, writePos_shift]
    rw [List.foldl_cons]
    cases k with
    | zero =>
      rw [putBits_frame_bit apc chan _ _ (hbit 0) bs _ h']
      · rw [putBit_testBit apc chan s b h _ _ (hbit 0)]
        have hw := putBit_writes apc chan s b h
        rw [putBit_writes_raw] at hw
        have := List.append_cancel_left hw
        simp only [List.cons.injEq, and_true] at this
        rw [← this]
        simp
      · intro k hk2 hc
        rw [hsh] at hc
        have := hinj (k + 1) 0 (by simpa using hk2) (by simp) hc.1 hc.2
        omega
    | succ k =>
      have := ih (putBit apc chan s b) h' (by
        intro k1 k2 hk1 hk2 e1 e2
        rw [hsh, hsh] at e1 e2
        have := hinj (k1 + 1) (k2 + 1) (by simpa using hk1) (by simpa using hk2) e1 e2
        omega) k (by simpa using hk)
      rw [hsh] at this
      rw [this]
      simp

/-! ## Lemmas: the nested loops as one run of stores -/

theorem foldl_blocks {σ : Type} (f : σ → Bool → σ) (m : Nat) (g : Nat → Nat → Bool) :
    ∀ (n : Nat) (s : σ),
      (List.range n).foldl (fun s i => ((List.range m).map (g i)).foldl f s) s
        = ((List.range (n * m)).map (fun k => g (k / m) (k % m))).foldl f s := by
  intro n
  induction n with
  | zero => intro s; simp
  | succ n ih =>
    intro s
    rw [List.range_succ, List.foldl_append, ih, Nat.succ_mul, List.range_add, List.map_append,
      List.foldl_append, List.map_map]
    simp only [List.foldl_cons, List.foldl_nil]
    congr 1
    apply List.map_congr_left
    intro r hr
    have hr' : r < m := List.mem_range.mp hr
    have hm : 0 < m := by omega
    simp only [Function.comp]
    rw [Nat.mul_comm n m, Nat.mul_add_div hm, Nat.mul_add_mod, Nat.div_eq_of_lt hr',
      Nat.mod_eq_of_lt hr', Nat.add_zero]

theorem putSymbol_eq (apc chan : Nat) (s : Cursor) (symbol : Nat) :
    putSymbol apc chan s symbol
      = ((List.range 3).map (fun r => symbolBit symbol (2 - r))).foldl (putBit apc chan) s := by
  rfl

theorem putColor_eq (apc chan : Nat) (s : Cursor) (curColor : Nat) :
    putColor apc chan s curColor
      = ((List.range 24).map (colorBit curColor)).foldl (putBit apc chan) s := by
  have h8 : [7, 6, 5, 4, 3, 2, 1, 0] = (List.range 8).map (fun t => 7 - t) := by decide
  unfold putColor
  rw [h8, List.foldl_map]
  simp only [putSymbol_eq]
  exact foldl_blocks (putBit apc chan) 3
    (fun t r => symbolBit (if curColor &&& (1 <<< (7 - t)) ≠ 0 then symbolHigh else symbolLow)
      (2 - r)) 8 s

theorem putLED_eq (apc chan : Nat) (ch : ledChannel) (s : Cursor) (i : Nat) :
    putLED apc chan ch s i
      = ((List.range (ch.ledColors * 24)).map (fun p =>
          colorBit ((ch.color (ch.strip.UInt32 i % 2 ^ 32)).getD (p / 24) 0) (p % 24))).foldl
          (putBit apc chan) s := by
  unfold putLED
  simp only [putColor_eq]
  exact foldl_blocks (putBit apc chan) 24
    (fun j q => colorBit ((ch.color (ch.strip.UInt32 i % 2 ^ 32)).getD j 0) q) ch.ledColors s

theorem pixelLoop_eq (apc chan : Nat) (ch : ledChannel) (s : Cursor) :
    (List.range ch.strip.TotalCount).foldl (fun s i => putLED apc chan ch s i) s
      = ch.stream.foldl (putBit apc chan) s := by
  simp only [putLED_eq]
  exact foldl_blocks (putBit apc chan) (ch.ledColors * 24)
    (fun i p => colorBit ((ch.color (ch.strip.UInt32 i % 2 ^ 32)).getD (p / 24) 0) (p % 24))
    ch.strip.TotalCount s

theorem stream_length (ch : ledChannel) :
    ch.stream.length = ch.strip.TotalCount * (ch.ledColors * 24) := by
  simp [ledChannel.stream]

/-! ## Lemmas: one channel, and `Render` -/

theorem renderChannel_inactive (f apc : Nat) (st : RenderState) (chan : Nat) (ch : ledChannel)
    (h : ch.active = false) : renderChannel f apc st chan ch = st := by
  unfold renderChannel
  simp [h]

theorem renderChannel_active (f apc : Nat) (st : RenderState) (chan : Nat) (ch : ledChannel)
    (h : ch.active = true) :
    renderChannel f apc st chan ch =
      { mem := (ch.stream.foldl (putBit apc chan) (st.cursor chan)).mem,
        writes := (ch.stream.foldl (putBit apc chan) (st.cursor chan)).writes,
        bitPos := (ch.stream.foldl (putBit apc chan) (st.cursor chan)).bitPos,
        protocolTime := if channelProtocolTime f ch > st.protocolTime
          then channelProtocolTime f ch else st.protocolTime } := by
  unfold renderChannel
  simp only [h, Bool.not_true, Bool.false_eq_true, if_false]
  rw [pixelLoop_eq]
  rfl

theorem cursor_WF (st : RenderState) (chan : Nat) (h0 : 0 ≤ st.bitPos) (h31 : st.bitPos ≤ 31) :
    (st.cursor chan).WF :=
  ⟨h0, h31, Nat.mod_lt _ (by norm_num)⟩

/-- What an active channel does to the render state, in closed form. -/
theorem renderChannel_run (f apc : Nat) (st : RenderState) (chan : Nat) (ch : ledChannel)
    (h : ch.active = true) (h0 : 0 ≤ st.bitPos) (h31 : st.bitPos ≤ 31) :
    (renderChannel f apc st chan ch).writes
      = st.writes ++ (List.range (ch.strip.TotalCount * (ch.ledColors * 24))).map
          (writePos apc chan (chan % 2 ^ 32) (31 - st.bitPos).toNat)
    ∧ 0 ≤ (renderChannel f apc st chan ch).bitPos
    ∧ (renderChannel f apc st chan ch).bitPos ≤ 31
    ∧ (31 - (renderChannel f apc st chan ch).bitPos).toNat
        = ((31 - st.bitPos).toNat + ch.strip.TotalCount * (ch.ledColors * 24)) % 32 := by
  obtain ⟨w1, w2, w3, _⟩ := putBits_spec apc chan ch.stream (st.cursor chan)
    (cursor_WF st chan h0 h31)
  rw [renderChannel_active f apc st chan ch h]
  rw [stream_length] at w2 w3
  exact ⟨w2, w1.1, w1.2.1, w3⟩

theorem renderChannel_bitPos (f apc : Nat) (st : RenderState) (chan : Nat) (ch : ledChannel)
    (h0 : 0 ≤ st.bitPos) (h31 : st.bitPos ≤ 31) :
    0 ≤ (renderChannel f apc st chan ch).bitPos ∧ (renderChannel f apc st chan ch).bitPos ≤ 31 := by
  cases h : ch.active with
  | false => rw [renderChannel_inactive f apc st chan ch h]; exact ⟨h0, h31⟩
  | true =>
    obtain ⟨_, a, b, _⟩ := renderChannel_run f apc st chan ch h h0 h31
    exact ⟨a, b⟩

theorem sleep_fields (d : Int) (w : World) :
    (sleep d w).activePWMChannels = w.activePWMChannels ∧ (sleep d w).pwmDataMem = w.pwmDataMem ∧
    (sleep d w).pwmDataWrites = w.pwmDataWrites ∧
    (sleep d w).dmaCBRegisterMemPWMBusAddr = w.dmaCBRegisterMemPWMBusAddr :=
  ⟨rfl, rfl, rfl, rfl⟩

theorem throttle_fields (c : Config) (w : World) :
    (c.throttle w).activePWMChannels = w.activePWMChannels ∧
    (c.throttle w).pwmDataMem = w.pwmDataMem ∧
    (c.throttle w).pwmDataWrites = w.pwmDataWrites := by
  unfold Config.throttle
  split
  · exact ⟨rfl, rfl, rfl⟩
  · split
    · simp only
      split
      · exact ⟨rfl, rfl, rfl⟩
      · exact ⟨rfl, rfl, rfl⟩
    · exact ⟨rfl, rfl, rfl⟩

theorem startDMA_fields (channel addr : Nat) (w : World) :
    (startDMA channel addr w).activePWMChannels = w.activePWMChannels ∧
    (startDMA channel addr w).pwmDataMem = w.pwmDataMem ∧
    (startDMA channel addr w).pwmDataWrites = w.pwmDataWrites :=
  ⟨rfl, rfl, rfl⟩

/-- The method `Render` with a valid index succeeds; the data buffer, the write log
and the stored wait time are those of the encoder run on the selected channels. -/
theorem Render_spec (c : Config) (stripIndex : Int) (w : World)
    (hd : c.driverType = DriverPWM) (h1 : -1 ≤ stripIndex) (h2 : stripIndex < 2) :
    ∃ c' w', c.Render stripIndex w = .ok (c', w') ∧
      w'.pwmDataMem = (renderPWMLoop (c.rendered stripIndex) c.frequency w.activePWMChannels
        w.pwmDataMem w.pwmDataWrites).mem ∧
      w'.pwmDataWrites = (renderPWMLoop (c.rendered stripIndex) c.frequency w.activePWMChannels
        w.pwmDataMem w.pwmDataWrites).writes ∧
      c'.renderWaitTime = renderPWMResult (renderPWMLoop (c.rendered stripIndex) c.frequency
        w.activePWMChannels w.pwmDataMem w.pwmDataWrites) := by
  have n1 : ¬ stripIndex < -1 := by omega
  have n2 : ¬ stripIndex ≥ 2 := by omega
  obtain ⟨t1, t2, t3⟩ := throttle_fields c w
  unfold Config.Render
  simp only [n1, n2, hd, if_true, if_false]
  refine ⟨_, _, rfl, ?_, ?_, ?_⟩
  · rw [(startDMA_fields _ _ _).2.1]
    unfold Config.rendered renderPWM
    split <;> simp only [t1, t2, t3]
  · rw [(startDMA_fields _ _ _).2.2]
    unfold Config.rendered renderPWM
    split <;> simp only [t1, t2, t3]
  · unfold Config.rendered renderPWM
    split <;> simp only [t1, t2, t3]

/-! ## One rendered channel -/

theorem renderPWMLoop_single (ch : ledChannel) (f apc : Nat) (mem : Nat → Nat)
    (ws : List WriteRec) :
    renderPWMLoop [ch] f apc mem ws
      = renderChannel f apc { mem := mem, writes := ws, bitPos := 31, protocolTime := 0 } 0 ch :=
  rfl

theorem renderPWM_single_writes (ch : ledChannel) (f : Nat) (w : World)
    (h : ch.active = true) :
    (renderPWM [ch] f w).2.pwmDataWrites
      = w.pwmDataWrites ++ (List.range (ch.strip.TotalCount * (ch.ledColors * 24))).map
          (writePos w.activePWMChannels 0 0 0) := by
  have := (renderChannel_run f w.activePWMChannels
    { mem := w.pwmDataMem, writes := w.pwmDataWrites, bitPos := 31, protocolTime := 0 } 0 ch h
    (by norm_num) (by norm_num)).1
  exact this

theorem renderPWM_single_mem (ch : ledChannel) (f : Nat) (w : World) (h : ch.active = true) :
    (renderPWM [ch] f w).2.pwmDataMem
      = (ch.stream.foldl (putBit w.activePWMChannels 0)
          { mem := w.pwmDataMem, writes := w.pwmDataWrites, bitPos := 31, wordPos := 0 }).mem := by
  show (renderPWMLoop [ch] f w.activePWMChannels w.pwmDataMem w.pwmDataWrites).mem = _
  rw [renderPWMLoop_single, renderChannel_active _ _ _ _ _ h]
  rfl

theorem writePos_one (k : Nat) (hk : k < 2 ^ 35) :
    writePos 1 0 0 0 k = { chan := 0, offset := 4 * (k / 32), bit := 31 - k % 32 } := by
  unfold writePos wordStep
  simp only [Nat.add_zero, Nat.zero_add]
  congr 1
  norm_num
  omega

theorem startCursor_WF (mem : Nat → Nat) (ws : List WriteRec) :
    ({ mem := mem, writes := ws, bitPos := 31, wordPos := 0 } : Cursor).WF :=
  ⟨by norm_num, by norm_num, by norm_num⟩

/-- C3, amended: for every pixel count `n` and colour depth `d` with
`n*d*8*3 ≤ 2^35` (the byte offset `wordPos*4` stays a `uint32`), `renderPWM` over one
active channel (index 0, one active PWM channel) stores to exactly `n*d*8*3` distinct
bit positions, these lie in exactly the words `0 .. ceil(n*d*24/32)-1`, and no other
bit of the buffer is modified. -/
theorem C3_encoded_positions (ch : ledChannel) (frequency : Nat) (w : World)
    (hact : ch.active = true) (hapc : w.activePWMChannels = 1) (hlog : w.pwmDataWrites = [])
    (hN : ch.strip.TotalCount * ch.ledColors * 8 * 3 ≤ 2 ^ 35) :
    EncodesExactly ch frequency w := by
  have hmul : ch.strip.TotalCount * ch.ledColors * 8 * 3
      = ch.strip.TotalCount * (ch.ledColors * 24) := by ring
  have hW := renderPWM_single_writes ch frequency w hact
  rw [hapc, hlog, List.nil_append] at hW
  have hmem : ∀ r ∈ (renderPWM [ch] frequency w).2.pwmDataWrites,
      ∃ k, k < ch.strip.TotalCount * (ch.ledColors * 24) ∧
        r = { chan := 0, offset := 4 * (k / 32), bit := 31 - k % 32 } := by
    intro r hr
    rw [hW, List.mem_map] at hr
    obtain ⟨k, hk, rfl⟩ := hr
    have hk' := List.mem_range.mp hk
    exact ⟨k, hk', writePos_one k (by omega)⟩
  have hmem' : ∀ k, k < ch.strip.TotalCount * (ch.ledColors * 24) →
      ({ chan := 0, offset := 4 * (k / 32), bit := 31 - k % 32 } : WriteRec)
        ∈ (renderPWM [ch] frequency w).2.pwmDataWrites := by
    intro k hk
    rw [hW, List.mem_map]
    exact ⟨k, List.mem_range.mpr hk, writePos_one k (by omega)⟩
  unfold EncodesExactly
  rw [hmul]
  refine ⟨by rw [hW]; simp, ?_, ?_, ?_, ?_⟩
  · rw [hW]
    apply List.Nodup.map_on _ (List.nodup_range _)
    intro x hx y hy e
    have hx' := List.mem_range.mp hx
    have hy' := List.mem_range.mp hy
    rw [writePos_one x (by omega), writePos_one y (by omega)] at e
    simp only [WriteRec.mk.injEq, true_and] at e
    omega
  · intro r hr
    obtain ⟨k, _, rfl⟩ := hmem r hr
    simp only
    omega
  · intro k
    constructor
    · rintro ⟨r, hr, e⟩
      obtain ⟨k', hk', rfl⟩ := hmem r hr
      simp only at e
      omega
    · intro hk
      exact ⟨_, hmem' (32 * k) (by omega), by simp only; omega⟩
  · intro a j hj hfree
    rw [renderPWM_single_mem ch frequency w hact, hapc]
    apply putBits_frame_bit 1 0 a j hj ch.stream _ (startCursor_WF _ _)
    intro k hk ⟨e1, e2⟩
    rw [stream_length] at hk
    have hp : ({ mem := w.pwmDataMem, writes := w.pwmDataWrites, bitPos := 31, wordPos := 0 }
      : Cursor).phase = 0 := rfl
    rw [hp] at e1 e2
    simp only at e1 e2
    rw [writePos_one k (by omega)] at e1 e2
    exact hfree _ (hmem' k hk) ⟨e1, e2⟩

/-- Witness for C3: one pixel, three colours: 72 bit positions in the words 0, 1, 2. -/
theorem C3_encoded_positions_witness :
    EncodesExactly (rgbChannel (constStrip 1 0x00FF0000)) 800000 oneChannelWorld :=
  C3_encoded_positions (rgbChannel (constStrip 1 0x00FF0000)) 800000 oneChannelWorld
    rfl rfl rfl (by decide)

/-- C3, as stated, fails: with 477218589 pixels of three colours the render makes
`2^35 + 40` stores, the byte offset `wordPos*4` wraps around at `2^32`, and the word
with index `2^30` of the claimed range `0 .. ceil(n*d*24/32)-1` is never addressed. -/
theorem C3_counterexample :
    ¬ EncodesExactly (rgbChannel (constStrip 477218589 0)) 800000 oneChannelWorld := by
  intro h
  have h4 := h.2.2.2.1 (2 ^ 30)
  have hlt : 2 ^ 30 < ((rgbChannel (constStrip 477218589 0)).strip.TotalCount
      * (rgbChannel (constStrip 477218589 0)).ledColors * 8 * 3 + 31) / 32 := by decide
  obtain ⟨r, hr, e⟩ := h4.mpr hlt
  rw [renderPWM_single_writes _ _ _ rfl, List.mem_append] at hr
  rcases hr with hr | hr
  · exact absurd hr (List.not_mem_nil r)
  · rw [List.mem_map] at hr
    obtain ⟨k, _, rfl⟩ := hr
    have : (writePos oneChannelWorld.activePWMChannels 0 0 0 k).offset < 2 ^ 32 := by
      unfold writePos
      exact Nat.mod_lt _ (by norm_num)
    omega

/-! ## Round trip -/

theorem ledColors_cases (ch : ledChannel) : ch.ledColors = 3 ∨ ch.ledColors = 4 := by
  unfold ledChannel.ledColors
  split
  · exact Or.inr rfl
  · exact Or.inl rfl

theorem streamBit_group (ch : ledChannel) (g r : Nat) (hr : r < 3) :
    ch.streamBit (3 * g + r)
      = symbolBit (colorSymbol
          ((ch.color (ch.strip.UInt32 (g / (ch.ledColors * 8)) % 2 ^ 32)).getD
            ((g / 8) % ch.ledColors) 0) (7 - g % 8)) (2 - r) := by
  unfold ledChannel.streamBit colorBit
  rcases ledColors_cases ch with h | h <;> rw [h] <;> simp only
  · have e1 : (3 * g + r) / (3 * 24) = g / (3 * 8) := by omega
    have e2 : (3 * g + r) % (3 * 24) / 24 = g / 8 % 3 := by omega
    have e3 : (3 * g + r) % (3 * 24) % 24 / 3 = g % 8 := by omega
    have e4 : (3 * g + r) % (3 * 24) % 24 % 3 = r := by omega
    rw [e1, e2, e3, e4]
  · have e1 : (3 * g + r) / (4 * 24) = g / (4 * 8) := by omega
    have e2 : (3 * g + r) % (4 * 24) / 24 = g / 8 % 4 := by omega
    have e3 : (3 * g + r) % (4 * 24) % 24 / 3 = g % 8 := by omega
    have e4 : (3 * g + r) % (4 * 24) % 24 % 3 = r := by omega
    rw [e1, e2, e3, e4]

theorem symbol_bits (curColor k : Nat) :
    (symbolBit (colorSymbol curColor k) 2).toNat * 4
      + (symbolBit (colorSymbol curColor k) 1).toNat * 2
      + (symbolBit (colorSymbol curColor k) 0).toNat = colorSymbol curColor k := by
  unfold colorSymbol
  split <;> decide

theorem colorSymbol_legal (curColor k : Nat) :
    colorSymbol curColor k = symbolHigh ∨ colorSymbol curColor k = symbolLow := by
  unfold colorSymbol
  split
  · exact Or.inl rfl
  · exact Or.inr rfl

set_option maxRecDepth 100000 in
theorem encode_decode : ∀ c, c < 256 →
    (List.range 8).foldl (fun acc t => pushBit acc (decodeSymbol (colorSymbol c (7 - t))))
      (some 0) = some c := by
  decide

theorem color_getD_lt (ch : ledChannel) (curLED j : Nat) :
    (ch.color curLED).getD j 0 < 256 := by
  unfold ledChannel.color
  rcases j with _ | _ | _ | _ | j
  · exact scaledColor_lt _ _ _
  · exact scaledColor_lt _ _ _
  · exact scaledColor_lt _ _ _
  · exact scaledColor_lt _ _ _
  · simp
theorem stream_getD (ch : ledChannel) (k : Nat)
    (hk : k < ch.strip.TotalCount * (ch.ledColors * 24)) :
    ch.stream.getD k false = ch.streamBit k := by
  unfold ledChannel.stream
  rw [List.getD_eq_getElem _ _ (by simpa using hk)]
  simp

/-- Without wrap-around of the byte offset, the buffer read back as a bit stream is
the stream of stored bits. -/
theorem readBit_render (ch : ledChannel) (f : Nat) (w : World) (hact : ch.active = true)
    (hapc : w.activePWMChannels = 1)
    (hN : ch.strip.TotalCount * (ch.ledColors * 24) ≤ 2 ^ 35) (k : Nat)
    (hk : k < ch.strip.TotalCount * (ch.ledColors * 24)) :
    readBit (renderPWM [ch] f w).2.pwmDataMem k = ch.streamBit k := by
  rw [renderPWM_single_mem ch f w hact, hapc]
  have hp : ({ mem := w.pwmDataMem, writes := w.pwmDataWrites, bitPos := 31, wordPos := 0 }
      : Cursor).phase = 0 := rfl
  have key := putBits_content 1 0 ch.stream
    { mem := w.pwmDataMem, writes := w.pwmDataWrites, bitPos := 31, wordPos := 0 }
    (startCursor_WF _ _)
    (by
      intro k1 k2 h1 h2 e1 e2
      rw [stream_length] at h1 h2
      rw [hp] at e1 e2
      simp only at e1 e2
      rw [writePos_one k1 (by omega), writePos_one k2 (by omega)] at e1 e2
      simp only at e1 e2
      omega)
    k (by rw [stream_length]; exact hk)
  rw [hp] at key
  simp only at key
  rw [writePos_one k (by omega), stream_getD ch k hk] at key
  exact key

theorem readGroup_render (ch : ledChannel) (f : Nat) (w : World) (hact : ch.active = true)
    (hapc : w.activePWMChannels = 1)
    (hN : ch.strip.TotalCount * (ch.ledColors * 24) ≤ 2 ^ 35) (g : Nat)
    (hg : g < ch.strip.TotalCount * ch.ledColors * 8) :
    readGroup (renderPWM [ch] f w).2.pwmDataMem g
      = colorSymbol
          ((ch.color (ch.strip.UInt32 (g / (ch.ledColors * 8)) % 2 ^ 32)).getD
            ((g / 8) % ch.ledColors) 0) (7 - g % 8) := by
  have hmul : ch.strip.TotalCount * (ch.ledColors * 24)
      = 3 * (ch.strip.TotalCount * ch.ledColors * 8) := by ring
  unfold readGroup
  rw [readBit_render ch f w hact hapc hN (3 * g) (by omega),
    readBit_render ch f w hact hapc hN (3 * g + 1) (by omega),
    readBit_render ch f w hact hapc hN (3 * g + 2) (by omega)]
  have h0 := streamBit_group ch g 0 (by norm_num)
  have h1 := streamBit_group ch g 1 (by norm_num)
  have h2 := streamBit_group ch g 2 (by norm_num)
  rw [Nat.add_zero] at h0
  rw [h0, h1, h2]
  exact symbol_bits _ _

/-- The round trip for the slice `[ch]` with one active PWM channel, read from word 0
in steps of one word, while the byte offset does not wrap (`n*d*8*3 ≤ 2^35`). -/
theorem round_trip_single (ch : ledChannel) (frequency : Nat) (w : World)
    (hact : ch.active = true) (hapc : w.activePWMChannels = 1)
    (hN : ch.strip.TotalCount * ch.ledColors * 8 * 3 ≤ 2 ^ 35) :
    RoundTrips ch frequency w := by
  have hmul : ch.strip.TotalCount * ch.ledColors * 8 * 3
      = ch.strip.TotalCount * (ch.ledColors * 24) := by ring
  rw [hmul] at hN
  constructor
  · intro g hg
    rw [readGroup_render ch frequency w hact hapc hN g hg]
    exact colorSymbol_legal _ _
  · intro i j hi hj
    unfold decodeByte
    have hgroups : ∀ t ∈ List.range 8, ∀ acc : Option Nat,
        pushBit acc (decodeSymbol
          (readGroup (renderPWM [ch] frequency w).2.pwmDataMem (8 * (i * ch.ledColors + j) + t)))
        = pushBit acc (decodeSymbol (colorSymbol
            ((ch.color (ch.strip.UInt32 i % 2 ^ 32)).getD j 0) (7 - t))) := by
      intro t ht acc
      have ht' : t < 8 := List.mem_range.mp ht
      have hlt : 8 * (i * ch.ledColors + j) + t < ch.strip.TotalCount * ch.ledColors * 8 := by
        have : (i + 1) * ch.ledColors ≤ ch.strip.TotalCount * ch.ledColors :=
          Nat.mul_le_mul_right _ hi
        rw [Nat.add_mul, Nat.one_mul] at this
        omega
      rw [readGroup_render ch frequency w hact hapc hN _ hlt]
      have e1 : (8 * (i * ch.ledColors + j) + t) / (ch.ledColors * 8) = i := by
        rcases ledColors_cases ch with h | h <;> rw [h] at hj ⊢ <;> omega
      have e2 : (8 * (i * ch.ledColors + j) + t) / 8 % ch.ledColors = j := by
        rcases ledColors_cases ch with h | h <;> rw [h] at hj ⊢ <;> omega
      have e3 : (8 * (i * ch.ledColors + j) + t) % 8 = t := by omega
      rw [e1, e2, e3]
    rw [List.foldl_ext _ _ _ (fun acc t ht => hgroups t ht acc)]
    exact encode_decode _ (color_getD_lt _ _ _)

/-- An instance: one pixel `0x00FF0000` on a three-colour channel. -/
theorem round_trip_single_example :
    RoundTrips (rgbChannel (constStrip 1 0x00FF0000)) 800000 oneChannelWorld :=
  round_trip_single (rgbChannel (constStrip 1 0x00FF0000)) 800000 oneChannelWorld
    rfl rfl (by decide)

/-- The value of a bit after a run is the value of the last store to it. -/
theorem putBits_last_store (apc chan : Nat) (a j : Nat) (hj : j < 32) :
    ∀ (bits : List Bool) (s : Cursor) (m : Nat), s.WF → m < bits.length →
    (writePos apc chan s.wordPos s.phase m).offset = a →
    (writePos apc chan s.wordPos s.phase m).bit = j →
    (∀ k, m < k → k < bits.length →
      ¬ ((writePos apc chan s.wordPos s.phase k).offset = a ∧
         (writePos apc chan s.wordPos s.phase k).bit = j)) →
    ((bits.foldl (putBit apc chan) s).mem a).testBit j = bits.getD m false := by
  intro bits
  induction bits with
  | nil => intro s m _ hm; simp at hm
  | cons b bs ih =>
    intro s m h hm ha hb hlater
    have h' := putBit_WF apc chan s b h
    have hsh : ∀ k, writePos apc chan (putBit apc chan s b).wordPos
        (putBit apc chan s b).phase k = writePos apc chan s.wordPos s.phase (k + 1) := by
      intro k
      rw [putBit_phase apc chan s b h, putBit_wordPos apc chan s b h, writePos_shift]
    rw [List.foldl_cons]
    cases m with
    | zero =>
      rw [putBits_frame_bit apc chan a j hj bs _ h']
      · rw [putBit_testBit apc chan s b h a j hj]
        have hw := putBit_writes apc chan s b h
        rw [putBit_writes_raw] at hw
        have := List.append_cancel_left hw
        simp only [List.cons.injEq, and_true] at this
        rw [← this] at ha hb
        simp only at ha hb
        simp [← ha, ← hb]
      · intro k hk
        rw [hsh]
        exact hlater (k + 1) (by omega) (by simpa using hk)
    | succ m =>
      have := ih (putBit apc chan s b) m h' (by simpa using hm)
        (by rw [hsh]; exact ha) (by rw [hsh]; exact hb)
        (by
          intro k hk1 hk2
          rw [hsh]
          exact hlater (k + 1) (by omega) (by simpa using hk2))
      rw [this]
      simp

/-- If the stores of a single channel wrap around the buffer so that store number
`2^35` is the last one to bit 31 of word 0, and that store writes 0, the first 3-bit
group of the buffer is no legal symbol. -/
theorem wrap_breaks_round_trip (ch : ledChannel) (frequency : Nat) (w : World)
    (hact : ch.active = true) (hapc : w.activePWMChannels = 1)
    (hlen : ch.strip.TotalCount * (ch.ledColors * 24) = 34359738408)
    (hsb : ch.streamBit 34359738368 = false) :
    ¬ RoundTrips ch frequency w := by
  intro h
  have hpos : 0 < ch.strip.TotalCount * ch.ledColors * 8 := by
    have : ch.strip.TotalCount * (ch.ledColors * 24)
        = 3 * (ch.strip.TotalCount * ch.ledColors * 8) := by ring
    omega
  have hg := h.1 0 hpos
  have hp : ∀ (m : Nat → Nat) (ws : List WriteRec),
      ({ mem := m, writes := ws, bitPos := 31, wordPos := 0 } : Cursor).phase = 0 :=
    fun _ _ => rfl
  have hw0 : ∀ (m : Nat → Nat) (ws : List WriteRec),
      ({ mem := m, writes := ws, bitPos := 31, wordPos := 0 } : Cursor).wordPos = 0 :=
    fun _ _ => rfl
  have hbit : ((renderPWM [ch] frequency w).2.pwmDataMem 0).testBit 31 = false := by
    rw [renderPWM_single_mem ch frequency w hact, hapc]
    have key := putBits_last_store 1 0 0 31 (by norm_num) ch.stream
      { mem := w.pwmDataMem, writes := w.pwmDataWrites, bitPos := 31, wordPos := 0 }
      34359738368 (startCursor_WF _ _)
      (by rw [stream_length, hlen]; norm_num)
      (by rw [hp, hw0]; unfold writePos wordStep; norm_num)
      (by rw [hp, hw0]; unfold writePos wordStep; norm_num)
      (by
        intro k hk1 hk2
        rw [stream_length, hlen] at hk2
        rw [hp, hw0]
        unfold writePos wordStep
        simp only [if_neg (show ¬ (1 = 2) by decide)]
        omega)
    rw [stream_getD _ _ (by rw [hlen]; norm_num), hsb] at key
    exact key
  generalize (renderPWM [ch] frequency w).2.pwmDataMem = M at hg hbit
  have hz : readBit M 0 = (M 0).testBit 31 := by
    unfold readBit
    simp only [Nat.zero_div, Nat.mul_zero, Nat.zero_mod, Nat.sub_zero]
  rw [← hz] at hbit
  have h1 : ∀ b : Bool, b.toNat ≤ 1 := by intro b; cases b <;> decide
  have h2 := h1 (readBit M (3 * 0 + 1))
  have h3 := h1 (readBit M (3 * 0 + 2))
  unfold readGroup at hg
  simp only [Nat.mul_zero] at hg h2 h3
  rw [hbit] at hg
  simp only [symbolHigh, symbolLow, Bool.toNat_false] at hg
  omega

/-! ## Round trip: a single active channel anywhere in the rendered slice -/

theorem readBitAt_zero_one (mem : Nat → Nat) (k : Nat) : readBitAt mem 0 1 k = readBit mem k := by
  unfold readBitAt readBit
  rw [Nat.zero_add, Nat.one_mul]

theorem readGroupAt_zero_one (mem : Nat → Nat) (g : Nat) :
    readGroupAt mem 0 1 g = readGroup mem g := by
  unfold readGroupAt readGroup
  simp only [readBitAt_zero_one]

theorem decodeByteAt_zero_one (mem : Nat → Nat) (b : Nat) :
    decodeByteAt mem 0 1 b = decodeByte mem b := by
  unfold decodeByteAt decodeByte
  simp only [readGroupAt_zero_one]

/-- Read from word 0 in steps of one word, the statement for the slice `[ch]` is
`RoundTrips`. -/
theorem RoundTripsAt_single (ch : ledChannel) (f : Nat) (w : World) :
    RoundTripsAt [ch] ch f w 0 1 ↔ RoundTrips ch f w := by
  unfold RoundTripsAt RoundTrips
  simp only [readGroupAt_zero_one, decodeByteAt_zero_one]

/-- Inactive channels leave the render state as it is. -/
theorem renderLoop_inactive (f apc : Nat) : ∀ (l : List ledChannel) (n : Nat) (st : RenderState),
    (∀ c ∈ l, c.active = false) →
    (l.enumFrom n).foldl (fun st p => renderChannel f apc st p.1 p.2) st = st := by
  intro l
  induction l with
  | nil => intro n st _; rfl
  | cons c cs ih =>
    intro n st h
    rw [List.enumFrom_cons, List.foldl_cons]
    simp only
    rw [renderChannel_inactive f apc st n c (h c (List.mem_cons_self _ _))]
    exact ih (n + 1) st (fun x hx => h x (List.mem_cons_of_mem _ hx))

/-- The loops of `renderPWM` over a slice with a single active channel run the body
for that channel, with its index in the slice, from the initial state. -/
theorem renderPWMLoop_sole (channels : List ledChannel) (idx : Nat) (ch : ledChannel)
    (f apc : Nat) (mem : Nat → Nat) (ws : List WriteRec) (h : SoleActiveAt channels idx ch) :
    renderPWMLoop channels f apc mem ws
      = renderChannel f apc { mem := mem, writes := ws, bitPos := 31, protocolTime := 0 }
          idx ch := by
  obtain ⟨hsplit, hlt, _, hpre, hpost⟩ := h
  have hlen : (channels.take idx).length = idx := by
    rw [List.length_take]
    omega
  unfold renderPWMLoop
  rw [hsplit, List.enum, List.enumFrom_append, List.foldl_append,
    renderLoop_inactive f apc _ 0 _ hpre, List.enumFrom_cons, List.foldl_cons,
    renderLoop_inactive f apc _ _ _ hpost, hlen, Nat.zero_add]

theorem renderPWM_sole_mem (channels : List ledChannel) (idx : Nat) (ch : ledChannel)
    (f : Nat) (w : World) (h : SoleActiveAt channels idx ch) :
    (renderPWM channels f w).2.pwmDataMem
      = (ch.stream.foldl (putBit w.activePWMChannels idx)
          { mem := w.pwmDataMem, writes := w.pwmDataWrites, bitPos := 31, wordPos := idx % 2 ^ 32 }).mem := by
  show (renderPWMLoop channels f w.activePWMChannels w.pwmDataMem w.pwmDataWrites).mem = _
  rw [renderPWMLoop_sole channels idx ch f _ _ _ h, renderChannel_active _ _ _ _ _ h.2.2.1]
  rfl

theorem wordStep_cases (apc : Nat) : wordStep apc = 1 ∨ wordStep apc = 2 := by
  unfold wordStep
  split
  · exact Or.inr rfl
  · exact Or.inl rfl

/-- Store number `k` of a channel that starts at word `idx`, while the byte offset
stays a `uint32`. -/
theorem writePos_at (apc idx k : Nat) (hk : idx + wordStep apc * (k / 32) < 2 ^ 30) :
    writePos apc idx (idx % 2 ^ 32) 0 k
      = { chan := idx, offset := 4 * (idx + wordStep apc * (k / 32)), bit := 31 - k % 32 } := by
  unfold writePos
  simp only [Nat.add_zero]
  congr 1
  rcases wordStep_cases apc with h | h <;> rw [h] at hk ⊢ <;> omega

/-- Without wrap-around of the byte offset, the words of the channel read back as a
bit stream are the stream of stored bits. -/
theorem readBitAt_render (channels : List ledChannel) (idx : Nat) (ch : ledChannel) (f : Nat)
    (w : World) (h : SoleActiveAt channels idx ch)
    (hN : idx + wordStep w.activePWMChannels
        * ((ch.strip.TotalCount * (ch.ledColors * 24) - 1) / 32) < 2 ^ 30) (k : Nat)
    (hk : k < ch.strip.TotalCount * (ch.ledColors * 24)) :
    readBitAt (renderPWM channels f w).2.pwmDataMem idx (wordStep w.activePWMChannels) k
      = ch.streamBit k := by
  have hbound : ∀ k, k < ch.strip.TotalCount * (ch.ledColors * 24) →
      idx + wordStep w.activePWMChannels * (k / 32) < 2 ^ 30 := by
    intro k hk
    have h1 : k / 32 ≤ (ch.strip.TotalCount * (ch.ledColors * 24) - 1) / 32 :=
      Nat.div_le_div_right (by omega)
    have h2 := Nat.mul_le_mul_left (wordStep w.activePWMChannels) h1
    omega
  rw [renderPWM_sole_mem channels idx ch f w h]
  generalize hc : ({ mem := w.pwmDataMem, writes := w.pwmDataWrites, bitPos := 31, wordPos := idx % 2 ^ 32 } : Cursor) = c0
  have hp : c0.phase = 0 := by rw [← hc]; rfl
  have hw0 : c0.wordPos = idx % 2 ^ 32 := by rw [← hc]
  have hwf : c0.WF := by
    rw [← hc]
    exact ⟨by norm_num, by norm_num, Nat.mod_lt _ (by norm_num)⟩
  have key := putBits_content w.activePWMChannels idx ch.stream c0 hwf
    (by
      intro k1 k2 h1 h2 e1 e2
      rw [stream_length] at h1 h2
      rw [hp, hw0] at e1 e2
      rw [writePos_at _ _ k1 (hbound k1 h1), writePos_at _ _ k2 (hbound k2 h2)] at e1 e2
      simp only at e1 e2
      rcases wordStep_cases w.activePWMChannels with hs | hs <;> rw [hs] at e1 <;> omega)
    k (by rw [stream_length]; exact hk)
  rw [hp, hw0, writePos_at _ _ k (hbound k hk), stream_getD ch k hk] at key
  exact key

theorem readGroupAt_render (channels : List ledChannel) (idx : Nat) (ch : ledChannel) (f : Nat)
    (w : World) (h : SoleActiveAt channels idx ch)
    (hN : idx + wordStep w.activePWMChannels
        * ((ch.strip.TotalCount * (ch.ledColors * 24) - 1) / 32) < 2 ^ 30) (g : Nat)
    (hg : g < ch.strip.TotalCount * ch.ledColors * 8) :
    readGroupAt (renderPWM channels f w).2.pwmDataMem idx (wordStep w.activePWMChannels) g
      = colorSymbol
          ((ch.color (ch.strip.UInt32 (g / (ch.ledColors * 8)) % 2 ^ 32)).getD
            ((g / 8) % ch.ledColors) 0) (7 - g % 8) := by
  have hmul : ch.strip.TotalCount * (ch.ledColors * 24)
      = 3 * (ch.strip.TotalCount * ch.ledColors * 8) := by ring
  unfold readGroupAt
  rw [readBitAt_render channels idx ch f w h hN (3 * g) (by omega),
    readBitAt_render channels idx ch f w h hN (3 * g + 1) (by omega),
    readBitAt_render channels idx ch f w h hN (3 * g + 2) (by omega)]
  have h0 := streamBit_group ch g 0 (by norm_num)
  have h1 := streamBit_group ch g 1 (by norm_num)
  have h2 := streamBit_group ch g 2 (by norm_num)
  rw [Nat.add_zero] at h0
  rw [h0, h1, h2]
  exact symbol_bits _ _

/-- C2, amended: for a single active channel, at index `k` of the slice handed to
`renderPWM`, with any pixel values whose stores do not wrap the byte offset
(`k + s * ((n*d*8*3 - 1) / 32) < 2^30`, with `s = 2` when `activePWMChannels` is 2 and
`s = 1` otherwise; for `k = 0`, `s = 1` this is `n*d*8*3 ≤ 2^35`), reading the
words `k`, `k + s`, `k + 2s`, ... of the data buffer written by `renderPWM` as a bit
stream (bit 31 of each word first), cutting it into 3-bit groups and decoding `0b110`
as 1 and `0b100` as 0 yields, for every pixel in index order and every emitted colour
byte, exactly the 8 bits of the brightness-scaled, gamma-mapped byte, most significant
bit first; every 3-bit group of the encoded range is one of the two legal symbols. -/
theorem C2_round_trip (channels : List ledChannel) (idx : Nat) (ch : ledChannel)
    (frequency : Nat) (w : World) (hsole : SoleActiveAt channels idx ch)
    (hN : idx + wordStep w.activePWMChannels
        * ((ch.strip.TotalCount * ch.ledColors * 8 * 3 - 1) / 32) < 2 ^ 30) :
    RoundTripsAt channels ch frequency w idx (wordStep w.activePWMChannels) := by
  have hmul : ch.strip.TotalCount * ch.ledColors * 8 * 3
      = ch.strip.TotalCount * (ch.ledColors * 24) := by ring
  rw [hmul] at hN
  constructor
  · intro g hg
    rw [readGroupAt_render channels idx ch frequency w hsole hN g hg]
    exact colorSymbol_legal _ _
  · intro i j hi hj
    unfold decodeByteAt
    have hgroups : ∀ t ∈ List.range 8, ∀ acc : Option Nat,
        pushBit acc (decodeSymbol
          (readGroupAt (renderPWM channels frequency w).2.pwmDataMem idx
            (wordStep w.activePWMChannels) (8 * (i * ch.ledColors + j) + t)))
        = pushBit acc (decodeSymbol (colorSymbol
            ((ch.color (ch.strip.UInt32 i % 2 ^ 32)).getD j 0) (7 - t))) := by
      intro t ht acc
      have ht' : t < 8 := List.mem_range.mp ht
      have hlt : 8 * (i * ch.ledColors + j) + t < ch.strip.TotalCount * ch.ledColors * 8 := by
        have : (i + 1) * ch.ledColors ≤ ch.strip.TotalCount * ch.ledColors :=
          Nat.mul_le_mul_right _ hi
        rw [Nat.add_mul, Nat.one_mul] at this
        omega
      rw [readGroupAt_render channels idx ch frequency w hsole hN _ hlt]
      have e1 : (8 * (i * ch.ledColors + j) + t) / (ch.ledColors * 8) = i := by
        rcases ledColors_cases ch with h | h <;> rw [h] at hj ⊢ <;> omega
      have e2 : (8 * (i * ch.ledColors + j) + t) / 8 % ch.ledColors = j := by
        rcases ledColors_cases ch with h | h <;> rw [h] at hj ⊢ <;> omega
      have e3 : (8 * (i * ch.ledColors + j) + t) % 8 = t := by omega
      rw [e1, e2, e3]
    rw [List.foldl_ext _ _ _ (fun acc t ht => hgroups t ht acc)]
    exact encode_decode _ (color_getD_lt _ _ _)

/-- Witness for C2: one pixel `0x00FF0000` on a three-colour channel at index 1 of the
slice of `Render(-1)`, channel 0 unused, one active PWM channel: the stream is read
from word 1 on. -/
theorem C2_round_trip_witness :
    RoundTripsAt [ledChannel.zero, rgbChannel (constStrip 1 0x00FF0000)]
      (rgbChannel (constStrip 1 0x00FF0000)) 800000 oneChannelWorld 1 1 :=
  C2_round_trip [ledChannel.zero, rgbChannel (constStrip 1 0x00FF0000)] 1
    (rgbChannel (constStrip 1 0x00FF0000)) 800000 oneChannelWorld
    ⟨rfl, by decide, rfl, fun c hc => (by rw [List.mem_singleton.mp hc]; rfl),
      fun c hc => (by cases hc)⟩
    (by decide)

theorem sole_second : SoleActiveAt (secondStripChannels 1) 1 (rgbChannel (constStrip 1 0)) :=
  ⟨rfl, by decide, rfl, fun c hc => (by rw [List.mem_singleton.mp hc]; rfl),
    fun c hc => (by cases hc)⟩

theorem sole_first : SoleActiveAt (oneStripChannels 1) 0 (rgbChannel (constStrip 1 0)) :=
  ⟨rfl, by decide, rfl, fun c hc => (by cases hc),
    fun c hc => (by rw [List.mem_singleton.mp hc]; rfl)⟩

set_option maxRecDepth 100000 in
/-- Words that the render of a single active channel does not store to: word 0 when the
channel has index 1, word 1 when `activePWMChannels` is 2. -/
theorem unwritten_groups :
    readGroupAt (renderPWM (secondStripChannels 1) 800000 (secondOnlyPkg.world 0)).2.pwmDataMem
      0 1 0 = 0
    ∧ readGroupAt (renderPWM (oneStripChannels 1) 800000 (alwaysTwoPkg.world 0)).2.pwmDataMem
      0 1 11 = 0 := by
  decide!

/-- C2, as stated (the buffer read from word 0 on, word after word), fails in three
ways. With 477218589 pixels of three colours the stores wrap around the buffer, store
number `2^35` (the last bit of a symbol, always 0) overwrites bit 31 of word 0, and
the first 3-bit group of the buffer is no legal symbol. When the only active channel
is channel 1 and all channels are rendered (`Render(-1)`, one active PWM channel), the
stream starts at word 1 and word 0 is not stored to: group 0 reads 0. With
`PWMAlwaysUseTwoChannel` set, `Initialize` leaves `activePWMChannels = 2` for a single
active channel, whose stream goes to the words 0, 2, 4: group 11, in word 1, reads
0. -/
theorem C2_counterexample :
    ¬ RoundTripsAt [rgbChannel (constStrip 477218589 0)] (rgbChannel (constStrip 477218589 0))
        800000 oneChannelWorld 0 1
    ∧ (secondOnlyPkg.activePWMChannels = 1
      ∧ SoleActiveAt (secondStripChannels 1) 1 (rgbChannel (constStrip 1 0))
      ∧ ¬ RoundTripsAt (secondStripChannels 1) (rgbChannel (constStrip 1 0)) 800000
          (secondOnlyPkg.world 0) 0 1)
    ∧ (alwaysTwoPkg.activePWMChannels = 2
      ∧ SoleActiveAt (oneStripChannels 1) 0 (rgbChannel (constStrip 1 0))
      ∧ ¬ RoundTripsAt (oneStripChannels 1) (rgbChannel (constStrip 1 0)) 800000
          (alwaysTwoPkg.world 0) 0 1) := by
  refine ⟨?_, ⟨rfl, sole_second, ?_⟩, ⟨rfl, sole_first, ?_⟩⟩
  · intro h
    exact wrap_breaks_round_trip (rgbChannel (constStrip 477218589 0)) 800000 oneChannelWorld
      rfl rfl (by decide) (by decide) ((RoundTripsAt_single _ _ _).mp h)
  · intro h
    have hg := h.1 0 (by decide)
    rw [unwritten_groups.1] at hg
    revert hg
    decide
  · intro h
    have hg := h.1 11 (by decide)
    rw [unwritten_groups.2] at hg
    revert hg
    decide


/-! ## Two channels -/

theorem renderPWMLoop_pair (c0 c1 : ledChannel) (f apc : Nat) (mem : Nat → Nat)
    (ws : List WriteRec) :
    renderPWMLoop [c0, c1] f apc mem ws
      = renderChannel f apc
          (renderChannel f apc { mem := mem, writes := ws, bitPos := 31, protocolTime := 0 } 0 c0)
          1 c1 :=
  rfl

theorem writePos_two_parity (chan ph k : Nat) (hc : chan < 2) :
    (writePos 2 chan (chan % 2 ^ 32) ph k).chan = chan ∧
    (writePos 2 chan (chan % 2 ^ 32) ph k).offset % 4 = 0 ∧
    ((writePos 2 chan (chan % 2 ^ 32) ph k).offset / 4) % 2 = chan := by
  unfold writePos wordStep
  simp only [if_true]
  refine ⟨trivial, ?_, ?_⟩ <;> omega

/-- C6: when both channels are active (two active PWM channels) and all channels are
rendered, every buffer word stored to for channel 0 has an even index and every
buffer word stored to for channel 1 has an odd index; no word is stored to by both
channels. -/
theorem C6_two_channel_interleaving (c : Config) (w : World) (c0 c1 : ledChannel)
    (hd : c.driverType = DriverPWM) (hch : c.channels = [c0, c1])
    (h0 : c0.active = true) (h1 : c1.active = true)
    (hapc : w.activePWMChannels = 2) (hlog : w.pwmDataWrites = []) :
    ∃ c' w', c.Render (-1) w = .ok (c', w') ∧
      (∀ r ∈ w'.pwmDataWrites, r.offset % 4 = 0 ∧
        ((r.chan = 0 ∧ (r.offset / 4) % 2 = 0) ∨ (r.chan = 1 ∧ (r.offset / 4) % 2 = 1))) ∧
      (∀ r1 ∈ w'.pwmDataWrites, ∀ r2 ∈ w'.pwmDataWrites,
        r1.chan ≠ r2.chan → r1.offset / 4 ≠ r2.offset / 4) := by
  obtain ⟨c', w', hr, _, hws, _⟩ := Render_spec c (-1) w hd (by norm_num) (by norm_num)
  have hrend : c.rendered (-1) = [c0, c1] := by
    unfold Config.rendered
    rw [if_pos rfl, hch]
  rw [hrend, hapc, hlog, renderPWMLoop_pair] at hws
  obtain ⟨a1, a2, a3, _⟩ := renderChannel_run c.frequency 2
    { mem := w.pwmDataMem, writes := [], bitPos := 31, protocolTime := 0 } 0 c0 h0
    (by norm_num) (by norm_num)
  obtain ⟨b1, _, _, _⟩ := renderChannel_run c.frequency 2
    (renderChannel c.frequency 2
      { mem := w.pwmDataMem, writes := [], bitPos := 31, protocolTime := 0 } 0 c0) 1 c1 h1 a2 a3
  rw [b1, a1, List.nil_append] at hws
  have key : ∀ r ∈ w'.pwmDataWrites, r.offset % 4 = 0 ∧
      ((r.chan = 0 ∧ (r.offset / 4) % 2 = 0) ∨ (r.chan = 1 ∧ (r.offset / 4) % 2 = 1)) := by
    intro r hr
    rw [hws, List.mem_append, List.mem_map, List.mem_map] at hr
    rcases hr with ⟨k, _, rfl⟩ | ⟨k, _, rfl⟩
    · obtain ⟨p1, p2, p3⟩ := writePos_two_parity 0 (31 - (31 : Int)).toNat k (by norm_num)
      exact ⟨p2, Or.inl ⟨p1, p3⟩⟩
    · obtain ⟨p1, p2, p3⟩ := writePos_two_parity 1
        (31 - (renderChannel c.frequency 2
          { mem := w.pwmDataMem, writes := [], bitPos := 31, protocolTime := 0 }
          0 c0).bitPos).toNat k (by norm_num)
      exact ⟨p2, Or.inr ⟨p1, p3⟩⟩
  refine ⟨c', w', hr, key, ?_⟩
  intro r1 hr1 r2 hr2 hne
  have k1 := (key r1 hr1).2
  have k2 := (key r2 hr2).2
  omega
/-- Witness for C6: two active one-pixel channels, all channels rendered. -/
theorem C6_two_channel_interleaving_witness :
    ∃ c' w', twoStripConfig.Render (-1) twoChannelWorld = .ok (c', w') ∧
      (∀ r ∈ w'.pwmDataWrites, r.offset % 4 = 0 ∧
        ((r.chan = 0 ∧ (r.offset / 4) % 2 = 0) ∨ (r.chan = 1 ∧ (r.offset / 4) % 2 = 1))) ∧
      (∀ r1 ∈ w'.pwmDataWrites, ∀ r2 ∈ w'.pwmDataWrites,
        r1.chan ≠ r2.chan → r1.offset / 4 ≠ r2.offset / 4) :=
  C6_two_channel_interleaving twoStripConfig twoChannelWorld
    (rgbChannel (constStrip 1 0x00FF0000)) (rgbChannel (constStrip 1 0x000000FF))
    rfl rfl rfl rfl rfl rfl

set_option maxRecDepth 100000 in
theorem render_one_loop_facts :
    (renderPWMLoop (twoStripConfig.rendered 1) twoStripConfig.frequency
        twoChannelWorld.activePWMChannels twoChannelWorld.pwmDataMem
        twoChannelWorld.pwmDataWrites).writes.map (fun r => (r.chan, r.offset / 4))
      = List.replicate 32 (0, 0) ++ List.replicate 32 (0, 2) ++ List.replicate 8 (0, 4)
    ∧ (renderPWMLoop (twoStripConfig.rendered 1) twoStripConfig.frequency
        twoChannelWorld.activePWMChannels twoChannelWorld.pwmDataMem
        twoChannelWorld.pwmDataWrites).writes.head? = some { chan := 0, offset := 0, bit := 31 }
    ∧ (renderPWMLoop (twoStripConfig.rendered 1) twoStripConfig.frequency
        twoChannelWorld.activePWMChannels twoChannelWorld.pwmDataMem
        twoChannelWorld.pwmDataWrites).mem 0 = 0x92492492
    ∧ (renderPWMLoop (twoStripConfig.rendered 1) twoStripConfig.frequency
        twoChannelWorld.activePWMChannels twoChannelWorld.pwmDataMem
        twoChannelWorld.pwmDataWrites).mem 4 = 0 := by
  decide!

/-- C7, the code at the failing input: with both channels active, `Render(1)` hands
`renderPWM` the one-element slice `channels[1:2]`, in which channel 1 has index 0; its
72 stores start at bit 31 of word 0 and go to the even words 0, 2, 4 only, so that
word 0 (which carries channel 0's stream) is overwritten and word 1 is left as it
was. -/
theorem C7_render_one_writes_even_words :
    ∃ c' w', twoStripConfig.Render 1 twoChannelWorld = .ok (c', w') ∧
      w'.pwmDataWrites.map (fun r => (r.chan, r.offset / 4))
        = List.replicate 32 (0, 0) ++ List.replicate 32 (0, 2) ++ List.replicate 8 (0, 4) ∧
      w'.pwmDataWrites.head? = some { chan := 0, offset := 0, bit := 31 } ∧
      w'.pwmDataMem 0 = 0x92492492 ∧
      w'.pwmDataMem 4 = 0 := by
  obtain ⟨c', w', hr, hmem, hws, _⟩ :=
    Render_spec twoStripConfig 1 twoChannelWorld rfl (by norm_num) (by norm_num)
  obtain ⟨f1, f2, f3, f4⟩ := render_one_loop_facts
  refine ⟨c', w', hr, ?_, ?_, ?_, ?_⟩
  · rw [hws]; exact f1
  · rw [hws]; exact f2
  · rw [hmem]; exact f3
  · rw [hmem]; exact f4

set_option maxRecDepth 100000 in
/-- C8, the code at the failing input: `bitPos` is set to 31 once, before the loop
over the channels. After channel 0 has stored the 72 bits of one three-colour pixel
the cursor stands at bit 23, and the first store for channel 1 goes to bit 23 of
word 1; after a channel 0 without pixels it goes to bit 31. Word 1 therefore depends
on the length of channel 0's strip. -/
theorem C8_second_channel_starts_mid_word :
    (writesOf 1 (renderPWM
        [rgbChannel (constStrip 1 0x00FF0000), rgbChannel (constStrip 1 0x000000FF)]
        800000 twoChannelWorld).2).head? = some { chan := 1, offset := 4, bit := 23 } ∧
    (writesOf 1 (renderPWM
        [rgbChannel (constStrip 0 0), rgbChannel (constStrip 1 0x000000FF)]
        800000 twoChannelWorld).2).head? = some { chan := 1, offset := 4, bit := 31 } ∧
    (renderPWM [rgbChannel (constStrip 1 0x00FF0000), rgbChannel (constStrip 1 0x000000FF)]
        800000 twoChannelWorld).2.pwmDataMem 4 = 0x00924924 ∧
    (renderPWM [rgbChannel (constStrip 0 0), rgbChannel (constStrip 1 0x000000FF)]
        800000 twoChannelWorld).2.pwmDataMem 4 = 0x92492492 := by
  decide!

/-! ## Protocol time -/

theorem roundSig24_of_dvd (m e : Nat) (hlt : m < 2 ^ (24 + e)) (hdvd : 2 ^ e ∣ m) :
    roundSig24 m = m := by
  unfold roundSig24
  split
  · rfl
  · rename_i h
    have hm0 : m ≠ 0 := by
      intro h0
      rw [h0] at h
      norm_num at h
    have hlog : Nat.log2 m < 24 + e := (Nat.log2_lt hm0).mpr hlt
    have hsh : Nat.log2 m - 23 ≤ e := by omega
    have hd : 2 ^ (Nat.log2 m - 23) ∣ m := Nat.dvd_trans (Nat.pow_dvd_pow 2 hsh) hdvd
    have hpos : 0 < 2 ^ (Nat.log2 m - 23) := Nat.two_pow_pos _
    have hr : m % 2 ^ (Nat.log2 m - 23) = 0 := Nat.mod_eq_zero_of_dvd hd
    simp only [hr]
    rw [if_neg (by omega)]
    exact Nat.div_mul_cancel hd

theorem channelProtocolTime_eq (frequency : Nat) (ch : ledChannel)
    (hb : ch.strip.TotalCount * ch.ledColors * 8 < 2 ^ 24) :
    channelProtocolTime frequency ch
      = (if frequency = 800000 then 10 else 20) * ch.strip.TotalCount * ch.ledColors := by
  unfold channelProtocolTime bitTimeQ
  have e0 : (if frequency = 800000 then 10 else 20) * ch.strip.TotalCount * ch.ledColors
      = (if frequency = 800000 then 10 else 20) * (ch.strip.TotalCount * ch.ledColors) := by
    rw [Nat.mul_assoc]
  rw [e0]
  generalize ch.strip.TotalCount * ch.ledColors = nd at hb ⊢
  have h1 : roundSig24 (nd * 8) = nd * 8 := roundSig24_of_dvd (nd * 8) 0 (by omega) (by simp)
  rw [h1]
  split
  · have h2 : roundSig24 (nd * 8 * 5) = nd * 8 * 5 :=
      roundSig24_of_dvd _ 3 (by omega) ⟨nd * 5, by ring⟩
    rw [h2]
    omega
  · have h2 : roundSig24 (nd * 8 * 10) = nd * 8 * 10 :=
      roundSig24_of_dvd _ 4 (by omega) ⟨nd * 5, by ring⟩
    rw [h2]
    omega

theorem renderChannel_protocolTime (f apc : Nat) (st : RenderState) (chan : Nat)
    (ch : ledChannel) :
    (renderChannel f apc st chan ch).protocolTime
      = if ch.active then max st.protocolTime (channelProtocolTime f ch)
        else st.protocolTime := by
  cases h : ch.active with
  | false => rw [renderChannel_inactive f apc st chan ch h]; simp
  | true =>
    rw [renderChannel_active f apc st chan ch h]
    simp only [if_true]
    rw [Nat.max_def]
    split <;> split <;> omega

theorem loop_protocolTime (f apc : Nat) : ∀ (l : List ledChannel) (k : Nat) (st : RenderState),
    ((l.enumFrom k).foldl (fun st p => renderChannel f apc st p.1 p.2) st).protocolTime
      = ((l.filter (fun ch => ch.active)).map (channelProtocolTime f)).foldl max
          st.protocolTime := by
  intro l
  induction l with
  | nil => intro k st; rfl
  | cons a l ih =>
    intro k st
    rw [List.enumFrom_cons, List.foldl_cons, ih, renderChannel_protocolTime]
    cases h : a.active with
    | false => simp [List.filter_cons, h]
    | true => simp [List.filter_cons, h]

theorem foldl_max_le (B : Nat) : ∀ (l : List Nat) (a : Nat), a ≤ B → (∀ x ∈ l, x ≤ B) →
    l.foldl max a ≤ B := by
  intro l
  induction l with
  | nil => intro a ha _; exact ha
  | cons x l ih =>
    intro a ha hl
    rw [List.foldl_cons]
    apply ih
    · exact Nat.max_le.mpr ⟨ha, hl x (List.mem_cons_self _ _)⟩
    · intro y hy
      exact hl y (List.mem_cons_of_mem _ hy)

theorem renderPWMResult_eq (channels : List ledChannel) (frequency apc : Nat)
    (mem : Nat → Nat) (ws : List WriteRec)
    (hb : ∀ ch ∈ channels, ch.active = true →
      ch.strip.TotalCount * ch.ledColors * 8 < 2 ^ 24) :
    renderPWMResult (renderPWMLoop channels frequency apc mem ws)
      = ((300 + maxActive (fun ch => (if frequency = 800000 then 10 else 20)
          * ch.strip.TotalCount * ch.ledColors) channels : Nat) : Int) := by
  unfold renderPWMResult renderPWMLoop List.enum
  rw [loop_protocolTime]
  have hmap : (channels.filter (fun ch => ch.active)).map (channelProtocolTime frequency)
      = (channels.filter (fun ch => ch.active)).map (fun ch =>
          (if frequency = 800000 then 10 else 20) * ch.strip.TotalCount * ch.ledColors) := by
    apply List.map_congr_left
    intro ch hch
    rw [List.mem_filter] at hch
    exact channelProtocolTime_eq frequency ch (hb ch hch.1 (by simpa using hch.2))
  rw [hmap]
  have hle : maxActive (fun ch => (if frequency = 800000 then 10 else 20)
      * ch.strip.TotalCount * ch.ledColors) channels ≤ 2 ^ 26 := by
    unfold maxActive
    apply foldl_max_le _ _ _ (by norm_num)
    intro x hx
    rw [List.mem_map] at hx
    obtain ⟨ch, hch, rfl⟩ := hx
    rw [List.mem_filter] at hch
    have := hb ch hch.1 (by simpa using hch.2)
    rw [Nat.mul_assoc]
    generalize ch.strip.TotalCount * ch.ledColors = nd at this ⊢
    split <;> omega
  unfold maxActive at hle ⊢
  simp only
  rw [Nat.mod_eq_of_lt (by omega), Nat.add_comm]
  rfl

/-- C9: for every set of rendered channels whose active channels have
`n*d*8 < 2^24`, `renderPWM` returns 300 plus the maximum over the active rendered
channels of `10*n*d` at 800000 Hz (`n*d*8` bit periods of 1.25 microseconds) and of
`20*n*d` at 400000 Hz, as at every other frequency (bit periods of 2.5 microseconds),
and `Render` stores this value as the wait time. -/
theorem C9_protocol_time (channels : List ledChannel) (frequency : Nat) (w : World)
    (hb : ∀ ch ∈ channels, ch.active = true →
      ch.strip.TotalCount * ch.ledColors * 8 < 2 ^ 24) :
    (renderPWM channels frequency w).1
      = ((300 + maxActive (fun ch => (if frequency = 800000 then 10 else 20)
          * ch.strip.TotalCount * ch.ledColors) channels : Nat) : Int)
    ∧ ∀ (c : Config) (stripIndex : Int) (w0 : World),
        c.driverType = DriverPWM → -1 ≤ stripIndex → stripIndex < 2 →
        c.frequency = frequency → c.rendered stripIndex = channels →
        ∃ c' w', c.Render stripIndex w0 = .ok (c', w') ∧
          c'.renderWaitTime
            = ((300 + maxActive (fun ch => (if frequency = 800000 then 10 else 20)
                * ch.strip.TotalCount * ch.ledColors) channels : Nat) : Int) := by
  constructor
  · exact renderPWMResult_eq channels frequency _ _ _ hb
  · intro c stripIndex w0 hd h1 h2 hfr hsel
    obtain ⟨c', w', hr, _, _, ht⟩ := Render_spec c stripIndex w0 hd h1 h2
    refine ⟨c', w', hr, ?_⟩
    rw [ht, hsel, hfr]
    exact renderPWMResult_eq channels frequency _ _ _ hb

/-- Witness for C9: one channel with 1 LED, 3 colours, at 800 kHz: the result is
330. -/
theorem C9_protocol_time_witness :
    (renderPWM [rgbChannel (constStrip 1 0x00FF0000)] 800000 oneChannelWorld).1 = 330 :=
  (C9_protocol_time [rgbChannel (constStrip 1 0x00FF0000)] 800000 oneChannelWorld
    (by decide)).1.trans (by decide)

/-! ## Idle channels -/

theorem channelProtocolTime_zero (f : Nat) (ch : ledChannel) (h : ch.strip.TotalCount = 0) :
    channelProtocolTime f ch = 0 := by
  rw [channelProtocolTime_eq f ch (by rw [h]; norm_num), h]
  simp

theorem renderChannel_idle (f apc : Nat) (st : RenderState) (chan : Nat) (ch : ledChannel)
    (hidle : ch.active = false ∨ ch.strip.TotalCount = 0) :
    renderChannel f apc st chan ch = st := by
  cases h : ch.active with
  | false => exact renderChannel_inactive f apc st chan ch h
  | true =>
    have hz : ch.strip.TotalCount = 0 := by
      rcases hidle with h' | h'
      · rw [h] at h'; exact absurd h' (by decide)
      · exact h'
    have hs : ch.stream = [] := by
      unfold ledChannel.stream
      rw [hz, Nat.zero_mul]
      rfl
    rw [renderChannel_active f apc st chan ch h, hs, channelProtocolTime_zero f ch hz]
    simp only [List.foldl_nil, RenderState.cursor]
    rw [if_neg (by omega)]

/-- C10: a channel that is inactive, or active with zero pixels, contributes nothing
to a render: the body of the channel loop leaves the data buffer, the write log, the
bit cursor and the protocol time as they were; a single-index render of an inactive
channel leaves the whole data buffer unchanged, stores nothing and yields the wait
time 300. -/
theorem C10_idle_channel (f apc : Nat) (st : RenderState) (chan : Nat) (ch : ledChannel)
    (c : Config) (c0 c1 : ledChannel) (stripIndex : Int) (w : World)
    (hidle : ch.active = false ∨ ch.strip.TotalCount = 0)
    (hd : c.driverType = DriverPWM) (hch : c.channels = [c0, c1])
    (hsel : (stripIndex = 0 ∧ c0.active = false) ∨ (stripIndex = 1 ∧ c1.active = false)) :
    renderChannel f apc st chan ch = st
    ∧ ∃ c' w', c.Render stripIndex w = .ok (c', w') ∧
        w'.pwmDataMem = w.pwmDataMem ∧ w'.pwmDataWrites = w.pwmDataWrites ∧
        c'.renderWaitTime = 300 := by
  refine ⟨renderChannel_idle f apc st chan ch hidle, ?_⟩
  have hidx : -1 ≤ stripIndex ∧ stripIndex < 2 := by
    rcases hsel with ⟨h, _⟩ | ⟨h, _⟩ <;> rw [h] <;> norm_num
  obtain ⟨c', w', hr, hmem, hws, ht⟩ := Render_spec c stripIndex w hd hidx.1 hidx.2
  have hsingle : ∃ x : ledChannel, c.rendered stripIndex = [x] ∧ x.active = false := by
    rcases hsel with ⟨h, ha⟩ | ⟨h, ha⟩
    · exact ⟨c0, by rw [h]; unfold Config.rendered; rw [hch]; rfl, ha⟩
    · exact ⟨c1, by rw [h]; unfold Config.rendered; rw [hch]; rfl, ha⟩
  obtain ⟨x, hx, hxa⟩ := hsingle
  rw [hx, renderPWMLoop_single, renderChannel_inactive _ _ _ _ _ hxa] at hmem hws ht
  exact ⟨c', w', hr, hmem, hws, by rw [ht]; rfl⟩

/-- Witness for C10: a zero-pixel channel in the channel loop, and `Render(1)` on a
configuration whose channel 1 is inactive. -/
theorem C10_idle_channel_witness :
    renderChannel 800000 2
        { mem := fun _ => 0, writes := [], bitPos := 17, protocolTime := 40 } 1
        (rgbChannel (constStrip 0 0))
      = { mem := fun _ => 0, writes := [], bitPos := 17, protocolTime := 40 }
    ∧ ∃ c' w', ({ twoStripConfig with
          channels := [rgbChannel (constStrip 1 0x00FF0000), ledChannel.zero] } : Config).Render
            1 twoChannelWorld = .ok (c', w') ∧
        w'.pwmDataMem = twoChannelWorld.pwmDataMem ∧
        w'.pwmDataWrites = twoChannelWorld.pwmDataWrites ∧
        c'.renderWaitTime = 300 :=
  C10_idle_channel 800000 2 { mem := fun _ => 0, writes := [], bitPos := 17, protocolTime := 40 }
    1 (rgbChannel (constStrip 0 0))
    { twoStripConfig with channels := [rgbChannel (constStrip 1 0x00FF0000), ledChannel.zero] }
    (rgbChannel (constStrip 1 0x00FF0000)) ledChannel.zero 1 twoChannelWorld
    (Or.inr rfl) rfl rfl (Or.inr ⟨rfl, rfl⟩)
/-- Witness for C5: `SetStrip` with `WS2811StripGRB` on pin 18, strip index 0; the
pixel `0x11223344` is emitted as `0x33, 0x22, 0x44`. -/
theorem C5_named_strip_types_witness :
    ((brightConfig.SetStrip newPinOk (constStrip 1 0x11223344) 18 WS2811StripGRB
        ((0 : Nat) : Int) false).1.channels.getD 0 ledChannel.zero).emitted 0x11223344
      = [0x33, 0x22, 0x44] :=
  (C5_named_strip_types newPinOk brightConfig (constStrip 1 0x11223344) 18 0 false
    WS2811StripGRB [.G, .R, .B] 0x11223344 5 (by decide) rfl rfl rfl (by decide) rfl
    rfl rfl).2.2.trans (by decide)

/-! ## Setters and index validation -/

/-- C13: on a Config that is not initialized, `SetFrequency(f)` returns nil and
stores `f` if and only if `f` is 400000 or 800000; for every other `f` it returns
`ErrWrongFrequency` and leaves the Config unchanged. The method is a function of the
receiver and its argument alone: it reads and writes no package state, hence no
register. -/
theorem C13_set_frequency (c : Config) (f : Nat) (hinit : c.initialized = false) :
    ((c.SetFrequency f).2 = none ↔ (f = 400000 ∨ f = 800000))
    ∧ ((f = 400000 ∨ f = 800000) → (c.SetFrequency f).1 = { c with frequency := f })
    ∧ (¬ (f = 400000 ∨ f = 800000) →
        (c.SetFrequency f).2 = some .ErrWrongFrequency ∧ (c.SetFrequency f).1 = c) := by
  unfold Config.SetFrequency
  simp only [hinit, Bool.false_eq_true, if_false]
  by_cases h4 : f = 400000
  · subst h4; simp
  · by_cases h8 : f = 800000
    · subst h8; simp
    · simp [h4, h8]

/-- Witness for C13: the frequency 500000 on a fresh Config. -/
theorem C13_set_frequency_witness :
    (brightConfig.SetFrequency 500000).2 = some .ErrWrongFrequency
    ∧ (brightConfig.SetFrequency 500000).1 = brightConfig :=
  (C13_set_frequency brightConfig 500000 rfl).2.2 (by decide)

/-- C14: on a PWM Config only the strip indices 0 and 1 are valid: `SetBrightness`
and (on a Config that is not initialized) `SetStrip` return `ErrConfigWrongIndex` for
every `stripIndex < 0` and every `stripIndex >= 2` and leave the Config as it was;
`Render` returns `ErrConfigWrongIndex` for every `stripIndex < -1` and every
`stripIndex >= 2`, before anything is stored (the error result carries no new
state). -/
theorem C14_index_validation (NewPin : Nat → Option Nat × Option Error) (c : Config)
    (brightness : Nat) (ledStrip : LEDs) (pin stripType : Nat) (invertSignal : Bool)
    (stripIndex : Int) (w : World) (hd : c.driverType = DriverPWM) :
    ((stripIndex < 0 ∨ stripIndex ≥ 2) →
      c.SetBrightness brightness stripIndex = (c, some .ErrConfigWrongIndex)
      ∧ (c.initialized = false →
          c.SetStrip NewPin ledStrip pin stripType stripIndex invertSignal
            = (c, some .ErrConfigWrongIndex)))
    ∧ ((stripIndex < -1 ∨ stripIndex ≥ 2) →
      c.Render stripIndex w = .error .ErrConfigWrongIndex) := by
  constructor
  · intro h
    constructor
    · unfold Config.SetBrightness
      by_cases h0 : stripIndex < 0
      · simp [h0]
      · have h2 : stripIndex ≥ 2 := by omega
        simp [h0, hd, h2]
    · intro hinit
      unfold Config.SetStrip
      by_cases h0 : stripIndex < 0
      · simp [hinit, h0]
      · have h2 : stripIndex ≥ 2 := by omega
        simp [hinit, h0, hd, h2]
  · intro h
    unfold Config.Render
    by_cases h0 : stripIndex < -1
    · simp [h0]
    · have h2 : stripIndex ≥ 2 := by omega
      simp [h0, hd, h2]

/-- Witness for C14: the strip index 2 on a fresh PWM Config. -/
theorem C14_index_validation_witness :
    brightConfig.SetBrightness 7 2 = (brightConfig, some .ErrConfigWrongIndex)
    ∧ brightConfig.Render 2 twoChannelWorld = .error .ErrConfigWrongIndex :=
  ⟨((C14_index_validation newPinOk brightConfig 7 (constStrip 1 0) 18 WS2811StripGRB false 2
      twoChannelWorld rfl).1 (Or.inr (by decide))).1,
   (C14_index_validation newPinOk brightConfig 7 (constStrip 1 0) 18 WS2811StripGRB false 2
      twoChannelWorld rfl).2 (Or.inr (by decide))⟩

/-- C15: once a Config is initialized, `SetDMAChannel`, `SetFrequency` and
`SetStrip` return `ErrConfigInitialized` for every argument and leave the Config as
it was; `SetBrightness` with a valid strip index still returns nil and changes
nothing but the brightness of that channel. -/
theorem C15_initialized_setters (NewPin : Nat → Option Nat × Option Error) (c : Config)
    (channel frequency brightness : Nat) (ledStrip : LEDs) (pin stripType : Nat)
    (invertSignal : Bool) (stripIndex : Int) (idx : Nat)
    (hinit : c.initialized = true) (hd : c.driverType = DriverPWM)
    (hlen : c.channels.length = 2) (hidx : idx < 2) :
    c.SetDMAChannel channel = (c, some .ErrConfigInitialized)
    ∧ c.SetFrequency frequency = (c, some .ErrConfigInitialized)
    ∧ c.SetStrip NewPin ledStrip pin stripType stripIndex invertSignal
        = (c, some .ErrConfigInitialized)
    ∧ (c.SetBrightness brightness idx).2 = none
    ∧ (c.SetBrightness brightness idx).1
        = c.withChannels (c.channels.set idx
            ((c.channels.getD idx ledChannel.zero).withBrightness brightness))
    ∧ ((c.SetBrightness brightness idx).1.channels.getD idx ledChannel.zero)
        = (c.channels.getD idx ledChannel.zero).withBrightness brightness
    ∧ (∀ k, k ≠ idx →
        (c.SetBrightness brightness idx).1.channels.getD k ledChannel.zero
          = c.channels.getD k ledChannel.zero) := by
  have hI1 : ¬ ((idx : Int) < 0) := by omega
  have hI2 : ¬ ((idx : Int) ≥ 2) := by omega
  have hsb : c.SetBrightness brightness idx
      = (c.withChannels (c.channels.set idx
          ((c.channels.getD idx ledChannel.zero).withBrightness brightness)), none) := by
    unfold Config.SetBrightness Config.withChannels ledChannel.withBrightness
    simp only [hI1, hI2, hd, if_true, if_false, Int.toNat_ofNat]
  refine ⟨?_, ?_, ?_, ?_, ?_, ?_, ?_⟩
  · unfold Config.SetDMAChannel; simp [hinit]
  · unfold Config.SetFrequency; simp [hinit]
  · unfold Config.SetStrip; simp [hinit]
  · rw [hsb]
  · rw [hsb]
  · rw [hsb]
    simp only [Config.withChannels]
    rw [List.getD_eq_getElem _ _ (by simp [hlen, hidx])]
    simp
  · intro k hk
    rw [hsb]
    simp only [Config.withChannels]
    by_cases hk2 : k < c.channels.length
    · rw [List.getD_eq_getElem _ _ (by simpa using hk2), List.getD_eq_getElem _ _ hk2]
      simp [List.getElem_set, Ne.symm hk]
    · rw [List.getD_eq_default _ _ (by simpa using hk2), List.getD_eq_default _ _ (by omega)]

/-- Witness for C15: the initialized two-strip Config, brightness 7 for strip 1. -/
theorem C15_initialized_setters_witness :
    twoStripConfig.SetDMAChannel 5 = (twoStripConfig, some .ErrConfigInitialized)
    ∧ (twoStripConfig.SetBrightness 7 ((1 : Nat) : Int)).2 = none :=
  ⟨(C15_initialized_setters newPinOk twoStripConfig 5 400000 7 (constStrip 1 0) 18
      WS2811StripGRB false 0 1 rfl rfl rfl (by decide)).1,
   (C15_initialized_setters newPinOk twoStripConfig 5 400000 7 (constStrip 1 0) 18
      WS2811StripGRB false 0 1 rfl rfl rfl (by decide)).2.2.2.1⟩

/-! ## Clock controller -/

theorem setWord_setWord (m : Nat → Nat) (a v1 v2 : Nat) :
    setWord (setWord m a v1) a v2 = setWord m a v2 := by
  funext x
  unfold setWord
  split <;> rfl

theorem setWord_same (m : Nat → Nat) (a v : Nat) : setWord m a v a = v := by
  unfold setWord
  simp

theorem kill_settled :
    (registerValueClkPasswd ||| registerValueClkCtlKill) &&& (0xffffffff ^^^ registerValueClkCtlBusy)
      = 0x5a000020 := by decide

theorem stopClockPWM_usable (p : Pkg) (h : usable p.clockRegisterMem = true) :
    stopClockPWM p
      = ({ p with
            clockRegs := setWord p.clockRegs 0xa0 0x5a000020
            regLog := p.regLog ++ [{ window := .clock, offset := 0xa0, value := 0x5a000020 }] },
          none) := by
  unfold stopClockPWM
  cases hm : p.clockRegisterMem with
  | none => rw [hm] at h; simp [usable] at h
  | some m =>
    rw [hm] at h
    simp only [Pkg.writeClock, waitClockBusy, hm, h, if_true, Bool.false_eq_true, if_false,
      setWord_same, setWord_setWord, kill_settled]
    rfl

theorem stopClockPWM_unusable (p : Pkg) (h : usable p.clockRegisterMem = false)
    (hs : p.clockRegisterMem ≠ none) :
    stopClockPWM p = ({ p with panicked := true }, none) := by
  unfold stopClockPWM
  cases hm : p.clockRegisterMem with
  | none => exact absurd hm hs
  | some m =>
    rw [hm] at h
    simp only [Pkg.writeClock, waitClockBusy, hm, h, Bool.false_eq_true, if_false]

theorem stopClockPWM_fields (p : Pkg) :
    (stopClockPWM p).2 = none
    ∧ (stopClockPWM p).1.clockRegisterMem = p.clockRegisterMem
    ∧ (stopClockPWM p).1.curHardware = p.curHardware
    ∧ (stopClockPWM p).1.clockRegs
        = if usable p.clockRegisterMem then setWord p.clockRegs 0xa0 0x5a000020 else p.clockRegs := by
  cases hu : usable p.clockRegisterMem with
  | true => rw [stopClockPWM_usable p hu]; simp
  | false =>
    cases hm : p.clockRegisterMem with
    | none => simp [stopClockPWM, hm]
    | some m =>
      have hs : p.clockRegisterMem ≠ none := by rw [hm]; simp
      rw [stopClockPWM_unusable p hu hs]
      simp [hm]

/-- C18: `stopClockPWM` called twice in a row, and `initializeClock` called twice in
a row, return nil on the second call, and the second call leaves the clock window
variable and the clock registers as the first call left them; with a nil window
variable `stopClockPWM` does nothing. -/
theorem C18_clock_idempotence (env1 env2 : Env) (p : Pkg) :
    (stopClockPWM (stopClockPWM p).1).2 = none
    ∧ (stopClockPWM (stopClockPWM p).1).1.clockRegs = (stopClockPWM p).1.clockRegs
    ∧ (stopClockPWM (stopClockPWM p).1).1.clockRegisterMem = (stopClockPWM p).1.clockRegisterMem
    ∧ (initializeClock env2 (initializeClock env1 p).1).2 = none
    ∧ (initializeClock env2 (initializeClock env1 p).1).1 = (initializeClock env1 p).1
    ∧ (p.clockRegisterMem = none → stopClockPWM p = (p, none)) := by
  refine ⟨?_, ?_, ?_, ?_, ?_, ?_⟩
  · exact (stopClockPWM_fields _).1
  · rw [(stopClockPWM_fields (stopClockPWM p).1).2.2.2, (stopClockPWM_fields p).2.1,
      (stopClockPWM_fields p).2.2.2]
    split
    · simp only [setWord_setWord]
    · rfl
  · exact (stopClockPWM_fields _).2.1
  · unfold initializeClock
    cases hm : p.clockRegisterMem with
    | some m => simp [hm]
    | none => cases env1.mapClock <;> simp
  · unfold initializeClock
    cases hm : p.clockRegisterMem with
    | some m => simp [hm]
    | none => cases env1.mapClock <;> simp
  · intro h
    unfold stopClockPWM
    rw [h]

theorem C18_clock_idempotence_witness :
    Pkg.start.clockRegisterMem = none ∧ stopClockPWM Pkg.start = (Pkg.start, none) :=
  ⟨rfl, (C18_clock_idempotence Env.ok Env.ok Pkg.start).2.2.2.2.2 rfl⟩

theorem divi_eq (x : Nat) : registerValueClkDivDivi x = (x % 4096) <<< 12 := by
  unfold registerValueClkDivDivi
  have h : x &&& 0xfff = x % 4096 := Nat.and_pow_two_sub_one_eq_mod x 12
  rw [h]
  have h2 : x % 4096 < 4096 := Nat.mod_lt _ (by decide)
  rw [Nat.shiftLeft_eq]
  apply Nat.mod_eq_of_lt
  omega

/-- C19 (amended): with a mapped clock window, a known board, a target frequency
`f > 0` with `3 * f < 2^32` and a 32-bit oscillator frequency `osc`, `clockSetupPwm`
returns nil and writes, in this order, `0x5a000020` to the control register (0xa0),
`0x5a000000 ||| (((osc / (3*f)) % 4096) <<< 12)` to the divisor register (0xa4),
`0x5a000001` and last `0x5a000011` to the control register; the divisor register
holds the written value afterwards. -/
theorem C19_clock_setup (p : Pkg) (hw : Hardware) (f : Nat)
    (hu : usable p.clockRegisterMem = true) (hh : p.curHardware = some hw)
    (hf : 0 < f) (hb : 3 * f < 2 ^ 32) (ho : hw.OscFreq < 2 ^ 32) :
    (clockSetupPwm f p).2 = none
    ∧ (clockSetupPwm f p).1.regLog = p.regLog ++ clockSetupStores hw.OscFreq f
    ∧ (clockSetupPwm f p).1.panicked = p.panicked
    ∧ (clockSetupPwm f p).1.clockRegs 0xa4
        = 0x5a000000 ||| (((hw.OscFreq / (3 * f)) % 4096) <<< 12) := by
  have hd : (pwmBitsPerOutputBit * f) % 2 ^ 32 = 3 * f := by
    show (3 * f) % 2 ^ 32 = 3 * f
    exact Nat.mod_eq_of_lt hb
  have hd0 : ¬ (3 * f = 0) := by omega
  unfold clockSetupPwm
  rw [stopClockPWM_usable p hu]
  simp only [hh, hd, hd0, if_false, Nat.mod_eq_of_lt ho, divi_eq]
  simp only [Pkg.writeClock, waitClockBusy, hu, if_true]
  refine ⟨trivial, ?_, trivial, ?_⟩
  · simp [clockSetupStores, registerOffsetClkPwmDiv, registerOffsetClkPwmCtl, registerValueClkPasswd,
      registerValueClkCtlSrcOsc, registerValueClkCtlEnab]
  · simp [setWord, registerOffsetClkPwmDiv, registerOffsetClkPwmCtl, registerValueClkPasswd]

theorem C19_clock_setup_witness :
    (clockSetupPwm 800000 (clockReady 19200000)).1.regLog
        = (clockReady 19200000).regLog ++ clockSetupStores 19200000 800000
    ∧ (19200000 / (3 * 800000)) % 4096 = 8
    ∧ (clockSetupPwm 800000 (clockReady 19200000)).1.clockRegs 0xa4 = 0x5a000000 ||| (8 <<< 12) :=
  ⟨(C19_clock_setup (clockReady 19200000) { OscFreq := 19200000, RPiType := 3 } 800000
      rfl rfl (by decide) (by decide) (by decide)).2.1,
    by decide,
    (C19_clock_setup (clockReady 19200000) { OscFreq := 19200000, RPiType := 3 } 800000
      rfl rfl (by decide) (by decide) (by decide)).2.2.2⟩

/-- C19 (counterexample): for `osc = 19200000` and `f = 1431655766` the product
`3 * f` wraps to 2 in 32 bits, and the divisor register receives the field
`9600000 % 4096 = 3072` instead of `osc / (3*f) = 0`. -/
theorem C19_counterexample :
    (clockSetupPwm 1431655766 (clockReady 19200000)).1.regLog
        ≠ (clockReady 19200000).regLog ++ clockSetupStores 19200000 1431655766
    ∧ (clockSetupPwm 1431655766 (clockReady 19200000)).1.clockRegs 0xa4
        = 0x5a000000 ||| (3072 <<< 12)
    ∧ (19200000 / (3 * 1431655766)) % 4096 = 0 := by
  refine ⟨?_, ?_, ?_⟩ <;> decide

/-! ## Initialisation of the PWM pipeline -/

theorem andThen_of_none (r : Pkg × Option Error) (k : Pkg → Pkg × Option Error)
    (h : r.2 = none) : andThen r k = k r.1 := by
  unfold andThen
  rw [h]

theorem andThen_of_some (r : Pkg × Option Error) (k : Pkg → Pkg × Option Error) (e : Error)
    (h : r.2 = some e) : andThen r k = (r.1, some e) := by
  unfold andThen
  rw [h]

theorem andThen_none (r : Pkg × Option Error) (k : Pkg → Pkg × Option Error)
    (h : (andThen r k).2 = none) : r.2 = none ∧ andThen r k = k r.1 := by
  cases hr : r.2 with
  | none => exact ⟨rfl, andThen_of_none r k hr⟩
  | some e => rw [andThen_of_some r k e hr] at h; cases h

theorem writeClock_vars (p : Pkg) (off val : Nat) : (p.writeClock off val).vars = p.vars := by
  unfold Pkg.writeClock
  split <;> rfl

theorem writeDMA_vars (p : Pkg) (off val : Nat) : (p.writeDMA off val).vars = p.vars := by
  unfold Pkg.writeDMA
  split <;> rfl

theorem writePWM_vars (p : Pkg) (off val : Nat) : (p.writePWM off val).vars = p.vars := by
  unfold Pkg.writePWM
  split <;> rfl

theorem writeCB_vars (p : Pkg) (off val : Nat) : (p.writeCB off val).vars = p.vars := by
  unfold Pkg.writeCB
  split <;> rfl

theorem waitClockBusy_vars (want : Bool) (p : Pkg) : (waitClockBusy want p).vars = p.vars := by
  unfold waitClockBusy
  split <;> rfl

theorem crashIf_vars (b : Bool) (p : Pkg) : (p.crashIf b).vars = p.vars := by
  cases b <;> rfl

theorem stopClockPWM_vars (p : Pkg) : (stopClockPWM p).1.vars = p.vars := by
  unfold stopClockPWM
  split
  · rfl
  · simp only [waitClockBusy_vars, writeClock_vars]

theorem clockSetupPwm_none (f : Nat) (p : Pkg) : (clockSetupPwm f p).2 = none := by
  unfold clockSetupPwm
  simp only
  split
  · rfl
  · split <;> rfl

theorem clockSetupPwm_vars (f : Nat) (p : Pkg) : (clockSetupPwm f p).1.vars = p.vars := by
  unfold clockSetupPwm
  simp only
  split
  · exact stopClockPWM_vars p
  · split
    · exact stopClockPWM_vars p
    · simp only [waitClockBusy_vars, writeClock_vars, stopClockPWM_vars]

theorem configurePWM_vars (channels : List ledChannel) (p : Pkg) :
    (configurePWM channels p).vars = p.vars := by
  unfold configurePWM
  simp only
  split <;> split <;> simp only [writePWM_vars, crashIf_vars]

theorem vars_core {p q : Pkg} (h : q.vars = p.vars) : q.core = p.core := by
  simp only [Pkg.vars, Prod.mk.injEq] at h
  obtain ⟨h1, h2, h3, _, h5, _, _, _, _, h10, h11⟩ := h
  simp only [Pkg.core, Pkg.flags, h1, h2, h3, h5, h10, h11]

theorem core_flags {p q : Pkg} (h : q.core = p.core) : q.flags = p.flags := by
  simp only [Pkg.core, Prod.mk.injEq] at h
  exact h.1

theorem flags_pwmActive {p q : Pkg} (h : q.flags = p.flags) : q.pwmActive = p.pwmActive := by
  simp only [Pkg.flags, Prod.mk.injEq] at h
  exact h.1

theorem core_fields {p q : Pkg} (h : q.core = p.core) :
    q.pwmActive = p.pwmActive ∧ q.PWMAlwaysUseTwoChannel = p.PWMAlwaysUseTwoChannel
    ∧ q.activePWMChannels = p.activePWMChannels
    ∧ q.dmaCBRegisterMemPWM = p.dmaCBRegisterMemPWM := by
  simp only [Pkg.core, Pkg.flags, Prod.mk.injEq] at h
  exact ⟨h.1.1, h.1.2.2.2, h.2.1, h.2.2⟩

theorem initializeClock_core (env : Env) (p : Pkg) : (initializeClock env p).1.core = p.core := by
  unfold initializeClock
  split
  · rfl
  · split <;> rfl

theorem mapPWMWindow_core (env : Env) (p : Pkg) : (mapPWMWindow env p).1.core = p.core := by
  unfold mapPWMWindow
  split
  · rfl
  · split <;> rfl

theorem unmapOldData_core (env : Env) (p : Pkg) : (unmapOldData env p).1.core = p.core := by
  unfold unmapOldData
  split
  · rfl
  · split <;> rfl

theorem writeDmaCBPWM_vars (t : Nat) (p : Pkg) : (writeDmaCBPWM t p).vars = p.vars := by
  unfold writeDmaCBPWM
  simp only [writeCB_vars, crashIf_vars]

theorem vars_usableCB {p q : Pkg} (h : q.vars = p.vars) :
    usable q.dmaCBRegisterMemPWM = usable p.dmaCBRegisterMemPWM := by
  simp only [Pkg.vars, Prod.mk.injEq] at h
  rw [h.2.2.2.2.2.2.2.2.2.1]

theorem writeCB_dmaCB (p : Pkg) (off val : Nat) (h : usable p.dmaCBRegisterMemPWM = true) :
    (p.writeCB off val).dmaCB = setWord p.dmaCB off val := by
  unfold Pkg.writeCB
  rw [if_pos h]

theorem crashIf_dmaCB (b : Bool) (p : Pkg) : (p.crashIf b).dmaCB = p.dmaCB := by
  cases b <;> rfl

theorem crashIf_pwmDataMem (b : Bool) (p : Pkg) : (p.crashIf b).pwmDataMem = p.pwmDataMem := by
  cases b <;> rfl

theorem crashIf_pwmRegisterMem (b : Bool) (p : Pkg) :
    (p.crashIf b).pwmRegisterMem = p.pwmRegisterMem := by
  cases b <;> rfl

theorem vars_pwmDataMem {p q : Pkg} (h : q.vars = p.vars) : q.pwmDataMem = p.pwmDataMem := by
  simp only [Pkg.vars, Prod.mk.injEq] at h
  exact h.2.2.2.2.2.2.2.2.1

theorem vars_pwmRegisterMem {p q : Pkg} (h : q.vars = p.vars) :
    q.pwmRegisterMem = p.pwmRegisterMem := by
  simp only [Pkg.vars, Prod.mk.injEq] at h
  exact h.2.2.2.2.2.2.2.1

theorem vars_flags {p q : Pkg} (h : q.vars = p.vars) : q.flags = p.flags :=
  core_flags (vars_core h)

theorem vars_apc {p q : Pkg} (h : q.vars = p.vars) :
    q.activePWMChannels = p.activePWMChannels :=
  (core_fields (vars_core h)).2.2.1

theorem writeCB_usableCB (p : Pkg) (off val : Nat) :
    usable (p.writeCB off val).dmaCBRegisterMemPWM = usable p.dmaCBRegisterMemPWM :=
  vars_usableCB (writeCB_vars p off val)

theorem crashIf_usableCB (b : Bool) (p : Pkg) :
    usable (p.crashIf b).dmaCBRegisterMemPWM = usable p.dmaCBRegisterMemPWM :=
  vars_usableCB (crashIf_vars b p)

theorem writeCB_pwmDataMem (p : Pkg) (off val : Nat) :
    (p.writeCB off val).pwmDataMem = p.pwmDataMem :=
  vars_pwmDataMem (writeCB_vars p off val)

theorem writeCB_pwmRegisterMem (p : Pkg) (off val : Nat) :
    (p.writeCB off val).pwmRegisterMem = p.pwmRegisterMem :=
  vars_pwmRegisterMem (writeCB_vars p off val)

/-- The control block that `writeDmaCBPWM` leaves behind in a mapped window. -/
theorem writeDmaCBPWM_words (t : Nat) (p : Pkg) (h : usable p.dmaCBRegisterMemPWM = true) :
    (writeDmaCBPWM t p).dmaCB 0 = 0x04050148
    ∧ (writeDmaCBPWM t p).dmaCB 4 = busAddrOf p.pwmDataMem
    ∧ (writeDmaCBPWM t p).dmaCB 8 = (busAddrOf p.pwmRegisterMem + 0x18) % 2 ^ 32
    ∧ (writeDmaCBPWM t p).dmaCB 12 = t
    ∧ (writeDmaCBPWM t p).dmaCB 16 = 0
    ∧ (writeDmaCBPWM t p).dmaCB 20 = 0 := by
  have hti : registerValueDmaCBTiNoWideBursts ||| registerValueDmaCBTiWaitResp |||
      registerValueDmaCBTiDestDreq ||| registerValueDmaCBTiSrcInc ||| registerValueDmaCBTiPermap 5
      = 0x04050148 := by decide
  unfold writeDmaCBPWM
  simp only [writeCB_dmaCB, writeCB_usableCB, crashIf_usableCB, h, crashIf_dmaCB,
    writeCB_pwmDataMem, writeCB_pwmRegisterMem, crashIf_pwmDataMem, crashIf_pwmRegisterMem, hti]
  refine ⟨?_, ?_, ?_, ?_, ?_, ?_⟩ <;>
    simp [setWord, registerOffsetDmaCBTi, registerOffsetDmaCBSrcAddress,
      registerOffsetDmaCBDestAddress, registerOffsetDmaCBTransferLength,
      registerOffsetDmaCB2DModeStride, registerOffsetDmaCBNextCBAddress, registerOffsetPWMFif1]

theorem allocData_ok (env : Env) (sz : Nat) (p : Pkg) (h : (allocData env sz p).2 = none) :
    (allocData env sz p).1.pwmDataMem
        = some { size := sz, mapped := true, busAddr := env.busData }
    ∧ (allocData env sz p).1.core = p.core := by
  cases hm : env.mapData with
  | some err =>
    have e : (allocData env sz p).2 = some err := by
      unfold allocData
      rw [hm]
    rw [e] at h
    cases h
  | none =>
    have hk : (p.crashIf p.curHardware.isNone).core = p.core := vars_core (crashIf_vars _ p)
    generalize hq : p.crashIf p.curHardware.isNone = q at hk
    have e : allocData env sz p
        = ({ q with pwmDataMem := some { size := sz, mapped := true, busAddr := env.busData } },
            none) := by
      unfold allocData
      rw [hm, ← hq]
    rw [e]
    exact ⟨rfl, hk⟩

theorem initializeDmaCBPWM_some (env : Env) (t : Nat) (p : Pkg) (m : MemMap)
    (hc : p.dmaCBRegisterMemPWM = some m) : initializeDmaCBPWM env t p = (p, none) := by
  unfold initializeDmaCBPWM
  rw [hc]

theorem initializeDmaCBPWM_ok (env : Env) (t : Nat) (p : Pkg)
    (h : (initializeDmaCBPWM env t p).2 = none) :
    (initializeDmaCBPWM env t p).1.pwmDataMem = p.pwmDataMem
    ∧ (initializeDmaCBPWM env t p).1.flags = p.flags
    ∧ (initializeDmaCBPWM env t p).1.activePWMChannels = p.activePWMChannels
    ∧ (p.dmaCBRegisterMemPWM = none →
        (initializeDmaCBPWM env t p).1.dmaCB 4 = busAddrOf p.pwmDataMem
        ∧ (initializeDmaCBPWM env t p).1.dmaCB 12 = t) := by
  cases hc : p.dmaCBRegisterMemPWM with
  | some m =>
    rw [initializeDmaCBPWM_some env t p m hc]
    exact ⟨rfl, rfl, rfl, fun hn => by cases hn⟩
  | none =>
    cases hm : env.mapCB with
    | some err =>
      have e : (initializeDmaCBPWM env t p).2 = some err := by
        unfold initializeDmaCBPWM
        rw [hc, hm]
      rw [e] at h
      cases h
    | none =>
      have hk := crashIf_vars p.curHardware.isNone p
      generalize hq : p.crashIf p.curHardware.isNone = q at hk
      have e : initializeDmaCBPWM env t p
          = (writeDmaCBPWM t
              { q with
                dmaCBRegisterMemPWM :=
                  some { size := env.pageSize, mapped := true, busAddr := env.busCB } },
              none) := by
        unfold initializeDmaCBPWM
        rw [hc, hm, ← hq]
      rw [e]
      have hv := writeDmaCBPWM_vars t
        { q with
          dmaCBRegisterMemPWM := some { size := env.pageSize, mapped := true, busAddr := env.busCB } }
      have hw := writeDmaCBPWM_words t
        { q with
          dmaCBRegisterMemPWM := some { size := env.pageSize, mapped := true, busAddr := env.busCB } }
        rfl
      refine ⟨?_, ?_, ?_, ?_⟩
      · exact (vars_pwmDataMem hv).trans (show q.pwmDataMem = _ from vars_pwmDataMem hk)
      · exact (vars_flags hv).trans (show q.flags = _ from vars_flags hk)
      · exact (vars_apc hv).trans (show q.activePWMChannels = _ from vars_apc hk)
      · intro _
        refine ⟨?_, hw.2.2.2.1⟩
        rw [hw.2.1]
        show busAddrOf q.pwmDataMem = _
        rw [vars_pwmDataMem hk]

theorem writeClock_dmaCB (p : Pkg) (off val : Nat) : (p.writeClock off val).dmaCB = p.dmaCB := by
  unfold Pkg.writeClock
  split <;> rfl

theorem writePWM_dmaCB (p : Pkg) (off val : Nat) : (p.writePWM off val).dmaCB = p.dmaCB := by
  unfold Pkg.writePWM
  split <;> rfl

theorem waitClockBusy_dmaCB (want : Bool) (p : Pkg) : (waitClockBusy want p).dmaCB = p.dmaCB := by
  unfold waitClockBusy
  split <;> rfl

theorem stopClockPWM_dmaCB (p : Pkg) : (stopClockPWM p).1.dmaCB = p.dmaCB := by
  unfold stopClockPWM
  split
  · rfl
  · simp only [waitClockBusy_dmaCB, writeClock_dmaCB]

theorem clockSetupPwm_dmaCB (f : Nat) (p : Pkg) : (clockSetupPwm f p).1.dmaCB = p.dmaCB := by
  unfold clockSetupPwm
  simp only
  split
  · exact stopClockPWM_dmaCB p
  · split
    · exact stopClockPWM_dmaCB p
    · simp only [waitClockBusy_dmaCB, writeClock_dmaCB, stopClockPWM_dmaCB]

theorem configurePWM_dmaCB (channels : List ledChannel) (p : Pkg) :
    (configurePWM channels p).dmaCB = p.dmaCB := by
  unfold configurePWM
  simp only
  split <;> split <;> simp only [writePWM_dmaCB, crashIf_dmaCB]

theorem initializeClock_dmaCB (env : Env) (p : Pkg) : (initializeClock env p).1.dmaCB = p.dmaCB := by
  unfold initializeClock
  split
  · rfl
  · split <;> rfl

theorem mapPWMWindow_dmaCB (env : Env) (p : Pkg) : (mapPWMWindow env p).1.dmaCB = p.dmaCB := by
  unfold mapPWMWindow
  split
  · rfl
  · split <;> rfl

theorem unmapOldData_dmaCB (env : Env) (p : Pkg) : (unmapOldData env p).1.dmaCB = p.dmaCB := by
  unfold unmapOldData
  split
  · rfl
  · split <;> rfl

theorem allocData_dmaCB (env : Env) (sz : Nat) (p : Pkg) :
    (allocData env sz p).1.dmaCB = p.dmaCB := by
  unfold allocData
  split <;> exact crashIf_dmaCB _ _

/-- What a successful `initializePWM` leaves in the package-level variables. -/
theorem initializePWM_ok (env : Env) (channels : List ledChannel) (f : Nat) (p : Pkg)
    (h : (initializePWM env channels f p).2 = none) :
    (initializePWM env channels f p).1.flags = p.flags
    ∧ (initializePWM env channels f p).1.activePWMChannels
        = (pwmDataSize p.PWMAlwaysUseTwoChannel p.activePWMChannels channels).2
    ∧ (initializePWM env channels f p).1.pwmDataMem
        = some { size := (pwmDataSize p.PWMAlwaysUseTwoChannel p.activePWMChannels channels).1,
                 mapped := true, busAddr := env.busData }
    ∧ (p.dmaCBRegisterMemPWM = none →
        (initializePWM env channels f p).1.dmaCB 4 = env.busData
        ∧ (initializePWM env channels f p).1.dmaCB 12
            = (pwmDataSize p.PWMAlwaysUseTwoChannel p.activePWMChannels channels).1)
    ∧ (∀ m, p.dmaCBRegisterMemPWM = some m →
        (initializePWM env channels f p).1.dmaCB = p.dmaCB) := by
  unfold initializePWM at h ⊢
  obtain ⟨_, e1⟩ := andThen_none _ _ h
  rw [e1] at h ⊢
  have c1 := initializeClock_core env p
  have d1 := initializeClock_dmaCB env p
  generalize (initializeClock env p).1 = p1 at *
  obtain ⟨_, e2⟩ := andThen_none _ _ h
  rw [e2] at h ⊢
  have c2 := vars_core (clockSetupPwm_vars f p1)
  have d2 := clockSetupPwm_dmaCB f p1
  generalize (clockSetupPwm f p1).1 = p2 at *
  obtain ⟨_, e3⟩ := andThen_none _ _ h
  rw [e3] at h ⊢
  have c3 := mapPWMWindow_core env p2
  have d3 := mapPWMWindow_dmaCB env p2
  generalize (mapPWMWindow env p2).1 = p3 at *
  obtain ⟨_, e4⟩ := andThen_none _ _ h
  rw [e4] at h ⊢
  have c4 : (unmapOldData env (configurePWM channels p3)).1.core = p3.core :=
    (unmapOldData_core env _).trans (vars_core (configurePWM_vars channels p3))
  have d4 : (unmapOldData env (configurePWM channels p3)).1.dmaCB = p3.dmaCB :=
    (unmapOldData_dmaCB env _).trans (configurePWM_dmaCB channels p3)
  generalize (unmapOldData env (configurePWM channels p3)).1 = p4 at *
  have d : p4.dmaCB = p.dmaCB := d4.trans (d3.trans (d2.trans d1))
  have c : p4.core = p.core := c4.trans (c3.trans (c2.trans c1))
  obtain ⟨ca, cb, cc, cd⟩ := core_fields c
  have cf := core_flags c
  rw [cb, cc] at h ⊢
  obtain ⟨h5, e5⟩ := andThen_none _ _ h
  rw [e5] at h ⊢
  obtain ⟨a1, a2⟩ := allocData_ok env _ _ h5
  obtain ⟨b1, b2, b3, b4⟩ := initializeDmaCBPWM_ok env _ _ h
  obtain ⟨_, _, a5, a6⟩ := core_fields a2
  refine ⟨?_, ?_, ?_, ?_, ?_⟩
  · rw [b2, core_flags a2]
    show (p4.pwmActive, p4.pcmActive, p4.spiActive, p.PWMAlwaysUseTwoChannel) = p.flags
    rw [← cb]
    exact cf
  · rw [b3, a5]
  · rw [b1, a1]
  · intro hn
    have hn2 := b4 (by rw [a6]; exact cd.trans hn)
    rw [a1] at hn2
    exact hn2
  · intro m hm
    rw [initializeDmaCBPWM_some env _ _ m (by rw [a6]; exact cd.trans hm)]
    exact (allocData_dmaCB env _ _).trans d

/-! ## Size of the data buffer -/

theorem testBit_fffffff8 (j : Nat) :
    (0xfffffff8 : Nat).testBit j = (decide (3 ≤ j) && decide (j < 32)) := by
  have h : (0xfffffff8 : Nat) = (2 ^ 29 - 1) <<< 3 := by decide
  rw [h, Nat.testBit_shiftLeft, Nat.testBit_two_pow_sub_one]
  by_cases h3 : 3 ≤ j
  · have e : decide (j - 3 < 29) = decide (j < 32) := by
      apply decide_eq_decide.mpr
      omega
    simp [h3, e]
  · simp [h3]

theorem and_fffffff8 (x : Nat) (hx : x < 2 ^ 32) : x &&& 0xfffffff8 = x / 8 * 8 := by
  apply Nat.eq_of_testBit_eq
  intro j
  have e : x / 8 * 8 = (x >>> 3) <<< 3 := by
    rw [Nat.shiftLeft_eq, Nat.shiftRight_eq_div_pow]
  rw [e, Nat.testBit_land, testBit_fffffff8, Nat.testBit_shiftLeft, Nat.testBit_shiftRight]
  by_cases h3 : 3 ≤ j
  · have e2 : 3 + (j - 3) = j := by omega
    rw [e2]
    by_cases h32 : j < 32
    · simp [h3, h32]
    · have hf : x.testBit j = false := by
        apply Nat.testBit_eq_false_of_lt
        exact Nat.lt_of_lt_of_le hx (Nat.pow_le_pow_right (by decide) (by omega))
      simp [h3, h32, hf]
  · simp [h3]

theorem byteCount_eq (ch : ledChannel) (h : statedByteCount ch < 2 ^ 32) :
    ch.byteCount = statedByteCount ch := by
  unfold statedByteCount at h ⊢
  unfold ledChannel.byteCount
  simp only [pwmBitsPerOutputBit, Nat.shiftRight_eq_div_pow]
  generalize ch.strip.TotalCount * ch.ledColors = m at h ⊢
  have e1 : m * 8 * 3 / 2 ^ 3 = m * 3 := by omega
  have hm : m * 3 < 2 ^ 32 := by omega
  rw [e1, Nat.mod_eq_of_lt hm, and_fffffff8 _ hm]
  omega

theorem dataSizeLoop_fst (channels : List ledChannel) (a c : Nat) :
    (dataSizeLoop channels (a, c)).1
      = ((channels.filter (fun ch => ch.active)).map ledChannel.byteCount).foldl max a := by
  unfold dataSizeLoop
  induction channels generalizing a c with
  | nil => rfl
  | cons ch rest ih =>
    rw [List.foldl_cons]
    cases ha : ch.active with
    | false =>
      simp only [ha, Bool.false_eq_true, if_false, List.filter_cons_of_neg, not_false_eq_true]
      exact ih a c
    | true =>
      simp only [ha, if_true, List.filter_cons_of_pos, List.map_cons, List.foldl_cons]
      rw [ih]
      congr 1
      by_cases hgt : ch.byteCount > a
      · rw [if_pos hgt]; exact (Nat.max_eq_right (Nat.le_of_lt hgt)).symm
      · rw [if_neg hgt]; exact (Nat.max_eq_left (Nat.le_of_not_gt hgt)).symm

theorem dataSizeLoop_snd (channels : List ledChannel) (a c : Nat)
    (h : c + (channels.filter (fun ch => ch.active)).length < 2 ^ 32) :
    (dataSizeLoop channels (a, c)).2 = c + (channels.filter (fun ch => ch.active)).length := by
  unfold dataSizeLoop
  induction channels generalizing a c with
  | nil => rfl
  | cons ch rest ih =>
    rw [List.foldl_cons]
    cases ha : ch.active with
    | false =>
      simp only [ha, Bool.false_eq_true, if_false, List.filter_cons_of_neg,
        not_false_eq_true] at h ⊢
      exact ih a c h
    | true =>
      simp only [ha, if_true, List.filter_cons_of_pos, List.length_cons] at h ⊢
      have e : (c + 1) % 2 ^ 32 = c + 1 := Nat.mod_eq_of_lt (by omega)
      rw [e, ih _ _ (by omega)]
      omega

theorem le_foldl_max (l : List Nat) : ∀ (a : Nat),
    a ≤ l.foldl max a ∧ ∀ x ∈ l, x ≤ l.foldl max a := by
  induction l with
  | nil => intro a; exact ⟨Nat.le_refl _, fun x hx => by cases hx⟩
  | cons y l ih =>
    intro a
    rw [List.foldl_cons]
    obtain ⟨h1, h2⟩ := ih (max a y)
    refine ⟨Nat.le_trans (Nat.le_max_left a y) h1, ?_⟩
    intro x hx
    rcases List.mem_cons.mp hx with rfl | hx
    · exact Nat.le_trans (Nat.le_max_right a x) h1
    · exact h2 x hx

theorem le_maxActive (g : ledChannel → Nat) (channels : List ledChannel) (ch : ledChannel)
    (hm : ch ∈ channels) (ha : ch.active = true) : g ch ≤ maxActive g channels := by
  unfold maxActive
  apply (le_foldl_max _ 0).2
  apply List.mem_map.mpr
  exact ⟨ch, List.mem_filter.mpr ⟨hm, ha⟩, rfl⟩

theorem statedByteCount_ge (ch : ledChannel) : 40 ≤ statedByteCount ch := by
  unfold statedByteCount
  omega

/-- Under the bound of the amended C11 every active channel's byte count fits in 32
bits. -/
theorem stated_lt (always2 : Bool) (channels : List ledChannel)
    (hsz : statedDataSize always2 channels < 2 ^ 32) (ch : ledChannel) (hm : ch ∈ channels)
    (ha : ch.active = true) : statedByteCount ch < 2 ^ 32 := by
  have hle := le_maxActive statedByteCount channels ch hm ha
  have hk : 1 ≤ statedChannelCount always2 channels := by
    unfold statedChannelCount
    split
    · decide
    · exact List.length_pos_of_mem (List.mem_filter.mpr ⟨hm, ha⟩)
  unfold statedDataSize at hsz
  have h2 : maxActive statedByteCount channels
      ≤ statedChannelCount always2 channels * maxActive statedByteCount channels :=
    Nat.le_mul_of_pos_left _ hk
  omega

theorem maxActive_byteCount (always2 : Bool) (channels : List ledChannel)
    (hsz : statedDataSize always2 channels < 2 ^ 32) :
    maxActive ledChannel.byteCount channels = maxActive statedByteCount channels := by
  unfold maxActive
  congr 1
  apply List.map_congr_left
  intro ch hch
  obtain ⟨hm, ha⟩ := List.mem_filter.mp hch
  exact byteCount_eq ch (stated_lt always2 channels hsz ch hm ha)

/-- The size computation of `initializePWM` without overflow, from an active-channel
count of 0. -/
theorem pwmDataSize_eq (always2 : Bool) (channels : List ledChannel)
    (hsz : statedDataSize always2 channels < 2 ^ 32) :
    (pwmDataSize always2 0 channels).1 = statedDataSize always2 channels
    ∧ (always2 = true → (pwmDataSize always2 0 channels).2 = 2)
    ∧ (always2 = false →
        (pwmDataSize always2 0 channels).2 = (channels.filter (fun ch => ch.active)).length) := by
  have hmax := maxActive_byteCount always2 channels hsz
  have hfst : (dataSizeLoop channels (0, 0)).1 = maxActive statedByteCount channels := by
    rw [dataSizeLoop_fst, ← hmax]
    rfl
  cases always2 with
  | true =>
    unfold pwmDataSize
    simp only [if_true, hfst]
    refine ⟨?_, fun _ => trivial, fun h => (by cases h)⟩
    unfold statedDataSize statedChannelCount at hsz ⊢
    simp only [if_true] at hsz ⊢
    rw [Nat.mul_comm]
    exact Nat.mod_eq_of_lt hsz
  | false =>
    have hcount : (channels.filter (fun ch => ch.active)).length < 2 ^ 32 := by
      cases hf : channels.filter (fun ch => ch.active) with
      | nil => simp
      | cons ch rest =>
        have hmem : ch ∈ channels.filter (fun ch => ch.active) := by rw [hf]; simp
        obtain ⟨hm, ha⟩ := List.mem_filter.mp hmem
        have h40 := Nat.le_trans (statedByteCount_ge ch)
          (le_maxActive statedByteCount channels ch hm ha)
        unfold statedDataSize statedChannelCount at hsz
        simp only [Bool.false_eq_true, if_false, hf] at hsz
        have h3 : (ch :: rest).length * 40
            ≤ (ch :: rest).length * maxActive statedByteCount channels :=
          Nat.mul_le_mul_left _ h40
        omega
    have hsnd := dataSizeLoop_snd channels 0 0 (by omega)
    rw [Nat.zero_add] at hsnd
    unfold pwmDataSize
    simp only [Bool.false_eq_true, if_false, hfst, hsnd]
    refine ⟨?_, fun h => (by cases h), fun _ => trivial⟩
    unfold statedDataSize statedChannelCount at hsz ⊢
    simp only [Bool.false_eq_true, if_false] at hsz ⊢
    rw [Nat.mul_comm]
    exact Nat.mod_eq_of_lt hsz

/-- C11 (amended): from an active-channel count of 0, and provided the stated byte
count `k * max(floor8(n*d*3) + 8 + 32)` is below `2^32`, a successful `initializePWM`
creates a data buffer of exactly that many bytes, and the control block it builds has
the same number as its transfer length. -/
theorem C11_data_buffer_size (env : Env) (channels : List ledChannel) (frequency : Nat)
    (p : Pkg) (h0 : p.activePWMChannels = 0)
    (hok : (initializePWM env channels frequency p).2 = none)
    (hsz : statedDataSize p.PWMAlwaysUseTwoChannel channels < 2 ^ 32) :
    RequestsStatedSize env channels frequency p := by
  obtain ⟨_, _, hd, hcb, _⟩ := initializePWM_ok env channels frequency p hok
  rw [h0] at hd hcb
  have hs := (pwmDataSize_eq p.PWMAlwaysUseTwoChannel channels hsz).1
  rw [hs] at hd hcb
  refine ⟨⟨_, hd, rfl⟩, ?_⟩
  intro hn
  exact (hcb hn).2

theorem C11_data_buffer_size_witness :
    RequestsStatedSize Env.ok (oneStripChannels 10) 800000 (clockReady 19200000)
    ∧ statedDataSize false (oneStripChannels 10) = 128 :=
  ⟨C11_data_buffer_size Env.ok (oneStripChannels 10) 800000 (clockReady 19200000) rfl rfl
      (by decide),
    by decide⟩

/-- C11 (counterexample): for one active RGB channel of 477218589 pixels the stated
byte count is 4294967336, but `uint32(ledBitCount>>3)` is 5, so `initializePWM`
creates a data buffer of 40 bytes. -/
theorem C11_counterexample :
    ¬ RequestsStatedSize Env.ok (oneStripChannels 477218589) 800000 (clockReady 19200000)
    ∧ (initializePWM Env.ok (oneStripChannels 477218589) 800000 (clockReady 19200000)).1.pwmDataMem
        = some { size := 40, mapped := true, busAddr := Env.ok.busData }
    ∧ statedDataSize false (oneStripChannels 477218589) = 4294967336 := by
  have hok : (initializePWM Env.ok (oneStripChannels 477218589) 800000
      (clockReady 19200000)).2 = none := rfl
  have hd := (initializePWM_ok _ _ _ _ hok).2.2.1
  have hsize : (pwmDataSize (clockReady 19200000).PWMAlwaysUseTwoChannel
      (clockReady 19200000).activePWMChannels (oneStripChannels 477218589)).1 = 40 := by decide
  rw [hsize] at hd
  have hst : statedDataSize false (oneStripChannels 477218589) = 4294967336 := by decide
  refine ⟨?_, hd, hst⟩
  rintro ⟨⟨m, hm, hs⟩, _⟩
  rw [hd] at hm
  have hp : (clockReady 19200000).PWMAlwaysUseTwoChannel = false := rfl
  rw [hp, hst] at hs
  cases hm
  exact absurd hs (by decide)

/-! ## Rejected and repeated initialisation -/

/-- C17: `Config.Initialize` on a second PWM configuration (DMA channel 5) while a
first one (DMA channel 10) is initialized returns `ErrDriverAlreadyUsed` and leaves
the second configuration uninitialized, but it has stored to the DMA global enable
register (offset 0xff0): the register changes from 1024 to 1056, one store more is in
the log of register stores. A configuration without an active channel is rejected
with `ErrNoActiveChannel` and an unchanged package state. -/
theorem C17_rejected_initialize_writes_dma_enable :
    (Config.Initialize Env.ok (stripConfig 10 5) runningPkg).2.2 = some .ErrDriverAlreadyUsed
    ∧ (Config.Initialize Env.ok (stripConfig 10 5) runningPkg).1.initialized = false
    ∧ runningPkg.dmaRegs 0xff0 = 1024
    ∧ (Config.Initialize Env.ok (stripConfig 10 5) runningPkg).2.1.dmaRegs 0xff0 = 1056
    ∧ (Config.Initialize Env.ok (stripConfig 10 5) runningPkg).2.1.regLog
        = runningPkg.regLog ++ [{ window := .dma, offset := 0xff0, value := 1056 }]
    ∧ (∀ (env : Env) (c : Config) (p : Pkg), c.initialized = false →
        c.channels.any (fun curChannel => curChannel.active) = false →
        Config.Initialize env c p = (c, p, some .ErrNoActiveChannel)) := by
  refine ⟨rfl, rfl, rfl, rfl, rfl, ?_⟩
  intro env c p hi ha
  unfold Config.Initialize
  simp [hi, ha]

/-- A successful `initializePWM` that finds a control block leaves its words as they
were, whatever data buffer it creates. -/
theorem initializePWM_keeps_control_block (env : Env) (channels : List ledChannel) (f : Nat)
    (p : Pkg) (m : MemMap) (hc : p.dmaCBRegisterMemPWM = some m)
    (h : (initializePWM env channels f p).2 = none) :
    (initializePWM env channels f p).1.dmaCB = p.dmaCB :=
  (initializePWM_ok env channels f p h).2.2.2.2 m hc

/-- C20: after `Initialize` on a 10-pixel configuration and a `Stop` whose unmapping
of the PWM window fails, `Initialize` on a 100-pixel configuration succeeds
(`initializePWM` returns nil) and creates a data buffer of 1872 bytes at bus address
0xc0003000, but the control block still has the source address 0xc0001000 and the
transfer length 128 of the first buffer. -/
theorem C20_stale_control_block :
    (Config.Initialize Env.moved (stripConfig 100 10) halfStoppedPkg).2.2 = none
    ∧ (Config.Initialize Env.moved (stripConfig 100 10) halfStoppedPkg).1.initialized = true
    ∧ (Config.Initialize Env.moved (stripConfig 100 10) halfStoppedPkg).2.1.panicked = false
    ∧ (Config.Initialize Env.moved (stripConfig 100 10) halfStoppedPkg).2.1.pwmDataMem
        = some { size := 1872, mapped := true, busAddr := 0xc0003000 }
    ∧ (Config.Initialize Env.moved (stripConfig 100 10) halfStoppedPkg).2.1.dmaCB 4 = 0xc0001000
    ∧ (Config.Initialize Env.moved (stripConfig 100 10) halfStoppedPkg).2.1.dmaCB 12 = 128
    ∧ (initializePWM Env.moved (oneStripChannels 100) 800000 runningPkg).2 = none
    ∧ (initializePWM Env.moved (oneStripChannels 100) 800000 runningPkg).1.dmaCB
        = runningPkg.dmaCB :=
  ⟨rfl, rfl, rfl, rfl, rfl, rfl, rfl,
    initializePWM_keeps_control_block Env.moved (oneStripChannels 100) 800000 runningPkg
      { size := 4096, mapped := true, busAddr := 0xc0002000 } rfl rfl⟩

/-! ## The encoded stream fits the data buffer -/

theorem stated_le_exact (always2 : Bool) (apc0 : Nat) (channels : List ledChannel) :
    statedDataSize always2 channels ≤ exactDataSize always2 apc0 channels := by
  unfold statedDataSize exactDataSize
  apply Nat.mul_le_mul_right
  unfold statedChannelCount sizedChannelCount
  split
  · exact Nat.le_refl _
  · exact Nat.le_add_left _ _

/-- The size computation of `initializePWM` without overflow, from any active-channel
count, when some channel is active. -/
theorem pwmDataSize_exact (always2 : Bool) (apc0 : Nat) (channels : List ledChannel)
    (hsz : exactDataSize always2 apc0 channels < 2 ^ 32) (ch : ledChannel) (hm : ch ∈ channels)
    (ha : ch.active = true) :
    (pwmDataSize always2 apc0 channels).1 = exactDataSize always2 apc0 channels
    ∧ (pwmDataSize always2 apc0 channels).2 = sizedChannelCount always2 apc0 channels
    ∧ 1 ≤ sizedChannelCount always2 apc0 channels := by
  have hst : statedDataSize always2 channels < 2 ^ 32 :=
    Nat.lt_of_le_of_lt (stated_le_exact always2 apc0 channels) hsz
  have hmax := maxActive_byteCount always2 channels hst
  have hfst : (dataSizeLoop channels (0, apc0)).1 = maxActive statedByteCount channels := by
    rw [dataSizeLoop_fst, ← hmax]
    rfl
  have hpos : 1 ≤ (channels.filter (fun ch => ch.active)).length :=
    List.length_pos_of_mem (List.mem_filter.mpr ⟨hm, ha⟩)
  cases always2 with
  | true =>
    unfold pwmDataSize
    simp only [if_true, hfst]
    unfold exactDataSize sizedChannelCount at hsz ⊢
    simp only [if_true] at hsz ⊢
    refine ⟨?_, trivial, by decide⟩
    rw [Nat.mul_comm]
    exact Nat.mod_eq_of_lt hsz
  | false =>
    have h40 := Nat.le_trans (statedByteCount_ge ch)
      (le_maxActive statedByteCount channels ch hm ha)
    unfold exactDataSize sizedChannelCount at hsz ⊢
    simp only [Bool.false_eq_true, if_false] at hsz ⊢
    have h3 : (apc0 + (channels.filter (fun ch => ch.active)).length) * 40
        ≤ (apc0 + (channels.filter (fun ch => ch.active)).length)
            * maxActive statedByteCount channels :=
      Nat.mul_le_mul_left _ h40
    have hsnd := dataSizeLoop_snd channels 0 apc0 (by omega)
    unfold pwmDataSize
    simp only [Bool.false_eq_true, if_false, hfst, hsnd]
    refine ⟨?_, trivial, by omega⟩
    rw [Nat.mul_comm]
    exact Nat.mod_eq_of_lt hsz

/-- One store of a channel's pixel loop lies inside a buffer of `apc` times the
channel's stated byte count. -/
theorem writePos_within (apc chan ph k S : Nat) (ch : ledChannel) (hchan : chan ≤ 1)
    (hph : ph ≤ 31) (hk : k < ch.strip.TotalCount * (ch.ledColors * 24)) (hA : 1 ≤ apc)
    (hS : apc * statedByteCount ch ≤ S) :
    (writePos apc chan (chan % 2 ^ 32) ph k).offset + 4 ≤ S := by
  unfold writePos
  simp only
  have h1 : ((chan % 2 ^ 32 + wordStep apc * ((k + ph) / 32)) % 2 ^ 32 * 4) % 2 ^ 32
      ≤ (chan % 2 ^ 32 + wordStep apc * ((k + ph) / 32)) * 4 :=
    Nat.le_trans (Nat.mod_le _ _) (Nat.mul_le_mul_right 4 (Nat.mod_le _ _))
  have h2 : chan % 2 ^ 32 ≤ 1 := Nat.le_trans (Nat.mod_le _ _) hchan
  have e : ch.strip.TotalCount * (ch.ledColors * 24) = ch.strip.TotalCount * ch.ledColors * 24 :=
    (Nat.mul_assoc _ _ _).symm
  rw [e] at hk
  have hB : statedByteCount ch ≤ apc * statedByteCount ch := Nat.le_mul_of_pos_left _ hA
  unfold statedByteCount at hS hB
  generalize ch.strip.TotalCount * ch.ledColors = m at hS hk hB
  generalize ((chan % 2 ^ 32 + wordStep apc * ((k + ph) / 32)) % 2 ^ 32 * 4) % 2 ^ 32 = x at h1 ⊢
  generalize chan % 2 ^ 32 = c at h1 h2
  unfold wordStep at h1
  by_cases h2a : apc = 2
  · rw [if_pos h2a] at h1
    subst h2a
    omega
  · rw [if_neg h2a] at h1
    generalize apc * (m * 3 / 8 * 8 + 8 + 32) = y at hS hB
    omega

theorem renderChannel_within (f apc : Nat) (st : RenderState) (chan : Nat) (ch : ledChannel)
    (S : Nat) (hchan : chan ≤ 1) (h0 : 0 ≤ st.bitPos) (h31 : st.bitPos ≤ 31)
    (hprev : ∀ r ∈ st.writes, r.offset + 4 ≤ S)
    (hS : ch.active = true → 1 ≤ apc ∧ apc * statedByteCount ch ≤ S) :
    ∀ r ∈ (renderChannel f apc st chan ch).writes, r.offset + 4 ≤ S := by
  cases ha : ch.active with
  | false =>
    rw [renderChannel_inactive f apc st chan ch ha]
    exact hprev
  | true =>
    rw [(renderChannel_run f apc st chan ch ha h0 h31).1]
    intro r hr
    rcases List.mem_append.mp hr with hr | hr
    · exact hprev r hr
    · obtain ⟨k, hk, rfl⟩ := List.mem_map.mp hr
      obtain ⟨hA, hS2⟩ := hS ha
      exact writePos_within apc chan _ k S ch hchan (by omega) (List.mem_range.mp hk) hA hS2

theorem renderLoop_within (f apc : Nat) (mem : Nat → Nat) (chans : List ledChannel) (S : Nat)
    (hlen : chans.length ≤ 2)
    (hS : ∀ ch ∈ chans, ch.active = true → 1 ≤ apc ∧ apc * statedByteCount ch ≤ S) :
    ∀ r ∈ (renderPWMLoop chans f apc mem []).writes, r.offset + 4 ≤ S := by
  match chans, hlen, hS with
  | [], _, _ =>
    intro r hr
    cases hr
  | [a], _, hS =>
    rw [renderPWMLoop_single]
    exact renderChannel_within f apc _ 0 a S (by decide) (show (0 : Int) ≤ 31 by decide)
      (show (31 : Int) ≤ 31 by decide) (fun r hr => by cases hr) (hS a (List.mem_singleton.mpr rfl))
  | [a, b], _, hS =>
    rw [renderPWMLoop_pair]
    have hb := renderChannel_bitPos f apc
      { mem := mem, writes := [], bitPos := 31, protocolTime := 0 } 0 a
      (show (0 : Int) ≤ 31 by decide) (show (31 : Int) ≤ 31 by decide)
    apply renderChannel_within f apc _ 1 b S (Nat.le_refl 1) hb.1 hb.2
    · exact renderChannel_within f apc _ 0 a S (by decide) (show (0 : Int) ≤ 31 by decide)
        (show (31 : Int) ≤ 31 by decide) (fun r hr => by cases hr) (hS a (by simp))
    · exact hS b (by simp)
  | _ :: _ :: _ :: _, hlen, _ =>
    simp only [List.length_cons] at hlen
    omega

theorem rendered_sub (c : Config) (stripIndex : Int) :
    ((c.rendered stripIndex).length ≤ c.channels.length ∨ (c.rendered stripIndex).length ≤ 1)
    ∧ ∀ ch ∈ c.rendered stripIndex, ch ∈ c.channels := by
  unfold Config.rendered
  split
  · exact ⟨Or.inl (Nat.le_refl _), fun _ h => h⟩
  · refine ⟨?_, ?_⟩
    · exact Or.inr (List.length_take_le _ _)
    · intro ch hch
      exact List.mem_of_mem_drop (List.mem_of_mem_take hch)

/-- C12: after a successful `initializePWM` on the two channels of a PWM Config, with
a size computation that does not overflow 32 bits, `Render(-1)`, `Render(0)` and
`Render(1)` on the same channels return without error, and every word they store in
the data buffer lies inside the allocated size: byte offset + 4 is at most the size of
the buffer created by `initializePWM`. -/
theorem C12_render_within_buffer (env : Env) (c : Config) (p : Pkg) (stripIndex now : Int)
    (hd : c.driverType = DriverPWM) (hlen : c.channels.length = 2)
    (hok : (initializePWM env c.channels c.frequency p).2 = none)
    (hno : exactDataSize p.PWMAlwaysUseTwoChannel p.activePWMChannels c.channels < 2 ^ 32)
    (h1 : -1 ≤ stripIndex) (h2 : stripIndex < 2) :
    ∃ m c' w',
      (initializePWM env c.channels c.frequency p).1.pwmDataMem = some m
      ∧ c.Render stripIndex ((initializePWM env c.channels c.frequency p).1.world now)
          = .ok (c', w')
      ∧ ∀ r ∈ w'.pwmDataWrites, r.offset + 4 ≤ m.size := by
  obtain ⟨_, hA, hD, _⟩ := initializePWM_ok env c.channels c.frequency p hok
  obtain ⟨c', w', hr, _, hw, _⟩ := Render_spec c stripIndex
    ((initializePWM env c.channels c.frequency p).1.world now) hd h1 h2
  refine ⟨_, c', w', hD, hr, ?_⟩
  rw [hw]
  show ∀ r ∈ (renderPWMLoop (c.rendered stripIndex) c.frequency
      (initializePWM env c.channels c.frequency p).1.activePWMChannels
      (initializePWM env c.channels c.frequency p).1.pwmData []).writes,
    r.offset + 4 ≤ (pwmDataSize p.PWMAlwaysUseTwoChannel p.activePWMChannels c.channels).1
  rw [hA]
  obtain ⟨hl, hmem⟩ := rendered_sub c stripIndex
  apply renderLoop_within
  · omega
  · intro ch hch hact
    have hm := hmem ch hch
    obtain ⟨e1, e2, e3⟩ := pwmDataSize_exact _ _ _ hno ch hm hact
    rw [e1, e2]
    exact ⟨e3, Nat.mul_le_mul_left _ (le_maxActive statedByteCount c.channels ch hm hact)⟩

theorem C12_render_within_buffer_witness :
    ∃ m c' w',
      (initializePWM Env.ok (stripConfig 10 10).channels (stripConfig 10 10).frequency
          (clockReady 19200000)).1.pwmDataMem = some m
      ∧ (stripConfig 10 10).Render (-1)
          ((initializePWM Env.ok (stripConfig 10 10).channels (stripConfig 10 10).frequency
            (clockReady 19200000)).1.world 0) = .ok (c', w')
      ∧ ∀ r ∈ w'.pwmDataWrites, r.offset + 4 ≤ m.size :=
  C12_render_within_buffer Env.ok (stripConfig 10 10) (clockReady 19200000) (-1) 0 rfl rfl rfl
    (by decide) (by decide) (by decide)

/-! ## One initialized PWM Config at a time -/

theorem andThen_flags (r : Pkg × Option Error) (k : Pkg → Pkg × Option Error) (p : Pkg)
    (hr : r.1.flags = p.flags) (hk : ∀ q, (k q).1.flags = q.flags) :
    (andThen r k).1.flags = p.flags := by
  unfold andThen
  split
  · exact hr
  · exact (hk r.1).trans hr

theorem andThen_some (r : Pkg × Option Error) (k : Pkg → Pkg × Option Error) (e : Error)
    (h : (andThen r k).2 = some e) : r.2 = some e ∨ (k r.1).2 = some e := by
  cases hr : r.2 with
  | none => rw [andThen_of_none r k hr] at h; exact Or.inr h
  | some e2 => rw [andThen_of_some r k e2 hr] at h; exact Or.inl h

theorem writeDMA_flags (p : Pkg) (off val : Nat) : (p.writeDMA off val).flags = p.flags :=
  vars_flags (writeDMA_vars p off val)

theorem initializeDMA_flags (env : Env) (p : Pkg) : (initializeDMA env p).1.flags = p.flags := by
  unfold initializeDMA
  split
  · rfl
  · split <;> rfl

theorem enableDMA_flags (channel : Nat) (p : Pkg) : (enableDMA channel p).1.flags = p.flags := by
  unfold enableDMA
  split
  · rfl
  · exact writeDMA_flags _ _ _

theorem enableDMA_none (channel : Nat) (p : Pkg) : (enableDMA channel p).2 = none := by
  unfold enableDMA
  split <;> rfl

theorem initializeDMA_err (env : Env) (p : Pkg) (e : Error)
    (h : (initializeDMA env p).2 = some e) : env.mapDMA = some e := by
  unfold initializeDMA at h
  split at h
  · cases h
  · split at h
    · rename_i err hm
      rw [hm]
      exact h
    · cases h

theorem initializeClock_err (env : Env) (p : Pkg) (e : Error)
    (h : (initializeClock env p).2 = some e) : env.mapClock = some e := by
  unfold initializeClock at h
  split at h
  · cases h
  · split at h
    · rename_i err hm
      rw [hm]
      exact h
    · cases h

theorem mapPWMWindow_err (env : Env) (p : Pkg) (e : Error)
    (h : (mapPWMWindow env p).2 = some e) : env.mapPWM = some e := by
  unfold mapPWMWindow at h
  split at h
  · cases h
  · split at h
    · rename_i err hm
      rw [hm]
      exact h
    · cases h

theorem unmapOldData_err (env : Env) (p : Pkg) (e : Error)
    (h : (unmapOldData env p).2 = some e) : env.unmapData = some e := by
  unfold unmapOldData at h
  split at h
  · cases h
  · split at h
    · rename_i err hm
      rw [hm]
      exact h
    · cases h

theorem allocData_err (env : Env) (sz : Nat) (p : Pkg) (e : Error)
    (h : (allocData env sz p).2 = some e) : env.mapData = some e := by
  unfold allocData at h
  split at h
  · rename_i err hm
    rw [hm]
    exact h
  · cases h

theorem initializeDmaCBPWM_err (env : Env) (t : Nat) (p : Pkg) (e : Error)
    (h : (initializeDmaCBPWM env t p).2 = some e) : env.mapCB = some e := by
  unfold initializeDmaCBPWM at h
  split at h
  · cases h
  · split at h
    · rename_i err hm
      rw [hm]
      exact h
    · cases h

theorem crashIf_flags (b : Bool) (p : Pkg) : (p.crashIf b).flags = p.flags :=
  vars_flags (crashIf_vars b p)

theorem allocData_flags (env : Env) (sz : Nat) (p : Pkg) :
    (allocData env sz p).1.flags = p.flags := by
  unfold allocData
  split <;> exact crashIf_flags _ p

theorem initializeDmaCBPWM_flags (env : Env) (t : Nat) (p : Pkg) :
    (initializeDmaCBPWM env t p).1.flags = p.flags := by
  unfold initializeDmaCBPWM
  split
  · rfl
  · split
    · exact crashIf_flags _ p
    · exact (vars_flags (writeDmaCBPWM_vars _ _)).trans (crashIf_flags _ p)

/-- The function `initializePWM` leaves the driver flags alone, whether it returns an
error or not. -/
theorem initializePWM_flags (env : Env) (channels : List ledChannel) (f : Nat) (p : Pkg) :
    (initializePWM env channels f p).1.flags = p.flags := by
  unfold initializePWM
  apply andThen_flags _ _ _ (core_flags (initializeClock_core env p))
  intro p1
  apply andThen_flags _ _ _ (vars_flags (clockSetupPwm_vars f p1))
  intro p2
  apply andThen_flags _ _ _ (core_flags (mapPWMWindow_core env p2))
  intro p3
  apply andThen_flags _ _ _
    ((core_flags (unmapOldData_core env _)).trans (vars_flags (configurePWM_vars channels p3)))
  intro p4
  apply andThen_flags _ _ _ (allocData_flags env _ _)
  intro p5
  exact initializeDmaCBPWM_flags env _ p5

/-- An error of `initializePWM` is an error of one of its collaborators. -/
theorem initializePWM_err (env : Env) (channels : List ledChannel) (f : Nat) (p : Pkg)
    (e : Error) (h : (initializePWM env channels f p).2 = some e) :
    env.mapClock = some e ∨ env.mapPWM = some e ∨ env.unmapData = some e
    ∨ env.mapData = some e ∨ env.mapCB = some e := by
  unfold initializePWM at h
  rcases andThen_some _ _ e h with h | h
  · exact Or.inl (initializeClock_err env p e h)
  rcases andThen_some _ _ e h with h | h
  · rw [clockSetupPwm_none] at h; cases h
  rcases andThen_some _ _ e h with h | h
  · exact Or.inr (Or.inl (mapPWMWindow_err env _ e h))
  rcases andThen_some _ _ e h with h | h
  · exact Or.inr (Or.inr (Or.inl (unmapOldData_err env _ e h)))
  rcases andThen_some _ _ e h with h | h
  · exact Or.inr (Or.inr (Or.inr (Or.inl (allocData_err env _ _ e h))))
  · exact Or.inr (Or.inr (Or.inr (Or.inr (initializeDmaCBPWM_err env _ _ e h))))

theorem stopPWM_flags (p : Pkg) : (stopPWM p).1.flags = p.flags := by
  unfold stopPWM
  split
  · rfl
  · exact (vars_flags (stopClockPWM_vars _)).trans (vars_flags (writePWM_vars _ _ _))

theorem unmapPWMWindow_flags (env : Env) (p : Pkg) : (unmapPWMWindow env p).1.flags = p.flags := by
  unfold unmapPWMWindow
  split
  · rfl
  · split <;> rfl

theorem unmapData_flags (env : Env) (p : Pkg) : (unmapData env p).1.flags = p.flags := by
  unfold unmapData
  split
  · rfl
  · split <;> rfl

theorem cleanupDmaCBPWM_flags (env : Env) (p : Pkg) : (cleanupDmaCBPWM env p).1.flags = p.flags := by
  unfold cleanupDmaCBPWM
  split
  · rfl
  · split <;> rfl

/-- The function `cleanupPWM` leaves the driver flags alone, whether it returns an
error or not. -/
theorem cleanupPWM_flags (env : Env) (p : Pkg) : (cleanupPWM env p).1.flags = p.flags := by
  unfold cleanupPWM
  apply andThen_flags _ _ _ (stopPWM_flags p)
  intro p1
  apply andThen_flags _ _ _ (unmapPWMWindow_flags env p1)
  intro p2
  apply andThen_flags _ _ _ (unmapData_flags env p2)
  intro p3
  apply andThen_flags _ _ _ (cleanupDmaCBPWM_flags env p3)
  intro p4
  rfl

theorem dmaSetup_flags (env : Env) (channel : Nat) (p : Pkg) :
    (andThen (initializeDMA env p) (enableDMA channel)).1.flags = p.flags :=
  andThen_flags _ _ _ (initializeDMA_flags env p) (fun q => enableDMA_flags channel q)

theorem dmaSetup_err (env : Env) (channel : Nat) (p : Pkg) (e : Error)
    (h : (andThen (initializeDMA env p) (enableDMA channel)).2 = some e) :
    env.mapDMA = some e := by
  rcases andThen_some _ _ e h with h | h
  · exact initializeDMA_err env p e h
  · rw [enableDMA_none] at h; cases h

/-- The shapes of the result of `Config.Initialize` on a PWM Config. -/
theorem Initialize_cases (env : Env) (c : Config) (p : Pkg) (hd : c.driverType = DriverPWM) :
    (c.initialized = true ∧ Config.Initialize env c p = (c, p, none))
    ∨ (c.initialized = false ∧ ∃ q e, Config.Initialize env c p = (c, q, some e)
        ∧ (p.pwmActive = true → q.pwmActive = true)
        ∧ (e = .ErrDriverAlreadyUsed →
            p.pwmActive = true ∨ some e ∈ [env.gpioInitialize, env.hardwareCheck.2, env.mapClock,
              env.mapDMA, env.mapPWM, env.mapData, env.mapCB, env.unmapPWM, env.unmapData,
              env.unmapCB]))
    ∨ (c.initialized = false ∧ p.pwmActive = false ∧ ∃ q,
        Config.Initialize env c p = ({ c with initialized := true }, q, none)
        ∧ q.pwmActive = true) := by
  cases hi : c.initialized with
  | true =>
    left
    refine ⟨rfl, ?_⟩
    unfold Config.Initialize
    rw [if_pos hi]
  | false =>
    right
    unfold Config.Initialize
    simp only [hi, Bool.false_eq_true, if_false]
    split
    · left
      exact ⟨trivial, p, _, rfl, fun h => h, fun h => by cases h⟩
    · split
      · rename_i err hg
        left
        refine ⟨trivial, p, err, rfl, fun h => h, fun h => Or.inr ?_⟩
        rw [hg]
        simp
      · split
        · rename_i err hh
          left
          refine ⟨trivial, _, err, rfl, fun h => h, fun h => Or.inr ?_⟩
          rw [hh]
          simp
        · have hf := dmaSetup_flags env c.dmaChannel { p with curHardware := env.hardwareCheck.1 }
          have he := dmaSetup_err env c.dmaChannel { p with curHardware := env.hardwareCheck.1 }
          generalize andThen (initializeDMA env { p with curHardware := env.hardwareCheck.1 })
            (enableDMA c.dmaChannel) = r at hf he
          have hpa : r.1.pwmActive = p.pwmActive := flags_pwmActive hf
          split
          · rename_i err hr
            left
            refine ⟨trivial, _, err, rfl, fun h => hpa.trans h, fun h => Or.inr ?_⟩
            rw [← he err hr]
            simp
          · try rw [if_pos hd]
            cases hact : r.1.pwmActive with
            | true =>
              left
              simp only [if_true]
              exact ⟨trivial, _, _, rfl, fun _ => hact, fun _ => Or.inl (hpa.symm.trans hact)⟩
            | false =>
              simp only [Bool.false_eq_true, if_false]
              have hq := initializePWM_flags env c.channels c.frequency { r.1 with pwmActive := true }
              have hqe := initializePWM_err env c.channels c.frequency { r.1 with pwmActive := true }
              generalize initializePWM env c.channels c.frequency { r.1 with pwmActive := true } = q
                at hq hqe
              have hqa : q.1.pwmActive = true := flags_pwmActive hq
              split
              · rename_i err hqerr
                left
                refine ⟨trivial, _, err, rfl, fun _ => hqa, fun _ => Or.inr ?_⟩
                rcases hqe err hqerr with h | h | h | h | h <;> rw [← h] <;> simp
              · right
                exact ⟨trivial, hpa.symm.trans hact, _, rfl, hqa⟩

/-- The shapes of the result of `Config.Stop` on a PWM Config. -/
theorem Stop_cases (env : Env) (c : Config) (p : Pkg) (hd : c.driverType = DriverPWM) :
    (c.initialized = false ∧ Config.Stop env c p = (c, p, none))
    ∨ (c.initialized = true ∧ ∃ q, q.pwmActive = false
        ∧ ((∃ e, Config.Stop env c p = (c, q, some e))
          ∨ Config.Stop env c p = ({ c with initialized := false }, q, none))) := by
  cases hi : c.initialized with
  | false =>
    left
    refine ⟨rfl, ?_⟩
    unfold Config.Stop
    simp [hi]
  | true =>
    right
    refine ⟨rfl, ?_⟩
    unfold Config.Stop
    simp only [hi, Bool.not_true, Bool.false_eq_true, if_false, hd, if_true]
    have hf := cleanupPWM_flags env { p with pwmActive := false }
    generalize cleanupPWM env { p with pwmActive := false } = r at hf
    have hpa : r.1.pwmActive = false := flags_pwmActive hf
    refine ⟨r.1, hpa, ?_⟩
    split
    · rename_i err _
      exact Or.inl ⟨err, rfl⟩
    · exact Or.inr rfl

theorem SetStrip_keeps (NewPin : Nat → Option Nat × Option Error) (c : Config) (ledStrip : LEDs)
    (pin stripType : Nat) (stripIndex : Int) (invertSignal : Bool) :
    (c.SetStrip NewPin ledStrip pin stripType stripIndex invertSignal).1.initialized
        = c.initialized
    ∧ (c.SetStrip NewPin ledStrip pin stripType stripIndex invertSignal).1.driverType
        = c.driverType := by
  unfold Config.SetStrip
  by_cases h1 : c.initialized = true
  · rw [if_pos h1]
    exact ⟨rfl, rfl⟩
  rw [if_neg h1]
  by_cases h2 : stripIndex < 0
  · rw [if_pos h2]
    exact ⟨rfl, rfl⟩
  rw [if_neg h2]
  by_cases h3 : c.driverType = DriverPWM
  · rw [if_pos h3]
    by_cases h4 : stripIndex ≥ 2
    · rw [if_pos h4]
      exact ⟨rfl, rfl⟩
    rw [if_neg h4]
    simp only
    cases hm : pwmChannelType.getAltMode pwmChannels stripIndex.toNat pin with
    | error err => exact ⟨rfl, rfl⟩
    | ok a =>
      simp only
      cases hp : (NewPin pin).2 <;> exact ⟨rfl, rfl⟩
  · rw [if_neg h3]
    exact ⟨rfl, rfl⟩

theorem initializedAt_same (s : Sys) (i : Nat) (c : Config)
    (hc : s.configs i = some c) : s.initializedAt i = c.initialized := by
  unfold Sys.initializedAt
  rw [hc]

/-- Replacing one Config and the package state keeps the invariant when the new
Config is initialized only if the old one was or no driver was active, and `pwmActive`
is cleared only when the replaced Config stops being initialized. -/
theorem Inv_replace (s t : Sys) (i : Nat) (c2 : Config) (hinv : s.Inv)
    (hcf : t.configs = fun k => if k = i then some c2 else s.configs k)
    (hdrv : c2.driverType = DriverPWM)
    (h1 : c2.initialized = true →
      (s.initializedAt i = true ∨ s.pkg.pwmActive = false) ∧ t.pkg.pwmActive = true)
    (h2 : s.pkg.pwmActive = true →
      t.pkg.pwmActive = true ∨ (s.initializedAt i = true ∧ c2.initialized = false)) :
    t.Inv := by
  obtain ⟨hA, hB, hC⟩ := hinv
  have hsame : t.initializedAt i = c2.initialized :=
    initializedAt_same t i c2 (by rw [hcf]; simp)
  have hother : ∀ k, k ≠ i → t.initializedAt k = s.initializedAt k := by
    intro k hk
    unfold Sys.initializedAt
    rw [hcf]
    simp [hk]
  refine ⟨?_, ?_, ?_⟩
  · intro k c hk
    rw [hcf] at hk
    by_cases hki : k = i
    · simp only [hki, if_true, Option.some.injEq] at hk
      rw [← hk]
      exact hdrv
    · simp only [hki, if_false] at hk
      exact hA k c hk
  · intro a b ha hb
    by_cases hai : a = i
    · by_cases hbi : b = i
      · rw [hai, hbi]
      · rw [hother b hbi] at hb
        rw [hai, hsame] at ha
        rcases (h1 ha).1 with h | h
        · rw [hai]
          exact hB i b h hb
        · rw [hC b hb] at h
          cases h
    · rw [hother a hai] at ha
      by_cases hbi : b = i
      · rw [hbi, hsame] at hb
        rcases (h1 hb).1 with h | h
        · rw [hbi]
          exact hB a i ha h
        · rw [hC a ha] at h
          cases h
      · rw [hother b hbi] at hb
        exact hB a b ha hb
  · intro a ha
    by_cases hai : a = i
    · rw [hai, hsame] at ha
      exact (h1 ha).2
    · rw [hother a hai] at ha
      rcases h2 (hC a ha) with h | h
      · exact h
      · exact absurd (hB a i ha h.1) hai

theorem Inv_start : Sys.start.Inv := by
  refine ⟨?_, ?_, ?_⟩
  · intro i c h
    cases h
  · intro i j h
    cases h
  · intro i h
    cases h

/-- One call keeps the invariant, unless it is a `Stop` that returns an error. -/
theorem Inv_step (s : Sys) (call : Call) (hinv : s.Inv)
    (hstop : ∀ i env, call = .Stop i env → (s.step call).2 = none) :
    (s.step call).1.Inv := by
  cases call with
  | New driverType =>
    unfold Sys.step
    simp only
    unfold New
    by_cases hdt : driverType = DriverPWM
    · rw [if_pos hdt]
      exact Inv_replace s _ s.created _ hinv rfl hdt (fun h => by cases h) (fun h => Or.inl h)
    · rw [if_neg hdt]
      exact hinv
  | SetStrip i NewPin ledStrip pin stripType stripIndex invertSignal =>
    unfold Sys.step
    simp only
    cases hc : s.configs i with
    | none => exact hinv
    | some c =>
      obtain ⟨k1, k2⟩ := SetStrip_keeps NewPin c ledStrip pin stripType stripIndex invertSignal
      have hi := initializedAt_same s i c hc
      refine Inv_replace s _ i _ hinv rfl (k2.trans (hinv.1 i c hc)) ?_ (fun h => Or.inl h)
      intro h
      rw [k1, ← hi] at h
      exact ⟨Or.inl h, hinv.2.2 i h⟩
  | Initialize i env =>
    unfold Sys.step
    simp only
    cases hc : s.configs i with
    | none => exact hinv
    | some c =>
      have hd := hinv.1 i c hc
      have hi := initializedAt_same s i c hc
      show (s.put i (Config.Initialize env c s.pkg).1 (Config.Initialize env c s.pkg).2.1).Inv
      rcases Initialize_cases env c s.pkg hd with ⟨h, e⟩ | ⟨h, q, err, e, hm, _⟩ | ⟨h, hp, q, e, hq⟩
      · rw [e]
        refine Inv_replace s _ i c hinv rfl hd ?_ (fun h => Or.inl h)
        intro _
        rw [← hi] at h
        exact ⟨Or.inl h, hinv.2.2 i h⟩
      · rw [e]
        refine Inv_replace s _ i c hinv rfl hd ?_ (fun h => Or.inl (hm h))
        intro h2
        rw [h] at h2
        cases h2
      · rw [e]
        exact Inv_replace s _ i _ hinv rfl hd (fun _ => ⟨Or.inr hp, hq⟩) (fun _ => Or.inl hq)
  | Stop i env =>
    have hs := hstop i env rfl
    unfold Sys.step at hs ⊢
    simp only at hs ⊢
    cases hc : s.configs i with
    | none => exact hinv
    | some c =>
      rw [hc] at hs
      simp only at hs
      have hd := hinv.1 i c hc
      have hi := initializedAt_same s i c hc
      show (s.put i (Config.Stop env c s.pkg).1 (Config.Stop env c s.pkg).2.1).Inv
      rcases Stop_cases env c s.pkg hd with ⟨h, e⟩ | ⟨h, q, hq, ⟨err, e⟩ | e⟩
      · rw [e]
        refine Inv_replace s _ i c hinv rfl hd ?_ (fun h => Or.inl h)
        intro h2
        rw [h] at h2
        cases h2
      · rw [e] at hs
        cases hs
      · rw [e]
        refine Inv_replace s _ i _ hinv rfl hd (fun h2 => by cases h2) ?_
        intro _
        exact Or.inr ⟨hi.trans h, rfl⟩

theorem Inv_run (calls : List Call) : ∀ (s : Sys), s.Inv → stopsSucceed s calls = true →
    (s.run calls).Inv := by
  induction calls with
  | nil => intro s h _; exact h
  | cons call rest ih =>
    intro s hinv hstop
    unfold stopsSucceed at hstop
    rw [Bool.and_eq_true] at hstop
    unfold Sys.run
    rw [List.foldl_cons]
    apply ih
    · apply Inv_step s call hinv
      intro i env hcall
      subst hcall
      exact Option.isNone_iff_eq_none.mp hstop.1
    · exact hstop.2

theorem enableDMA_panicked (channel : Nat) (p : Pkg) (h : usable p.dmaRegisterMem = true) :
    (enableDMA channel p).1.panicked = p.panicked := by
  unfold enableDMA
  split
  · rfl
  · unfold Pkg.writeDMA
    simp only [h, if_true]

/-- With a DMA window that is nil or mapped, and a mapping that succeeds,
`initializeDMA` followed by `enableDMA` does not crash. -/
theorem dmaSetup_panicked (env : Env) (channel : Nat) (p : Pkg) (hm : env.mapDMA = none)
    (hw : p.dmaRegisterMem = none ∨ usable p.dmaRegisterMem = true) :
    (andThen (initializeDMA env p) (enableDMA channel)).1.panicked = p.panicked := by
  rcases hw with hnone | hus
  · have e : initializeDMA env p
        = ({ p with
              dmaRegisterMem :=
                some { size := env.pageSize, mapped := true, busAddr := env.busDMA } },
            none) := by
      unfold initializeDMA
      rw [hnone, hm]
    rw [andThen_of_none _ _ (by rw [e]), e]
    exact enableDMA_panicked channel _ rfl
  · have e : initializeDMA env p = (p, none) := by
      unfold initializeDMA
      cases hd : p.dmaRegisterMem with
      | none => rw [hd] at hus; cases hus
      | some m => rfl
    rw [andThen_of_none _ _ (by rw [e]), e]
    exact enableDMA_panicked channel p hus

theorem dmaSetup_none (env : Env) (channel : Nat) (p : Pkg) (h : env.mapDMA = none) :
    (andThen (initializeDMA env p) (enableDMA channel)).2 = none := by
  cases hr : (andThen (initializeDMA env p) (enableDMA channel)).2 with
  | none => rfl
  | some e =>
    rw [dmaSetup_err env channel p e hr] at h
    cases h

/-- While `pwmActive` is set, `Config.Initialize` on an uninitialized PWM Config with
an active channel returns `ErrDriverAlreadyUsed` and leaves the Config as it was, when
the collaborators let it reach the driver switch; with a DMA window that is nil or
mapped it does so without a crash. -/
theorem Initialize_rejected (env : Env) (c : Config) (p : Pkg) (hd : c.driverType = DriverPWM)
    (hi : c.initialized = false)
    (ha : c.channels.any (fun curChannel => curChannel.active) = true) (hr : env.reaches)
    (hp : p.pwmActive = true) :
    (Config.Initialize env c p).1 = c
    ∧ (Config.Initialize env c p).2.2 = some .ErrDriverAlreadyUsed
    ∧ (p.dmaRegisterMem = none ∨ usable p.dmaRegisterMem = true →
        (Config.Initialize env c p).2.1.panicked = p.panicked) := by
  obtain ⟨hg, hh, hm⟩ := hr
  have hq := dmaSetup_panicked env c.dmaChannel { p with curHardware := env.hardwareCheck.1 } hm
  have hn := dmaSetup_none env c.dmaChannel { p with curHardware := env.hardwareCheck.1 } hm
  have hf := dmaSetup_flags env c.dmaChannel { p with curHardware := env.hardwareCheck.1 }
  have hpa : (andThen (initializeDMA env { p with curHardware := env.hardwareCheck.1 })
      (enableDMA c.dmaChannel)).1.pwmActive = true := (flags_pwmActive hf).trans hp
  unfold Config.Initialize
  simp only [hi, ha, hg, hh, hn, hd, hpa, Bool.false_eq_true, if_false, if_true, Bool.not_true]
  exact ⟨by first | rfl | trivial, by first | rfl | trivial, hq⟩

/-- After `pwmActive` has been cleared, `Config.Initialize` on a PWM Config does not
return `ErrDriverAlreadyUsed`, when no collaborator returns that error. -/
theorem Initialize_not_rejected (env : Env) (c : Config) (p : Pkg)
    (hd : c.driverType = DriverPWM) (hf : env.foreign) (hp : p.pwmActive = false) :
    (Config.Initialize env c p).2.2 ≠ some .ErrDriverAlreadyUsed := by
  rcases Initialize_cases env c p hd with ⟨_, e⟩ | ⟨_, q, err, e, _, hu⟩ | ⟨_, _, q, e, _⟩
  · rw [e]
    intro h
    cases h
  · rw [e]
    intro h
    have herr : err = .ErrDriverAlreadyUsed := by
      cases h
      rfl
    rcases hu herr with h2 | h2
    · rw [hp] at h2
      cases h2
    · exact hf (some err) h2 (by rw [herr])
  · rw [e]
    intro h
    cases h

/-- Where every `Stop` returns nil: after every sequence of `New`, `SetStrip`,
`Initialize` and `Stop` calls in which every `Stop` returns nil, at most one Config is
initialized; while one
is initialized, `Initialize` on another Config that has an active channel returns
`ErrDriverAlreadyUsed` and leaves it uninitialized (when GPIO initialisation, the
hardware check and the DMA mapping succeed), without a crash when the DMA window is
nil or mapped; and after `Stop` on the initialized
Config, `Initialize` on another Config does not return `ErrDriverAlreadyUsed` (when no
collaborator returns that error). -/
theorem single_initialized_config (calls : List Call)
    (hstop : stopsSucceed Sys.start calls = true) :
    AtMostOneInitialized (Sys.start.run calls)
    ∧ (∀ (i j : Nat) (cj : Config) (env : Env),
        (Sys.start.run calls).initializedAt i = true → j ≠ i →
        (Sys.start.run calls).configs j = some cj →
        cj.channels.any (fun curChannel => curChannel.active) = true → env.reaches →
        ((Sys.start.run calls).step (.Initialize j env)).2 = some .ErrDriverAlreadyUsed
        ∧ ((Sys.start.run calls).step (.Initialize j env)).1.initializedAt j = false
        ∧ ((Sys.start.run calls).pkg.dmaRegisterMem = none
            ∨ usable (Sys.start.run calls).pkg.dmaRegisterMem = true →
          ((Sys.start.run calls).step (.Initialize j env)).1.pkg.panicked
            = (Sys.start.run calls).pkg.panicked))
    ∧ (∀ (i j : Nat) (env1 env2 : Env),
        (Sys.start.run calls).initializedAt i = true → j ≠ i → env2.foreign →
        ((((Sys.start.run calls).step (.Stop i env1)).1).step (.Initialize j env2)).2
          ≠ some .ErrDriverAlreadyUsed) := by
  have hinv := Inv_run calls Sys.start Inv_start hstop
  generalize Sys.start.run calls = s at hinv
  obtain ⟨hA, hB, hC⟩ := hinv
  refine ⟨hB, ?_, ?_⟩
  · intro i j cj env hi hji hcj hact hr
    have hnot : cj.initialized = false := by
      cases hx : cj.initialized with
      | false => rfl
      | true =>
        have hj : s.initializedAt j = true := (initializedAt_same s j cj hcj).trans hx
        exact absurd (hB j i hj hi) hji
    obtain ⟨e1, e2, e3⟩ := Initialize_rejected env cj s.pkg (hA j cj hcj) hnot hact hr (hC i hi)
    unfold Sys.step
    simp only [hcj]
    refine ⟨e2, ?_, e3⟩
    rw [e1]
    exact (initializedAt_same _ j cj (by simp [Sys.put])).trans hnot
  · intro i j env1 env2 hi hji hf
    cases hci : s.configs i with
    | none =>
      unfold Sys.initializedAt at hi
      rw [hci] at hi
      cases hi
    | some ci =>
      have hinit : ci.initialized = true := (initializedAt_same s i ci hci).symm.trans hi
      have hstep : (s.step (.Stop i env1)).1
          = s.put i (Config.Stop env1 ci s.pkg).1 (Config.Stop env1 ci s.pkg).2.1 := by
        unfold Sys.step
        simp only [hci]
      rw [hstep]
      have hpk : (Config.Stop env1 ci s.pkg).2.1.pwmActive = false := by
        rcases Stop_cases env1 ci s.pkg (hA i ci hci) with ⟨h, _⟩ | ⟨_, q, hq, ⟨err, e⟩ | e⟩
        · rw [hinit] at h
          cases h
        · rw [e]
          exact hq
        · rw [e]
          exact hq
      generalize (Config.Stop env1 ci s.pkg).2.1 = q at hpk
      generalize (Config.Stop env1 ci s.pkg).1 = c2
      have hcfg : (s.put i c2 q).configs j = s.configs j := by
        simp [Sys.put, hji]
      unfold Sys.step
      simp only [hcfg]
      cases hcj : s.configs j with
      | none =>
        intro h
        cases h
      | some cj =>
        exact Initialize_not_rejected env2 cj q (hA j cj hcj) hf hpk

/-- An instance: two configured Configs, the first one initialized. -/
theorem single_initialized_config_example :
    AtMostOneInitialized (Sys.start.run bothConfigured)
    ∧ ((Sys.start.run bothConfigured).step (.Initialize 1 Env.ok)).2
        = some .ErrDriverAlreadyUsed
    ∧ ((((Sys.start.run bothConfigured).step (.Stop 0 Env.ok)).1).step (.Initialize 1 Env.ok)).2
        ≠ some .ErrDriverAlreadyUsed :=
  ⟨(single_initialized_config bothConfigured rfl).1,
    ((single_initialized_config bothConfigured rfl).2.1 0 1 _ Env.ok rfl (by decide) rfl rfl
      ⟨rfl, rfl, rfl⟩).1,
    (single_initialized_config bothConfigured rfl).2.2 0 1 Env.ok Env.ok rfl (by decide)
      (by unfold Env.foreign; decide)⟩

/-- The order of the tests in `Initialize`: while a first Config is initialized,
`Initialize` on a second PWM Config on which `SetStrip` was never called returns
`ErrNoActiveChannel`, not `ErrDriverAlreadyUsed`. -/
theorem Initialize_tests_channels_first :
    (Sys.start.run firstRunning).initializedAt 0 = true
    ∧ (∃ c, (Sys.start.run firstRunning).configs 1 = some c ∧ c.driverType = DriverPWM
        ∧ c.initialized = false)
    ∧ ((Sys.start.run firstRunning).step (.Initialize 1 Env.ok)).2
        = some .ErrNoActiveChannel :=
  ⟨rfl, ⟨_, rfl, rfl, rfl⟩, rfl⟩

/-- C16, the code at the failing input: after `New`, `SetStrip`, `Initialize` on a first
Config and `New`, `SetStrip` on a second, exactly the first Config is initialized and
`Initialize` on the second returns `ErrDriverAlreadyUsed`. A `Stop` on the first Config
during which unmapping the PWM window fails returns that error, has cleared `pwmActive`
and leaves the first Config initialized. `Initialize` on the second Config then returns
nil and initializes it: two Configs are initialized at the same time. -/
theorem C16_failed_stop_second_initialize :
    (Sys.start.run bothConfigured).initializedAt 0 = true
    ∧ (Sys.start.run bothConfigured).initializedAt 1 = false
    ∧ ((Sys.start.run bothConfigured).step (.Initialize 1 Env.ok)).2
        = some .ErrDriverAlreadyUsed
    ∧ ((Sys.start.run bothConfigured).step (.Stop 0 Env.unmapFails)).2 = some (.external 1)
    ∧ ((Sys.start.run bothConfigured).step (.Stop 0 Env.unmapFails)).1.initializedAt 0 = true
    ∧ ((Sys.start.run bothConfigured).step (.Stop 0 Env.unmapFails)).1.pkg.pwmActive = false
    ∧ ((((Sys.start.run bothConfigured).step (.Stop 0 Env.unmapFails)).1).step
          (.Initialize 1 Env.ok)).2 = none
    ∧ ((((Sys.start.run bothConfigured).step (.Stop 0 Env.unmapFails)).1).step
          (.Initialize 1 Env.ok)).1.initializedAt 0 = true
    ∧ ((((Sys.start.run bothConfigured).step (.Stop 0 Env.unmapFails)).1).step
          (.Initialize 1 Env.ok)).1.initializedAt 1 = true
    ∧ ¬ AtMostOneInitialized
        ((((Sys.start.run bothConfigured).step (.Stop 0 Env.unmapFails)).1).step
          (.Initialize 1 Env.ok)).1 := by
  refine ⟨rfl, rfl, rfl, rfl, rfl, rfl, rfl, rfl, rfl, ?_⟩
  intro h
  have h01 := h 0 1 rfl rfl
  cases h01

/-! ## Triggering a DMA transfer -/

theorem registerOffsetDmaChannel_eq (ch r : Nat) (hch : ch < 2 ^ 24) (hr : r < 0x100) :
    registerOffsetDmaChannel ch r = ch * 0x100 + r := by
  unfold registerOffsetDmaChannel
  have h1 : ch * 0x100 < 2 ^ 32 := by omega
  rw [Nat.mod_eq_of_lt h1, Nat.mod_eq_of_lt (by omega)]

theorem startDMA_usable (ch a : Nat) (p : Pkg) (hu : usable p.dmaRegisterMem = true) :
    Pkg.startDMA ch a p
      = ({ p with
            dmaRegs :=
              setWord (setWord (setWord (setWord (setWord (setWord p.dmaRegs
                (registerOffsetDmaChannel ch 0x00) 0x80000000)
                (registerOffsetDmaChannel ch 0x00) 0x00000006)
                (registerOffsetDmaChannel ch 0x04) a)
                (registerOffsetDmaChannel ch 0x20) 7)
                (registerOffsetDmaChannel ch 0x00) 0x10FF0000)
                (registerOffsetDmaChannel ch 0x00) 0x10FF0001
            regLog := p.regLog ++
              [ { window := .dma, offset := registerOffsetDmaChannel ch 0x00, value := 0x80000000 },
                { window := .dma, offset := registerOffsetDmaChannel ch 0x00, value := 0x00000006 },
                { window := .dma, offset := registerOffsetDmaChannel ch 0x04, value := a },
                { window := .dma, offset := registerOffsetDmaChannel ch 0x20, value := 7 },
                { window := .dma, offset := registerOffsetDmaChannel ch 0x00, value := 0x10FF0000 },
                { window := .dma, offset := registerOffsetDmaChannel ch 0x00, value := 0x10FF0001 } ] },
          none) := by
  have hprio : registerValueDmaCsWaitOutstandingWrites ||| registerValueDmaCsPanicPriority 15 |||
      registerValueDmaCsPriority 15 = 0x10FF0000 := by decide
  have hact : (0x10FF0000 : Nat) ||| registerValueDmaCsActive = 0x10FF0001 := by decide
  have hie : registerValueDmaCsInt ||| registerValueDmaCsEnd = 0x00000006 := by decide
  have hres : registerValueDmaCsReset = 0x80000000 := by decide
  unfold Pkg.startDMA Pkg.stopDMA
  cases hm : p.dmaRegisterMem with
  | none => rw [hm] at hu; cases hu
  | some m =>
    rw [hm] at hu
    simp only [andThen, Pkg.writeDMA, hm, hu, if_true, hprio, hie, hres, setWord_same, hact,
      registerOffsetDmaCs, registerOffsetDmaConblkAd, registerOffsetDmaDebug, List.append_assoc,
      List.singleton_append, List.cons_append, List.nil_append]

/-- The package-level `startDMA` on a mapped window leaves the DMA registers that the
`startDMA` of the rendering model leaves. -/
theorem startDMA_agrees (ch a : Nat) (p : Pkg) (now : Int)
    (hu : usable p.dmaRegisterMem = true) :
    (Pkg.startDMA ch a p).1.dmaRegs = (startDMA ch a (p.world now)).dmaRegisterMem := by
  have hprio : registerValueDmaCsWaitOutstandingWrites ||| registerValueDmaCsPanicPriority 15 |||
      registerValueDmaCsPriority 15 = 0x10FF0000 := by decide
  have hact : (0x10FF0000 : Nat) ||| registerValueDmaCsActive = 0x10FF0001 := by decide
  have hie : registerValueDmaCsInt ||| registerValueDmaCsEnd = 0x00000006 := by decide
  have hres : registerValueDmaCsReset = 0x80000000 := by decide
  rw [startDMA_usable ch a p hu]
  simp only [startDMA, stopDMA, sleep, Pkg.world, hprio, hie, hres, setWord_same, hact,
    registerOffsetDmaCs, registerOffsetDmaConblkAd, registerOffsetDmaDebug]

/-- C21 (amended): for every channel `ch < 2^24` (so that `uint32(ch*0x100)` does not
wrap) and every bus address `a`, `startDMA(ch, a)` on a mapped DMA window returns nil
and stores, in this order, `0x80000000`, `0x00000006` to the control/status register
(offset `ch*0x100`), `a` to the control block address register (`ch*0x100 + 4`), 7 to
the debug register (`ch*0x100 + 0x20`), then `0x10FF0000` and last `0x10FF0001` to the
control/status register; these three words hold `0x10FF0001`, `a` and 7 afterwards and
every other word of the window keeps its value. -/
theorem C21_start_dma (ch a : Nat) (p : Pkg) (hu : usable p.dmaRegisterMem = true)
    (hch : ch < 2 ^ 24) :
    TriggersChannel ch a p
    ∧ (Pkg.startDMA ch a p).2 = none
    ∧ (Pkg.startDMA ch a p).1.panicked = p.panicked
    ∧ (Pkg.startDMA ch a p).1.dmaRegs (ch * 0x100 + 0x00) = 0x10FF0001
    ∧ (Pkg.startDMA ch a p).1.dmaRegs (ch * 0x100 + 0x04) = a
    ∧ (Pkg.startDMA ch a p).1.dmaRegs (ch * 0x100 + 0x20) = 7 := by
  have e0 := registerOffsetDmaChannel_eq ch 0x00 hch (by decide)
  have e4 := registerOffsetDmaChannel_eq ch 0x04 hch (by decide)
  have e20 := registerOffsetDmaChannel_eq ch 0x20 hch (by decide)
  unfold TriggersChannel
  rw [startDMA_usable ch a p hu, e0, e4, e20]
  refine ⟨⟨rfl, ?_⟩, rfl, rfl, ?_, ?_, ?_⟩
  · intro off h0 h4 h20
    simp only [setWord, if_neg h0, if_neg h4, if_neg h20]
  · simp [setWord]
  · simp [setWord]
  · simp [setWord]

theorem C21_start_dma_witness :
    TriggersChannel 10 0xc0002000 runningPkg
    ∧ (Pkg.startDMA 10 0xc0002000 runningPkg).1.dmaRegs 0xa00 = 0x10FF0001 :=
  ⟨(C21_start_dma 10 0xc0002000 runningPkg rfl (by decide)).1,
    (C21_start_dma 10 0xc0002000 runningPkg rfl (by decide)).2.2.2.1⟩

/-- C21 (counterexample): for `ch = 2^24` the product `ch*0x100` wraps to 0 in 32
bits: `startDMA` stores to the offsets 0, 4 and 0x20, the registers of channel 0, not
to the offsets `ch*0x100 + r`. -/
theorem C21_counterexample :
    ¬ TriggersChannel 16777216 0xc0002000 runningPkg
    ∧ (Pkg.startDMA 16777216 0xc0002000 runningPkg).1.regLog
        = runningPkg.regLog ++ dmaTriggerStores 0 0xc0002000 := by
  have h : (Pkg.startDMA 16777216 0xc0002000 runningPkg).1.regLog
      = runningPkg.regLog ++ dmaTriggerStores 0 0xc0002000 := rfl
  refine ⟨?_, h⟩
  rintro ⟨h1, _⟩
  rw [h] at h1
  have h2 := List.append_cancel_left h1
  exact absurd h2 (by decide)

/-! ## The PWM control register after initialisation -/

theorem writePWM_pwmRegs (p : Pkg) (off val : Nat) (h : usable p.pwmRegisterMem = true) :
    (p.writePWM off val).pwmRegs = setWord p.pwmRegs off val := by
  unfold Pkg.writePWM
  rw [if_pos h]

theorem writePWM_pwmRegisterMem (p : Pkg) (off val : Nat) :
    (p.writePWM off val).pwmRegisterMem = p.pwmRegisterMem :=
  vars_pwmRegisterMem (writePWM_vars p off val)

theorem writePWM_always2 (p : Pkg) (off val : Nat) :
    (p.writePWM off val).PWMAlwaysUseTwoChannel = p.PWMAlwaysUseTwoChannel :=
  (core_fields (vars_core (writePWM_vars p off val))).2.1

theorem crashIf_always2 (b : Bool) (p : Pkg) :
    (p.crashIf b).PWMAlwaysUseTwoChannel = p.PWMAlwaysUseTwoChannel :=
  (core_fields (vars_core (crashIf_vars b p))).2.1

theorem crashIf_pwmRegs (b : Bool) (p : Pkg) : (p.crashIf b).pwmRegs = p.pwmRegs := by
  cases b <;> rfl

/-- The control register after the block of `initializePWM` that programs the PWM
registers, for a mapped PWM window. -/
theorem configurePWM_ctl (channels : List ledChannel) (p : Pkg)
    (h : usable p.pwmRegisterMem = true) :
    (configurePWM channels p).pwmRegs registerOffsetPWMCtl
      = ctlFinal p.PWMAlwaysUseTwoChannel (channels.getD 0 ledChannel.zero)
          (channels.getD 1 ledChannel.zero) := by
  unfold configurePWM ctlFinal
  cases hb0 : ((channels.getD 0 ledChannel.zero).active || p.PWMAlwaysUseTwoChannel) <;>
  cases hb1 : ((channels.getD 1 ledChannel.zero).active || p.PWMAlwaysUseTwoChannel) <;>
    simp only [writePWM_always2, crashIf_always2, writePWM_pwmRegs, writePWM_pwmRegisterMem,
      crashIf_pwmRegisterMem, crashIf_pwmRegs, h, setWord_same, hb0, hb1, if_true, if_false,
      Bool.false_eq_true]

theorem initializeClock_pwmRegisterMem (env : Env) (p : Pkg) :
    (initializeClock env p).1.pwmRegisterMem = p.pwmRegisterMem := by
  unfold initializeClock
  split
  · rfl
  · split <;> rfl

theorem mapPWMWindow_usable (env : Env) (p : Pkg) (h : (mapPWMWindow env p).2 = none)
    (hw : p.pwmRegisterMem = none ∨ usable p.pwmRegisterMem = true) :
    usable (mapPWMWindow env p).1.pwmRegisterMem = true := by
  unfold mapPWMWindow at h ⊢
  cases hm : p.pwmRegisterMem with
  | some m =>
    rcases hw with hw | hw
    · rw [hm] at hw; cases hw
    · rw [hm] at hw
      simp only
      rw [hm]
      exact hw
  | none =>
    rw [hm] at h
    simp only at h ⊢
    cases he : env.mapPWM with
    | some err => rw [he] at h; cases h
    | none => rfl

theorem unmapOldData_pwmRegs (env : Env) (p : Pkg) :
    (unmapOldData env p).1.pwmRegs = p.pwmRegs := by
  unfold unmapOldData
  split
  · rfl
  · split <;> rfl

theorem allocData_pwmRegs (env : Env) (sz : Nat) (p : Pkg) :
    (allocData env sz p).1.pwmRegs = p.pwmRegs := by
  unfold allocData
  split <;> exact crashIf_pwmRegs _ _

theorem writeCB_pwmRegs (p : Pkg) (off val : Nat) : (p.writeCB off val).pwmRegs = p.pwmRegs := by
  unfold Pkg.writeCB
  split <;> rfl

theorem writeDmaCBPWM_pwmRegs (t : Nat) (p : Pkg) : (writeDmaCBPWM t p).pwmRegs = p.pwmRegs := by
  unfold writeDmaCBPWM
  simp only [writeCB_pwmRegs, crashIf_pwmRegs]

theorem initializeDmaCBPWM_pwmRegs (env : Env) (t : Nat) (p : Pkg) :
    (initializeDmaCBPWM env t p).1.pwmRegs = p.pwmRegs := by
  unfold initializeDmaCBPWM
  split
  · rfl
  · split
    · exact crashIf_pwmRegs _ p
    · exact (writeDmaCBPWM_pwmRegs _ _).trans (crashIf_pwmRegs _ p)

/-- The PWM control register after a successful `initializePWM` that found the PWM
window nil or mapped. -/
theorem initializePWM_ctl (env : Env) (channels : List ledChannel) (f : Nat) (p : Pkg)
    (h : (initializePWM env channels f p).2 = none)
    (hw : p.pwmRegisterMem = none ∨ usable p.pwmRegisterMem = true) :
    (initializePWM env channels f p).1.pwmRegs registerOffsetPWMCtl
      = ctlFinal p.PWMAlwaysUseTwoChannel (channels.getD 0 ledChannel.zero)
          (channels.getD 1 ledChannel.zero) := by
  unfold initializePWM at h ⊢
  obtain ⟨_, e1⟩ := andThen_none _ _ h
  rw [e1] at h ⊢
  have c1 := initializeClock_core env p
  have w1 := initializeClock_pwmRegisterMem env p
  generalize (initializeClock env p).1 = p1 at *
  obtain ⟨_, e2⟩ := andThen_none _ _ h
  rw [e2] at h ⊢
  have c2 := vars_core (clockSetupPwm_vars f p1)
  have w2 := vars_pwmRegisterMem (clockSetupPwm_vars f p1)
  generalize (clockSetupPwm f p1).1 = p2 at *
  obtain ⟨h3, e3⟩ := andThen_none _ _ h
  rw [e3] at h ⊢
  have c3 := mapPWMWindow_core env p2
  have u3 := mapPWMWindow_usable env p2 h3 (by rw [w2, w1]; exact hw)
  generalize (mapPWMWindow env p2).1 = p3 at *
  have ha : p3.PWMAlwaysUseTwoChannel = p.PWMAlwaysUseTwoChannel :=
    (core_fields (c3.trans (c2.trans c1))).2.1
  obtain ⟨_, e4⟩ := andThen_none _ _ h
  rw [e4] at h ⊢
  have r4 : (unmapOldData env (configurePWM channels p3)).1.pwmRegs registerOffsetPWMCtl
      = ctlFinal p.PWMAlwaysUseTwoChannel (channels.getD 0 ledChannel.zero)
          (channels.getD 1 ledChannel.zero) := by
    rw [unmapOldData_pwmRegs, configurePWM_ctl channels p3 u3, ha]
  generalize (unmapOldData env (configurePWM channels p3)).1 = p4 at *
  obtain ⟨_, e5⟩ := andThen_none _ _ h
  rw [e5]
  rw [initializeDmaCBPWM_pwmRegs, allocData_pwmRegs]
  exact r4

/-- The bits of the control value `ctlFinal`. -/
theorem ctlFinal_bits (always2 : Bool) (ch0 ch1 : ledChannel) :
    (ctlFinal always2 ch0 ch1).testBit 5 = (ch0.active || always2)
    ∧ (ctlFinal always2 ch0 ch1).testBit 1 = (ch0.active || always2)
    ∧ (ctlFinal always2 ch0 ch1).testBit 0 = (ch0.active || always2)
    ∧ (ctlFinal always2 ch0 ch1).testBit 13 = (ch1.active || always2)
    ∧ (ctlFinal always2 ch0 ch1).testBit 9 = (ch1.active || always2)
    ∧ (ctlFinal always2 ch0 ch1).testBit 8 = (ch1.active || always2)
    ∧ (ctlFinal always2 ch0 ch1).testBit 6 = false
    ∧ (ctlFinal always2 ch0 ch1).testBit 12 = false
    ∧ (ctlFinal always2 ch0 ch1).testBit 4
        = (((ch0.active || always2) && ch0.invert) || ((ch1.active || always2) && ch1.invert)) := by
  unfold ctlFinal ctlSettings
  cases always2 <;> cases ch0.active <;> cases ch0.invert <;> cases ch1.active <;>
    cases ch1.invert <;> decide

/-- C22: `initializePWM` on two active channels of which the second has the invert
flag returns nil and leaves `0x2333` in the PWM control register: bit 12, the polarity
bit of sub-channel 1, is clear, and bit 4, the polarity bit of sub-channel 0, is set
although channel 0 has no invert flag. For no configuration does the stored control
value have bit 12 set. -/
theorem C22_second_channel_polarity :
    (initializePWM Env.ok invertedSecond 800000 (clockReady 19200000)).2 = none
    ∧ (initializePWM Env.ok invertedSecond 800000 (clockReady 19200000)).1.panicked = false
    ∧ (initializePWM Env.ok invertedSecond 800000 (clockReady 19200000)).1.pwmRegs
        registerOffsetPWMCtl = 0x2333
    ∧ (0x2333 : Nat).testBit 12 = false
    ∧ (0x2333 : Nat).testBit 4 = true
    ∧ (invertedSecond.getD 0 ledChannel.zero).invert = false
    ∧ (invertedSecond.getD 1 ledChannel.zero).invert = true
    ∧ (∀ (always2 : Bool) (ch0 ch1 : ledChannel), (ctlFinal always2 ch0 ch1).testBit 12 = false) :=
  ⟨rfl, rfl, rfl, by decide, by decide, rfl, rfl,
    fun always2 ch0 ch1 => (ctlFinal_bits always2 ch0 ch1).2.2.2.2.2.2.2.1⟩

/-- C28: after a successful `initializePWM` on the channels `ch0`, `ch1` (PWM window
nil or mapped before the call), the FIFO-use, serializer-mode and enable bits of
sub-channel 0 (bits 5, 1, 0) in the PWM control register are all set if channel 0 is
active or `PWMAlwaysUseTwoChannel` is set and all clear otherwise, likewise bits 13, 9
and 8 for sub-channel 1, and the clear-FIFO bit 6 is clear. -/
theorem C28_enable_bits (env : Env) (ch0 ch1 : ledChannel) (frequency : Nat) (p : Pkg)
    (hok : (initializePWM env [ch0, ch1] frequency p).2 = none)
    (hw : p.pwmRegisterMem = none ∨ usable p.pwmRegisterMem = true) :
    ((initializePWM env [ch0, ch1] frequency p).1.pwmRegs registerOffsetPWMCtl).testBit 5
        = (ch0.active || p.PWMAlwaysUseTwoChannel)
    ∧ ((initializePWM env [ch0, ch1] frequency p).1.pwmRegs registerOffsetPWMCtl).testBit 1
        = (ch0.active || p.PWMAlwaysUseTwoChannel)
    ∧ ((initializePWM env [ch0, ch1] frequency p).1.pwmRegs registerOffsetPWMCtl).testBit 0
        = (ch0.active || p.PWMAlwaysUseTwoChannel)
    ∧ ((initializePWM env [ch0, ch1] frequency p).1.pwmRegs registerOffsetPWMCtl).testBit 13
        = (ch1.active || p.PWMAlwaysUseTwoChannel)
    ∧ ((initializePWM env [ch0, ch1] frequency p).1.pwmRegs registerOffsetPWMCtl).testBit 9
        = (ch1.active || p.PWMAlwaysUseTwoChannel)
    ∧ ((initializePWM env [ch0, ch1] frequency p).1.pwmRegs registerOffsetPWMCtl).testBit 8
        = (ch1.active || p.PWMAlwaysUseTwoChannel)
    ∧ ((initializePWM env [ch0, ch1] frequency p).1.pwmRegs registerOffsetPWMCtl).testBit 6
        = false := by
  rw [initializePWM_ctl env [ch0, ch1] frequency p hok hw]
  obtain ⟨b5, b1, b0, b13, b9, b8, b6, _, _⟩ :=
    ctlFinal_bits p.PWMAlwaysUseTwoChannel ch0 ch1
  exact ⟨b5, b1, b0, b13, b9, b8, b6⟩

theorem C28_enable_bits_witness :
    ((initializePWM Env.ok [rgbChannel (constStrip 10 0), ledChannel.zero] 800000
        (clockReady 19200000)).1.pwmRegs registerOffsetPWMCtl).testBit 0 = true
    ∧ ((initializePWM Env.ok [rgbChannel (constStrip 10 0), ledChannel.zero] 800000
        (clockReady 19200000)).1.pwmRegs registerOffsetPWMCtl).testBit 8 = false :=
  ⟨(C28_enable_bits Env.ok (rgbChannel (constStrip 10 0)) ledChannel.zero 800000
      (clockReady 19200000) rfl (Or.inl rfl)).2.2.1,
    (C28_enable_bits Env.ok (rgbChannel (constStrip 10 0)) ledChannel.zero 800000
      (clockReady 19200000) rfl (Or.inl rfl)).2.2.2.2.2.1⟩

/-! ## The throttle of Render -/

theorem sliceOf_nat (xs : List Nat) (lo hi : Nat) (h1 : lo ≤ hi) (h2 : hi ≤ xs.length) :
    sliceOf xs (lo : Int) (hi : Int) = some ((xs.drop lo).take (hi - lo)) := by
  unfold sliceOf
  have hc : (0 : Int) ≤ lo ∧ (lo : Int) ≤ hi ∧ (hi : Int) ≤ xs.length := by omega
  rw [if_pos hc]
  have e1 : (lo : Int).toNat = lo := Int.toNat_ofNat lo
  have e2 : ((hi : Int) - (lo : Int)).toNat = hi - lo := by omega
  rw [e1, e2]

theorem tmod_cast (s n : Nat) : Int.tmod (s : Int) (n : Int) = ((s % n : Nat) : Int) :=
  (Int.ofNat_tmod s n).symm

/-- The shift `ShiftRight` performs on a strip that holds `count` LEDs: the list is
rotated. -/
theorem ShiftRight_rotate (l : LEDStrip) (s : Nat) (hwf : (l.leds.length : Int) = l.count)
    (hN : 0 < l.leds.length) (hs : 0 < s) (hmod : s % l.leds.length ≠ 0) :
    l.ShiftRight (s : Int)
      = some { l with leds := l.leds.rotate (l.leds.length - s % l.leds.length) } := by
  have ha : s % l.leds.length < l.leds.length := Nat.mod_lt _ hN
  unfold LEDStrip.ShiftRight
  rw [← hwf, tmod_cast]
  have c1 : ¬ ((s : Int) ≤ 0) := by omega
  have c2 : ¬ ((l.leds.length : Int) = 0) := by omega
  have c3 : ¬ (((s % l.leds.length : Nat) : Int) = 0) := by omega
  rw [if_neg c1, if_neg c2, if_neg c3]
  simp only
  have e : (l.leds.length : Int) - ((s % l.leds.length : Nat) : Int)
      = ((l.leds.length - s % l.leds.length : Nat) : Int) := by omega
  rw [e]
  have z : (0 : Int) = ((0 : Nat) : Int) := rfl
  rw [sliceOf_nat l.leds _ _ (Nat.sub_le _ _) (Nat.le_refl _), z,
    sliceOf_nat l.leds 0 _ (Nat.zero_le _) (Nat.sub_le _ _)]
  simp only
  rw [List.rotate_eq_drop_append_take (Nat.sub_le _ _)]
  rw [List.take_of_length_le (by rw [List.length_drop]), List.drop_zero, Nat.sub_zero]

theorem shifted_index (k s n : Nat) (hn : 0 < n) :
    ((k : Int) - (s : Int)) % (n : Int) = (((k + (n - s % n)) % n : Nat) : Int) := by
  have ha : s % n < n := Nat.mod_lt _ hn
  have hs : (s : Int) = (n : Int) * ((s / n : Nat) : Int) + ((s % n : Nat) : Int) := by
    have := Nat.div_add_mod s n
    exact_mod_cast this.symm
  have e : (((k + (n - s % n)) : Nat) : Int)
      = ((k : Int) - (s : Int)) + (n : Int) * (1 + ((s / n : Nat) : Int)) := by
    have h1 : (((k + (n - s % n)) : Nat) : Int) = (k : Int) + (n : Int) - ((s % n : Nat) : Int) := by
      omega
    rw [h1, hs]
    ring
  rw [Int.natCast_mod, e, Int.add_mul_emod_self_left]

theorem UInt32_inside (l : LEDStrip) (k : Nat) (hk : (k : Int) < l.count) :
    l.UInt32 (k : Int) = l.leds[k]? := by
  unfold LEDStrip.UInt32 LEDStrip.elem
  have c1 : ¬ ((k : Int) < 0 ∨ (k : Int) ≥ l.count) := by omega
  have c2 : ¬ ((k : Int) < 0) := by omega
  rw [if_neg c1, if_neg c2, Int.toNat_ofNat]

/-- C25: on a strip that holds `count = n >= 1` LEDs, `ShiftRight(s)` with `s > 0`
returns without a fault, the strip still holds `n` LEDs, and for every position `i` in
`[0, n)` the colour at `i` is the colour that was at position `(i - s) mod n`; for
`s <= 0` or `s` a multiple of `n` the strip is unchanged. -/
theorem C25_shift_right (l : LEDStrip) (s : Int) (hwf : (l.leds.length : Int) = l.count)
    (hn : 1 ≤ l.count) :
    ((s ≤ 0 ∨ s % l.count = 0) → l.ShiftRight s = some l)
    ∧ (0 < s → ∃ l2, l.ShiftRight s = some l2 ∧ l2.count = l.count
        ∧ (l2.leds.length : Int) = l.count
        ∧ ∀ i, 0 ≤ i → i < l.count →
            l2.UInt32 i = l.UInt32 ((i - s) % l.count) ∧ (l2.UInt32 i).isSome = true) := by
  have hN : 0 < l.leds.length := by omega
  have hA : (s ≤ 0 ∨ s % l.count = 0) → l.ShiftRight s = some l := by
    intro h
    unfold LEDStrip.ShiftRight
    by_cases h0 : s ≤ 0
    · rw [if_pos h0]
    · rw [if_neg h0]
      have hc : ¬ l.count = 0 := by omega
      rw [if_neg hc]
      rcases h with h | h
      · exact absurd h h0
      · have e : Int.tmod s l.count = s % l.count := Int.tmod_eq_emod (by omega) (by omega)
        rw [e, if_pos h]
  refine ⟨hA, ?_⟩
  intro hs
  obtain ⟨s2, rfl⟩ := Int.eq_ofNat_of_zero_le (Int.le_of_lt hs)
  have hs2 : 0 < s2 := by omega
  have hsome : ∀ k, k < l.leds.length → (l.leds[k]?).isSome = true := by
    intro k hk
    rw [List.getElem?_eq_getElem hk]
    rfl
  by_cases hmod : s2 % l.leds.length = 0
  · have hm : (s2 : Int) % l.count = 0 := by
      rw [← hwf, ← Int.natCast_mod, hmod]
      rfl
    refine ⟨l, hA (Or.inr hm), rfl, hwf, ?_⟩
    intro i hi0 hilt
    obtain ⟨k, rfl⟩ := Int.eq_ofNat_of_zero_le hi0
    have hk : k < l.leds.length := by omega
    have e := shifted_index k s2 l.leds.length hN
    rw [hmod, Nat.sub_zero, Nat.add_mod_right, Nat.mod_eq_of_lt hk] at e
    rw [← hwf, e, UInt32_inside l k hilt]
    exact ⟨rfl, hsome k hk⟩
  · refine ⟨_, ShiftRight_rotate l s2 hwf hN hs2 hmod, rfl, ?_, ?_⟩
    · simp only [List.length_rotate]
      exact hwf
    · intro i hi0 hilt
      obtain ⟨k, rfl⟩ := Int.eq_ofNat_of_zero_le hi0
      have hk : k < l.leds.length := by omega
      have hj : (k + (l.leds.length - s2 % l.leds.length)) % l.leds.length < l.leds.length :=
        Nat.mod_lt _ hN
      have e1 := UInt32_inside
        { l with leds := l.leds.rotate (l.leds.length - s2 % l.leds.length) } k hilt
      have e2 := UInt32_inside l ((k + (l.leds.length - s2 % l.leds.length)) % l.leds.length)
        (by rw [← hwf]; exact_mod_cast hj)
      have e3 : ((k : Int) - (s2 : Int)) % l.count
          = (((k + (l.leds.length - s2 % l.leds.length)) % l.leds.length : Nat) : Int) := by
        rw [← hwf]
        exact shifted_index k s2 l.leds.length hN
      rw [e3, e2, e1]
      simp only
      rw [List.getElem?_rotate hk]
      exact ⟨rfl, hsome _ hj⟩

theorem C25_shift_right_witness :
    ∃ l2, strip123.ShiftRight 1 = some l2 ∧ l2.count = strip123.count
      ∧ (l2.leds.length : Int) = strip123.count
      ∧ ∀ i, 0 ≤ i → i < strip123.count →
          l2.UInt32 i = strip123.UInt32 ((i - 1) % strip123.count)
          ∧ (l2.UInt32 i).isSome = true :=
  (C25_shift_right strip123 1 rfl (by decide)).2 (by decide)

/-- What `ShiftLeft` leaves on a strip that holds `count` LEDs: the LEDs after
position `shift % count`, then the LEDs before it. -/
theorem ShiftLeft_eq (l : LEDStrip) (s : Nat) (hwf : (l.leds.length : Int) = l.count)
    (hN : 0 < l.leds.length) (hs : 0 < s) (hmod : s % l.leds.length ≠ 0) :
    l.ShiftLeft (s : Int)
      = some { l with
          leds := l.leds.drop (s % l.leds.length + 1) ++ l.leds.take (s % l.leds.length) } := by
  have ha : s % l.leds.length < l.leds.length := Nat.mod_lt _ hN
  unfold LEDStrip.ShiftLeft
  rw [← hwf, tmod_cast]
  have c1 : ¬ ((s : Int) ≤ 0) := by omega
  have c2 : ¬ ((l.leds.length : Int) = 0) := by omega
  have c3 : ¬ (((s % l.leds.length : Nat) : Int) = 0) := by omega
  rw [if_neg c1, if_neg c2, if_neg c3]
  simp only
  have e : ((s % l.leds.length : Nat) : Int) + 1 = ((s % l.leds.length + 1 : Nat) : Int) := by
    omega
  rw [e]
  have z : (0 : Int) = ((0 : Nat) : Int) := rfl
  rw [sliceOf_nat l.leds _ _ (by omega) (Nat.le_refl _), z,
    sliceOf_nat l.leds 0 _ (Nat.zero_le _) (Nat.le_of_lt ha)]
  simp only
  rw [List.take_of_length_le (by rw [List.length_drop]), List.drop_zero, Nat.sub_zero]

/-- C24: `ShiftLeft(1)` on the strip 1, 2, 3 leaves the two LEDs 3, 1 with `count`
still 3: position 0 shows 3 where the rotation has 2, and `UInt32(2)` is an index out
of range. On every strip that holds `count >= 1` LEDs, a `ShiftLeft(s)` with `s > 0`
not a multiple of `count` leaves one LED less. -/
theorem C24_shift_left_drops_led :
    (strip123.ShiftLeft 1).map (fun l => l.leds) = some [3, 1]
    ∧ (strip123.ShiftLeft 1).map (fun l => l.count) = some 3
    ∧ (strip123.ShiftLeft 1).bind (fun l => l.UInt32 0) = some 3
    ∧ strip123.UInt32 ((0 + 1) % 3) = some 2
    ∧ (strip123.ShiftLeft 1).bind (fun l => l.UInt32 2) = none
    ∧ (∀ (l : LEDStrip) (s : Int), (l.leds.length : Int) = l.count → 1 ≤ l.count → 0 < s →
        s % l.count ≠ 0 →
        ∃ l2, l.ShiftLeft s = some l2 ∧ l2.leds.length + 1 = l.leds.length
          ∧ l2.count = l.count) := by
  refine ⟨rfl, rfl, rfl, rfl, rfl, ?_⟩
  intro l s hwf hn hs hmod
  obtain ⟨s2, rfl⟩ := Int.eq_ofNat_of_zero_le (Int.le_of_lt hs)
  have hN : 0 < l.leds.length := by omega
  have hm : s2 % l.leds.length ≠ 0 := by
    intro h
    apply hmod
    rw [← hwf, ← Int.natCast_mod, h]
    rfl
  have ha : s2 % l.leds.length < l.leds.length := Nat.mod_lt _ hN
  refine ⟨_, ShiftLeft_eq l s2 hwf hN (by omega) hm, ?_, rfl⟩
  simp only [List.length_append, List.length_drop, List.length_take]
  omega

/-! ## Brightness, failed initialisation, rendering without initialisation -/

/-- C26: `SetBrightness(256, 0)` on a fresh PWM Config returns nil and stores 256 in
the brightness field of channel 0; `renderPWM` then scales with
`(256 & 0xff) + 1 = 1`. For every PWM Config, valid index and argument `b`, the
brightness field holds `b` after the call. -/
theorem C26_brightness_not_clamped :
    (brightConfig.SetBrightness 256 0).2 = none
    ∧ ((brightConfig.SetBrightness 256 0).1.channels.getD 0 ledChannel.zero).brightness = 256
    ∧ ((brightConfig.SetBrightness 256 0).1.channels.getD 0 ledChannel.zero).scale = 1
    ∧ (∀ (c : Config) (b idx : Nat), c.driverType = DriverPWM → c.channels.length = 2 →
        idx < 2 →
        (c.SetBrightness b idx).2 = none
        ∧ ((c.SetBrightness b idx).1.channels.getD idx ledChannel.zero).brightness = b) := by
  refine ⟨rfl, rfl, by decide, ?_⟩
  intro c b idx hd hlen hidx
  have hI1 : ¬ ((idx : Int) < 0) := by omega
  have hI2 : ¬ ((idx : Int) ≥ 2) := by omega
  unfold Config.SetBrightness
  simp only [hI1, hI2, hd, if_true, if_false, Int.toNat_ofNat]
  refine ⟨trivial, ?_⟩
  rw [List.getD_eq_getElem _ _ (by simp [hlen, hidx])]
  simp

/-- Whatever `Config.Initialize` returns on an uninitialized PWM Config with an active
channel, `pwmActive` is set afterwards, when the collaborators let it reach the driver
switch. -/
theorem Initialize_sets_active (env : Env) (c : Config) (p : Pkg)
    (hd : c.driverType = DriverPWM) (hi : c.initialized = false)
    (ha : c.channels.any (fun curChannel => curChannel.active) = true) (hr : env.reaches) :
    (Config.Initialize env c p).2.1.pwmActive = true := by
  obtain ⟨hg, hh, hm⟩ := hr
  have hn := dmaSetup_none env c.dmaChannel { p with curHardware := env.hardwareCheck.1 } hm
  unfold Config.Initialize
  simp only [hi, ha, hg, hh, hn, hd, Bool.false_eq_true, if_false, if_true, Bool.not_true]
  generalize andThen (initializeDMA env { p with curHardware := env.hardwareCheck.1 })
    (enableDMA c.dmaChannel) = r
  cases hact : r.1.pwmActive with
  | true =>
    simp only [if_true]
    exact hact
  | false =>
    simp only [Bool.false_eq_true, if_false]
    have hq := initializePWM_flags env c.channels c.frequency { r.1 with pwmActive := true }
    generalize initializePWM env c.channels c.frequency { r.1 with pwmActive := true } = q at hq
    have hqa : q.1.pwmActive = true := flags_pwmActive hq
    split <;> exact hqa

/-- C27: `Config.Initialize` on a 10-pixel PWM Config at program start, with the
mapping of the PWM window failing, returns that error, leaves the Config
uninitialized and `pwmActive` set. `Stop` on the Config does nothing, and a later
`Initialize` on the same or on another PWM Config, with every collaborator succeeding,
returns `ErrDriverAlreadyUsed`. In general, after any error return of `Initialize`
that got as far as the driver switch, `Initialize` on every uninitialized PWM Config
with an active channel returns `ErrDriverAlreadyUsed`. -/
theorem C27_failed_initialize_blocks_retry :
    (Config.Initialize Env.mapPWMFails (stripConfig 10 10) Pkg.start).2.2 = some (.external 2)
    ∧ (Config.Initialize Env.mapPWMFails (stripConfig 10 10) Pkg.start).1.initialized = false
    ∧ (Config.Initialize Env.mapPWMFails (stripConfig 10 10) Pkg.start).2.1.pwmActive = true
    ∧ (Config.Stop Env.ok (Config.Initialize Env.mapPWMFails (stripConfig 10 10) Pkg.start).1
        (Config.Initialize Env.mapPWMFails (stripConfig 10 10) Pkg.start).2.1).2.1.pwmActive
        = true
    ∧ (Config.Initialize Env.ok
        (Config.Initialize Env.mapPWMFails (stripConfig 10 10) Pkg.start).1
        (Config.Initialize Env.mapPWMFails (stripConfig 10 10) Pkg.start).2.1).2.2
        = some .ErrDriverAlreadyUsed
    ∧ (Config.Initialize Env.ok (stripConfig 20 5)
        (Config.Initialize Env.mapPWMFails (stripConfig 10 10) Pkg.start).2.1).2.2
        = some .ErrDriverAlreadyUsed
    ∧ (∀ (env1 env2 : Env) (c1 c2 : Config) (p : Pkg),
        c1.driverType = DriverPWM → c1.initialized = false →
        c1.channels.any (fun curChannel => curChannel.active) = true → env1.reaches →
        c2.driverType = DriverPWM → c2.initialized = false →
        c2.channels.any (fun curChannel => curChannel.active) = true → env2.reaches →
        (Config.Initialize env2 c2 (Config.Initialize env1 c1 p).2.1).2.2
          = some .ErrDriverAlreadyUsed) := by
  refine ⟨rfl, rfl, rfl, rfl, rfl, rfl, ?_⟩
  intro env1 env2 c1 c2 p hd1 hi1 ha1 hr1 hd2 hi2 ha2 hr2
  exact (Initialize_rejected env2 c2 _ hd2 hi2 ha2 hr2
    (Initialize_sets_active env1 c1 p hd1 hi1 ha1 hr1)).2.1

theorem writeDMA_panicked (p : Pkg) (off val : Nat) (h : p.panicked = true) :
    (p.writeDMA off val).panicked = true := by
  unfold Pkg.writeDMA
  split
  · exact h
  · rfl

theorem startDMA_panicked (ch a : Nat) (p : Pkg) (h : p.panicked = true) :
    (Pkg.startDMA ch a p).2 = none ∧ (Pkg.startDMA ch a p).1.panicked = true := by
  unfold Pkg.startDMA Pkg.stopDMA andThen
  cases p.dmaRegisterMem with
  | none =>
    simp only
    exact ⟨trivial, writeDMA_panicked _ _ _ (writeDMA_panicked _ _ _ (writeDMA_panicked _ _ _
      (writeDMA_panicked _ _ _ (writeDMA_panicked _ _ _ h))))⟩
  | some m =>
    simp only
    exact ⟨trivial, writeDMA_panicked _ _ _ (writeDMA_panicked _ _ _ (writeDMA_panicked _ _ _
      (writeDMA_panicked _ _ _ (writeDMA_panicked _ _ _ (writeDMA_panicked _ _ _ h)))))⟩

/-- With a nil control block variable `Config.Render` on a PWM Config, for every valid
strip index, runs into the call `dmaCBRegisterMemPWM.BusAddr()` on nil. -/
theorem RenderPkg_nil_cb (c : Config) (stripIndex : Int) (p : Pkg)
    (hd : c.driverType = DriverPWM) (h1 : -1 ≤ stripIndex) (h2 : stripIndex < 2)
    (hcb : p.dmaCBRegisterMemPWM = none) :
    ∃ q, c.RenderPkg stripIndex p = .ok q ∧ q.panicked = true := by
  unfold Config.RenderPkg
  have n1 : ¬ stripIndex < -1 := by omega
  have n2 : ¬ stripIndex ≥ 2 := by omega
  simp only [n1, n2, hd, if_true, if_false]
  have hr : (Pkg.renderPWM (c.rendered stripIndex) c.frequency p).2.dmaCBRegisterMemPWM = none := by
    unfold Pkg.renderPWM
    simp only
    exact ((core_fields (vars_core (crashIf_vars _ p))).2.2.2).trans hcb
  generalize (Pkg.renderPWM (c.rendered stripIndex) c.frequency p).2 = r at hr
  rw [hr]
  have hp : (r.crashIf (none : Option MemMap).isNone).panicked = true := rfl
  obtain ⟨e1, e2⟩ := startDMA_panicked c.dmaChannel
    (busAddrOf (r.crashIf (none : Option MemMap).isNone).dmaCBRegisterMemPWM) _ hp
  rw [e1]
  exact ⟨_, rfl, e2⟩

/-- C29: `Render(-1)` on a PWM Config with a 10-pixel strip that was never initialized
stores through the nil data buffer and calls `BusAddr()` on the nil control block;
after `Initialize` and a successful `Stop` the data buffer and the control block are
nil again and `Render` does the same. In general `Render` on a PWM Config with a valid
strip index crashes whenever the control block variable is nil. -/
theorem C29_render_without_initialize :
    Pkg.start.pwmDataMem = none ∧ Pkg.start.dmaCBRegisterMemPWM = none
    ∧ Pkg.start.dmaRegisterMem = none
    ∧ (∃ q, (stripConfig 10 10).RenderPkg (-1) Pkg.start = .ok q ∧ q.panicked = true)
    ∧ stoppedPkg.panicked = false ∧ stoppedPkg.pwmDataMem = none
    ∧ stoppedPkg.dmaCBRegisterMemPWM = none
    ∧ (∃ q, (stripConfig 10 10).RenderPkg 0 stoppedPkg = .ok q ∧ q.panicked = true)
    ∧ (∀ (c : Config) (stripIndex : Int) (p : Pkg), c.driverType = DriverPWM →
        -1 ≤ stripIndex → stripIndex < 2 → p.dmaCBRegisterMemPWM = none →
        ∃ q, c.RenderPkg stripIndex p = .ok q ∧ q.panicked = true) :=
  ⟨rfl, rfl, rfl,
    RenderPkg_nil_cb (stripConfig 10 10) (-1) Pkg.start rfl (by decide) (by decide) rfl,
    rfl, rfl, rfl,
    RenderPkg_nil_cb (stripConfig 10 10) 0 stoppedPkg rfl (by decide) (by decide) rfl,
    RenderPkg_nil_cb⟩

/-- C30: when the mapping fails inside `initializeClock` (or `initializeDMA`) the call
returns the error but the window variable is already non-nil: a second call, with a
mapping that would succeed, returns nil at once and leaves the window unmapped. This
holds for every state with a nil window variable and every failing mapping. After a
successful `cleanupClock` / `cleanupDMA` the variable is nil and the next initialize
maps again. -/
theorem C30_failed_map_keeps_reference :
    (initializeClock Env.mapWindowsFail Pkg.start).2 = some (.external 3)
    ∧ (initializeClock Env.mapWindowsFail Pkg.start).1.clockRegisterMem
        = some { size := 4096, mapped := false, busAddr := 0 }
    ∧ (initializeClock Env.ok (initializeClock Env.mapWindowsFail Pkg.start).1).2 = none
    ∧ usable (initializeClock Env.ok
        (initializeClock Env.mapWindowsFail Pkg.start).1).1.clockRegisterMem = false
    ∧ (initializeDMA Env.mapWindowsFail Pkg.start).2 = some (.external 4)
    ∧ (initializeDMA Env.ok (initializeDMA Env.mapWindowsFail Pkg.start).1).2 = none
    ∧ usable (initializeDMA Env.ok
        (initializeDMA Env.mapWindowsFail Pkg.start).1).1.dmaRegisterMem = false
    ∧ (∀ (env1 env2 : Env) (p : Pkg) (e : Error), p.clockRegisterMem = none →
        env1.mapClock = some e →
        (initializeClock env1 p).2 = some e
        ∧ (initializeClock env2 (initializeClock env1 p).1).2 = none
        ∧ usable (initializeClock env2 (initializeClock env1 p).1).1.clockRegisterMem = false)
    ∧ (∀ (env1 env2 : Env) (p : Pkg) (e : Error), p.dmaRegisterMem = none →
        env1.mapDMA = some e →
        (initializeDMA env1 p).2 = some e
        ∧ (initializeDMA env2 (initializeDMA env1 p).1).2 = none
        ∧ usable (initializeDMA env2 (initializeDMA env1 p).1).1.dmaRegisterMem = false)
    ∧ (∀ (env1 env2 : Env) (p : Pkg), env1.unmapClock = none → env2.mapClock = none →
        (cleanupClock env1 p).1.clockRegisterMem = none
        ∧ usable (initializeClock env2 (cleanupClock env1 p).1).1.clockRegisterMem = true)
    ∧ (∀ (env1 env2 : Env) (p : Pkg), env1.unmapDMA = none → env2.mapDMA = none →
        (cleanupDMA env1 p).1.dmaRegisterMem = none
        ∧ usable (initializeDMA env2 (cleanupDMA env1 p).1).1.dmaRegisterMem = true) := by
  refine ⟨rfl, rfl, rfl, rfl, rfl, rfl, rfl, ?_, ?_, ?_, ?_⟩
  · intro env1 env2 p e hp he
    have e1 : initializeClock env1 p
        = ({ p with clockRegisterMem := some { size := env1.pageSize, mapped := false, busAddr := 0 } },
            some e) := by
      unfold initializeClock
      rw [hp, he]
    rw [e1]
    exact ⟨rfl, rfl, rfl⟩
  · intro env1 env2 p e hp he
    have e1 : initializeDMA env1 p
        = ({ p with dmaRegisterMem := some { size := env1.pageSize, mapped := false, busAddr := 0 } },
            some e) := by
      unfold initializeDMA
      rw [hp, he]
    rw [e1]
    exact ⟨rfl, rfl, rfl⟩
  · intro env1 env2 p hu hm
    have e1 : (cleanupClock env1 p).1.clockRegisterMem = none := by
      unfold cleanupClock
      cases hc : p.clockRegisterMem with
      | none => simp only; exact hc
      | some m => simp only [hu]
    refine ⟨e1, ?_⟩
    generalize (cleanupClock env1 p).1 = q at e1
    unfold initializeClock
    rw [e1, hm]
    rfl
  · intro env1 env2 p hu hm
    have e1 : (cleanupDMA env1 p).1.dmaRegisterMem = none := by
      unfold cleanupDMA
      cases hc : p.dmaRegisterMem with
      | none => simp only; exact hc
      | some m => simp only [hu]
    refine ⟨e1, ?_⟩
    generalize (cleanupDMA env1 p).1 = q at e1
    unfold initializeDMA
    rw [e1, hm]
    rfl

/-! ## C31: faults of the shifts and of the getters after them -/

theorem NewLEDStrip_nat (n : Nat) :
    NewLEDStrip (n : Int) = some { leds := List.replicate n 0, count := n } := by
  unfold NewLEDStrip
  have c : ¬ ((n : Int) < 0) := by omega
  rw [if_neg c, Int.toNat_ofNat]

/-- On a strip that holds `count` LEDs every getter returns at every position. -/
theorem gettersReturn_of_wf (l : LEDStrip) (hwf : (l.leds.length : Int) = l.count) (i : Int) :
    l.gettersReturn i = true := by
  unfold LEDStrip.gettersReturn LEDStrip.UInt32 LEDStrip.Red LEDStrip.Green LEDStrip.Blue
    LEDStrip.White
  by_cases h : i < 0 ∨ i ≥ l.count
  · simp only [if_pos h, Option.isSome_some, Bool.and_self]
  · have e : l.elem i = some (l.leds.get ⟨i.toNat, by omega⟩) := by
      unfold LEDStrip.elem
      have c : ¬ (i < 0) := by omega
      rw [if_neg c]
      exact List.getElem?_eq_getElem (by omega)
    simp only [if_neg h, e, Option.map_some', Option.isSome_some, Bool.and_self]

/-- The method `ShiftRight` returns on every strip that holds `count >= 1` LEDs, and
the strip it leaves holds `count` LEDs. -/
theorem ShiftRight_returns (l : LEDStrip) (s : Int) (hwf : (l.leds.length : Int) = l.count)
    (hN : 0 < l.leds.length) :
    ∃ l2, l.ShiftRight s = some l2 ∧ (l2.leds.length : Int) = l2.count := by
  by_cases h0 : s ≤ 0
  · refine ⟨l, ?_, hwf⟩
    unfold LEDStrip.ShiftRight
    rw [if_pos h0]
  · obtain ⟨s2, rfl⟩ := Int.eq_ofNat_of_zero_le (Int.le_of_lt (Int.not_le.mp h0))
    by_cases hm : s2 % l.leds.length = 0
    · refine ⟨l, ?_, hwf⟩
      unfold LEDStrip.ShiftRight
      have c2 : ¬ (l.count = 0) := by omega
      have c3 : Int.tmod (s2 : Int) l.count = 0 := by
        rw [← hwf, tmod_cast, hm]
        rfl
      rw [if_neg h0, if_neg c2, if_pos c3]
    · refine ⟨_, ShiftRight_rotate l s2 hwf hN (by omega) hm, ?_⟩
      show ((l.leds.rotate _).length : Int) = l.count
      rw [List.length_rotate, hwf]

/-- After a `ShiftLeft(s)`, `s > 0` not a multiple of `count`, on a strip that holds
`count >= 1` LEDs, the element `l.leds[count - 1]` does not exist. -/
theorem ShiftLeft_last_missing (l : LEDStrip) (s : Nat) (hwf : (l.leds.length : Int) = l.count)
    (hN : 0 < l.leds.length) (hs : 0 < s) (hmod : s % l.leds.length ≠ 0) :
    ∃ l2, l.ShiftLeft (s : Int) = some l2 ∧ l2.count = l.count
      ∧ l2.elem (l.count - 1) = none := by
  have ha : s % l.leds.length < l.leds.length := Nat.mod_lt _ hN
  refine ⟨_, ShiftLeft_eq l s hwf hN hs hmod, rfl, ?_⟩
  unfold LEDStrip.elem
  have c : ¬ (l.count - 1 < 0) := by omega
  have e : (l.count - 1).toNat = l.leds.length - 1 := by omega
  rw [if_neg c, e]
  apply List.getElem?_eq_none
  show (l.leds.drop (s % l.leds.length + 1) ++ l.leds.take (s % l.leds.length)).length ≤ _
  rw [List.length_append, List.length_drop, List.length_take]
  omega

/-- C31: on the empty strip `NewLEDStrip(0)` every `ShiftRight(s)` and `ShiftLeft(s)`
with `s > 0` faults (the remainder `shift % l.count` divides by zero). On a strip
`NewLEDStrip(n)` with `n >= 2`, `ShiftLeft(1)` returns but leaves `n - 1` LEDs with
`count` still `n`, so that afterwards each of the getters `UInt32`, `Red`, `Green`,
`Blue`, `White` at position `n - 1` faults (index out of range). On a strip
`NewLEDStrip(n)` with `n >= 1`, `ShiftRight(s)` returns for every `s` and afterwards
every getter returns at every position. -/
theorem C31_shift_faults :
    (∀ s : Nat, (NewLEDStrip 0).bind (fun l => l.ShiftRight ((s : Int) + 1)) = none)
    ∧ (∀ s : Nat, (NewLEDStrip 0).bind (fun l => l.ShiftLeft ((s : Int) + 1)) = none)
    ∧ (∀ n : Nat, ∃ l2,
        (NewLEDStrip ((n : Int) + 2)).bind (fun l => l.ShiftLeft 1) = some l2
        ∧ l2.UInt32 ((n : Int) + 1) = none ∧ l2.Red ((n : Int) + 1) = none
        ∧ l2.Green ((n : Int) + 1) = none ∧ l2.Blue ((n : Int) + 1) = none
        ∧ l2.White ((n : Int) + 1) = none)
    ∧ (∀ (n : Nat) (s : Int), ∃ l2,
        (NewLEDStrip ((n : Int) + 1)).bind (fun l => l.ShiftRight s) = some l2
        ∧ ∀ i : Int, l2.gettersReturn i = true) := by
  refine ⟨?_, ?_, ?_, ?_⟩
  · intro s
    show LEDStrip.ShiftRight { leds := [], count := 0 } ((s : Int) + 1) = none
    unfold LEDStrip.ShiftRight
    have c1 : ¬ ((s : Int) + 1 ≤ 0) := by omega
    rw [if_neg c1, if_pos rfl]
  · intro s
    show LEDStrip.ShiftLeft { leds := [], count := 0 } ((s : Int) + 1) = none
    unfold LEDStrip.ShiftLeft
    have c1 : ¬ ((s : Int) + 1 ≤ 0) := by omega
    rw [if_neg c1, if_pos rfl]
  · intro n
    have e0 : (n : Int) + 2 = ((n + 2 : Nat) : Int) := by omega
    have hlen : (List.replicate (n + 2) 0 : List Nat).length = n + 2 := List.length_replicate _ _
    have hmod : 1 % (n + 2) = 1 := Nat.mod_eq_of_lt (by omega)
    obtain ⟨l2, h1, h2, h3⟩ := ShiftLeft_last_missing
      { leds := List.replicate (n + 2) 0, count := ((n + 2 : Nat) : Int) } 1
      (by show ((List.replicate (n + 2) 0 : List Nat).length : Int) = _; rw [hlen])
      (by show 0 < (List.replicate (n + 2) 0 : List Nat).length; rw [hlen]; omega)
      (by omega)
      (by show 1 % (List.replicate (n + 2) 0 : List Nat).length ≠ 0; rw [hlen, hmod]; omega)
    have h2 : l2.count = ((n + 2 : Nat) : Int) := h2
    have h3 : l2.elem (((n + 2 : Nat) : Int) - 1) = none := h3
    have e1 : ((n + 2 : Nat) : Int) - 1 = (n : Int) + 1 := by omega
    rw [e1] at h3
    have c1 : ¬ ((n : Int) + 1 < 0 ∨ (n : Int) + 1 ≥ l2.count) := by omega
    refine ⟨l2, ?_, ?_⟩
    · rw [e0, NewLEDStrip_nat]
      exact h1
    · unfold LEDStrip.UInt32 LEDStrip.Red LEDStrip.Green LEDStrip.Blue LEDStrip.White
      simp only [if_neg c1, h3, Option.map_none']
      exact ⟨trivial, trivial, trivial, trivial, trivial⟩
  · intro n s
    have e0 : (n : Int) + 1 = ((n + 1 : Nat) : Int) := by omega
    have hlen : (List.replicate (n + 1) 0 : List Nat).length = n + 1 := List.length_replicate _ _
    obtain ⟨l2, h1, h2⟩ := ShiftRight_returns
      { leds := List.replicate (n + 1) 0, count := ((n + 1 : Nat) : Int) } s
      (by show ((List.replicate (n + 1) 0 : List Nat).length : Int) = _; rw [hlen])
      (by show 0 < (List.replicate (n + 1) 0 : List Nat).length; rw [hlen]; omega)
    refine ⟨l2, ?_, fun i => gettersReturn_of_wf l2 h2 i⟩
    rw [e0, NewLEDStrip_nat]
    exact h1

end Rpiws281x
